import Mathlib

/-!
Sliding linear fit result: the query and interpolation layer.

A shallow embedding of `TwoDSlidingFitResult` (LArObjects/LArTwoDSlidingFitResult.cc).

Conventions of the embedding:

* `float` arithmetic is idealised as exact arithmetic in a linearly ordered field `K`
  with a floor function (so the definitions run on `ℚ` and the theorems also hold on `ℝ`);
  the functions whose properties depend on rounding are given a second time in binary
  floating-point arithmetic, each operation rounded to nearest with ties to even
  (`GetLayerF`, `GetLF`, `GetSurroundingLayerIteratorsF` in binary32, `AddPointD` in binary64);
* `std::sqrt` is passed as a parameter `sqrt : K → K` to the functions that call it
  (the theorems about magnitudes instantiate it with `Real.sqrt`);
* `int` layer indices are `Int`;
* a thrown `StatusCodeException` is the `Except.error` branch of `Except StatusCode`;
* the `std::map<int, LayerFitResult>` is its in-order sequence of (key, record) pairs;
  a valid iterator is the pair it points to, `end()` is `none`.
-/

namespace lar

/-- The status codes thrown by the code embedded here. -/
inductive StatusCode where
  | STATUS_CODE_FAILURE
  | STATUS_CODE_NOT_FOUND
  | STATUS_CODE_NOT_INITIALIZED
  | STATUS_CODE_INVALID_PARAMETER
  deriving DecidableEq, Repr

open StatusCode

/-- The value of `std::numeric_limits<float>::epsilon()`, two to the power -23. -/
def epsilon {K : Type} [LinearOrderedField K] : K := 1 / 2 ^ 23

/-- The three-vector class of the SDK (`pandora::CartesianVector`), whose declaration is
not part of the sources: componentwise arithmetic, dot and cross product as usual. -/
structure CartesianVector (K : Type) where
  x : K
  y : K
  z : K
  deriving DecidableEq, Repr

namespace CartesianVector

variable {K : Type} [LinearOrderedField K]

/-- Componentwise `operator+`. -/
def add (a b : CartesianVector K) : CartesianVector K := ⟨a.x + b.x, a.y + b.y, a.z + b.z⟩

/-- Componentwise `operator-`. -/
def sub (a b : CartesianVector K) : CartesianVector K := ⟨a.x - b.x, a.y - b.y, a.z - b.z⟩

/-- Scaling `operator*(float)`. -/
def smul (a : CartesianVector K) (s : K) : CartesianVector K := ⟨a.x * s, a.y * s, a.z * s⟩

/-- Scalar product `GetDotProduct`. -/
def GetDotProduct (a b : CartesianVector K) : K := a.x * b.x + a.y * b.y + a.z * b.z

/-- Vector product `GetCrossProduct`. -/
def GetCrossProduct (a b : CartesianVector K) : CartesianVector K :=
  ⟨a.y * b.z - b.y * a.z, a.z * b.x - b.z * a.x, a.x * b.y - b.x * a.y⟩

/-- Squared length `GetMagnitudeSquared`. -/
def GetMagnitudeSquared (a : CartesianVector K) : K := a.x * a.x + a.y * a.y + a.z * a.z

/-- Length `GetMagnitude`, the square root of the squared length. -/
def GetMagnitude (sqrt : K → K) (a : CartesianVector K) : K := sqrt a.GetMagnitudeSquared

/-- Normalisation `GetUnitVector` of the SDK: throws `STATUS_CODE_NOT_INITIALIZED` when the
magnitude is below epsilon (older releases of the SDK test for a zero magnitude), otherwise
divides each component by the magnitude. -/
def GetUnitVector (sqrt : K → K) (a : CartesianVector K) : Except StatusCode (CartesianVector K) :=
  let magnitude := a.GetMagnitude sqrt
  if |magnitude| < epsilon then .error STATUS_CODE_NOT_INITIALIZED
  else .ok ⟨a.x / magnitude, a.y / magnitude, a.z / magnitude⟩

end CartesianVector

/-- The per-layer record `TwoDSlidingFitResult::LayerFitResult` with its four members. -/
structure LayerFitResult (K : Type) where
  m_l : K
  m_fitT : K
  m_gradient : K
  m_rms : K
  deriving DecidableEq, Repr

namespace LayerFitResult

variable {K : Type}

/-- Getter `GetL`. -/
def GetL (r : LayerFitResult K) : K := r.m_l

/-- Getter `GetFitT`. -/
def GetFitT (r : LayerFitResult K) : K := r.m_fitT

/-- Getter `GetGradient`. -/
def GetGradient (r : LayerFitResult K) : K := r.m_gradient

/-- Getter `GetRms`. -/
def GetRms (r : LayerFitResult K) : K := r.m_rms

end LayerFitResult

/-- The accumulator `TwoDSlidingFitResult::LayerFitContribution` with its six members. -/
structure LayerFitContribution (K : Type) where
  m_sumT : K
  m_sumL : K
  m_sumTT : K
  m_sumLT : K
  m_sumLL : K
  m_nPoints : Nat
  deriving DecidableEq, Repr

namespace LayerFitContribution

variable {K : Type} [LinearOrderedField K]

/-- The default constructor: all sums and the point count are zero. -/
def new : LayerFitContribution K := ⟨0, 0, 0, 0, 0, 0⟩

/-- Accumulation `AddPoint(l, t)`, in exact arithmetic (`AddPointD` rounds as the code
does). -/
def AddPoint (c : LayerFitContribution K) (l t : K) : LayerFitContribution K :=
  { m_sumT := c.m_sumT + t
    m_sumL := c.m_sumL + l
    m_sumTT := c.m_sumTT + t * t
    m_sumLT := c.m_sumLT + l * t
    m_sumLL := c.m_sumLL + l * l
    m_nPoints := c.m_nPoints + 1 }

end LayerFitContribution

/-- The map `LayerFitResultMap` (a `std::map<int, LayerFitResult>`), as the sequence of its
(key, record) pairs in iteration order. -/
abbrev LayerFitResultMap (K : Type) := List (Int × LayerFitResult K)

/-- A valid (dereferenceable) iterator into the map: the pair it points to. -/
abbrev LayerIter (K : Type) := Int × LayerFitResult K

namespace LayerFitResultMap

variable {K : Type}

/-- The ordering invariant of `std::map`: keys strictly increasing in iteration order. -/
def Ordered (m : LayerFitResultMap K) : Prop := List.Pairwise (fun a b => a.1 < b.1) m

instance (m : LayerFitResultMap K) : Decidable (Ordered m) := by
  unfold Ordered; infer_instance

/-- Lookup `find(layer)`: the entry with that key, or `none` for `end()`. -/
def find (m : LayerFitResultMap K) (layer : Int) : Option (LayerIter K) :=
  List.find? (fun e => decide (e.1 = layer)) m

/-- Iterator `begin()`: the first entry (`none` when the map is empty). -/
def begin (m : LayerFitResultMap K) : Option (LayerIter K) := m.head?

/-- Iterator `rbegin()`, also `--end()`: the last entry (`none` when the map is empty). -/
def rbegin (m : LayerFitResultMap K) : Option (LayerIter K) := m.getLast?

/-- The target layer is a boundary of the populated span: no populated key lies below it, or
none lies above it. -/
def AtBoundary (m : LayerFitResultMap K) (target : Int) : Prop :=
  (∀ x ∈ m, target ≤ x.1) ∨ (∀ x ∈ m, x.1 ≤ target)

/-- The target layer lies strictly between the least and the greatest populated key. -/
def Interior (m : LayerFitResultMap K) (target : Int) : Prop :=
  (∃ x ∈ m, x.1 < target) ∧ (∃ x ∈ m, target < x.1)

/-- The entry `a` holds the greatest populated key that is at most `target`. -/
def IsLowerBracket (m : LayerFitResultMap K) (target : Int) (a : LayerIter K) : Prop :=
  a ∈ m ∧ a.1 ≤ target ∧ ∀ x ∈ m, x.1 ≤ target → x.1 ≤ a.1

/-- The entry `b` holds the least populated key that is at least `target + 1`. -/
def IsUpperBracket (m : LayerFitResultMap K) (target : Int) (b : LayerIter K) : Prop :=
  b ∈ m ∧ target + 1 ≤ b.1 ∧ ∀ x ∈ m, target + 1 ≤ x.1 → b.1 ≤ x.1

end LayerFitResultMap

/-- The members of `TwoDSlidingFitResult` read by the queries. -/
structure TwoDSlidingFitResult (K : Type) where
  m_axisIntercept : CartesianVector K
  m_axisDirection : CartesianVector K
  m_layerFitResultMap : LayerFitResultMap K

/-- The four outputs of `GetSurroundingLayerIterators`. -/
structure SurroundingLayers (K : Type) where
  firstLayerIter : LayerIter K
  secondLayerIter : LayerIter K
  firstWeight : K
  secondWeight : K
  deriving DecidableEq, Repr

namespace TwoDSlidingFitResult

section Loops

variable {K : Type}

/-- The loop `for (int iLayer = startLayer; iLayer >= minLayer; --iLayer)` of the rL locate,
entered at `iLayer`: the first entry found, or `none` (the iterator is left at `end()`). -/
def firstLayerLoop (m : LayerFitResultMap K) (minLayer : Int) (iLayer : Int) :
    Option (LayerIter K) :=
  if minLayer ≤ iLayer then
    match m.find iLayer with
    | some e => some e
    | none => firstLayerLoop m minLayer (iLayer - 1)
  else none
termination_by (iLayer + 1 - minLayer).toNat
decreasing_by omega

/-- The loop `for (int iLayer = startLayer+1; iLayer <= maxLayer; ++iLayer)` of the rL locate,
entered at `iLayer`: the first entry found, or `none` (the iterator is left at `end()`). -/
def secondLayerLoop (m : LayerFitResultMap K) (maxLayer : Int) (iLayer : Int) :
    Option (LayerIter K) :=
  if iLayer ≤ maxLayer then
    match m.find iLayer with
    | some e => some e
    | none => secondLayerLoop m maxLayer (iLayer + 1)
  else none
termination_by (maxLayer + 1 - iLayer).toNat
decreasing_by omega

/-- The loop `for (int iLayer = startLayer; iLayer < maxLayer; ++iLayer)` of the coordinate
locate, entered at `iLayer`: the first entry found, or `none` (the iterator is at `end()`). -/
def firstLayerLoopP (m : LayerFitResultMap K) (maxLayer : Int) (iLayer : Int) :
    Option (LayerIter K) :=
  if iLayer < maxLayer then
    match m.find iLayer with
    | some e => some e
    | none => firstLayerLoopP m maxLayer (iLayer + 1)
  else none
termination_by (maxLayer - iLayer).toNat
decreasing_by omega

end Loops

variable {K : Type} [LinearOrderedField K]

/-- Local coordinates `GetLocalPosition`: returns the pair (rL, rT). -/
def GetLocalPosition (sqrt : K → K) (f : TwoDSlidingFitResult K) (position : CartesianVector K) :
    K × K :=
  let displacement := position.sub f.m_axisIntercept
  let crossProduct := displacement.GetCrossProduct f.m_axisDirection
  let rL := displacement.GetDotProduct f.m_axisDirection
  let rT := if crossProduct.y < 0 then -1 * crossProduct.GetMagnitude sqrt
            else crossProduct.GetMagnitude sqrt
  (rL, rT)

/-- Global coordinates `GetGlobalPosition` of the local pair (rL, rT). -/
def GetGlobalPosition (f : TwoDSlidingFitResult K) (rL rT : K) : CartesianVector K :=
  let positiveTDirection := f.m_axisDirection.GetCrossProduct ⟨0, 1, 0⟩
  (f.m_axisIntercept.add (f.m_axisDirection.smul rL)).add (positiveTDirection.smul rT)

/-- Layer index `GetLayer`: the floor of rL over the pitch `zPitch` of the pseudo-layer
calculator (an external constant, passed as a parameter), in exact arithmetic (`GetLayerF`
rounds as the code does). -/
def GetLayer [FloorRing K] (zPitch : K) (rL : K) : Int := Int.floor (rL / zPitch)

/-- Longitudinal coordinate `GetL` of a layer index, in exact arithmetic (`GetLF` rounds as
the code does). -/
def GetL (zPitch : K) (layer : Int) : K := (layer : K) * zPitch

/-- The locate by longitudinal coordinate, `GetSurroundingLayerIterators(rL, ...)`. -/
def GetSurroundingLayerIterators [FloorRing K] (zPitch : K) (f : TwoDSlidingFitResult K) (rL : K) :
    Except StatusCode (SurroundingLayers K) :=
  match f.m_layerFitResultMap.begin, f.m_layerFitResultMap.rbegin with
  | some b, some r =>
    let minLayer := b.1
    let maxLayer := r.1
    let startLayer := GetLayer zPitch rL
    if startLayer < minLayer ∨ startLayer > maxLayer then .error STATUS_CODE_INVALID_PARAMETER
    else if startLayer = minLayer then .ok ⟨b, b, 1 / 2, 1 / 2⟩
    else if startLayer = maxLayer then .ok ⟨r, r, 1 / 2, 1 / 2⟩
    else
      match firstLayerLoop f.m_layerFitResultMap minLayer startLayer with
      | none => .error STATUS_CODE_NOT_FOUND
      | some firstLayerIter =>
        match secondLayerLoop f.m_layerFitResultMap maxLayer (startLayer + 1) with
        | none => .error STATUS_CODE_NOT_FOUND
        | some secondLayerIter =>
          let deltaL := rL - firstLayerIter.2.GetL
          let deltaLLayers := secondLayerIter.2.GetL - firstLayerIter.2.GetL
          if |deltaLLayers| < epsilon then .error STATUS_CODE_FAILURE
          else .ok ⟨firstLayerIter, secondLayerIter, 1 - deltaL / deltaLLayers, deltaL / deltaLLayers⟩
  | _, _ => .error STATUS_CODE_NOT_INITIALIZED

/-- The test `useX ? (position.GetX() > p) : (position.GetZ() > p)` of the coordinate locate. -/
def isAhead (p : K) (useX : Bool) (position : CartesianVector K) : Bool :=
  if useX then decide (position.x > p) else decide (position.z > p)

/-- The loop `for (int iLayer = firstLayerIter->first + increment; (iLayer >= minLayer) &&
(iLayer <= maxLayer); iLayer += increment)` of the coordinate locate, entered at `iLayer` with
the current values of `secondLayerIter` and `secondLayerPosition`; returns their final values.
The increment is -1 or +1. -/
def secondLayerLoopP (f : TwoDSlidingFitResult K) (p : K) (useX : Bool) (firstIsAhead : Bool)
    (minLayer maxLayer : Int) (increment : Int) (hinc : increment = -1 ∨ increment = 1)
    (secondLayerIter : Option (LayerIter K)) (secondLayerPosition : CartesianVector K)
    (iLayer : Int) : Option (LayerIter K) × CartesianVector K :=
  if minLayer ≤ iLayer ∧ iLayer ≤ maxLayer then
    match f.m_layerFitResultMap.find iLayer with
    | none =>
      secondLayerLoopP f p useX firstIsAhead minLayer maxLayer increment hinc
        secondLayerIter secondLayerPosition (iLayer + increment)
    | some tempIter =>
      let newPosition := f.GetGlobalPosition tempIter.2.GetL tempIter.2.GetFitT
      let secondIsAhead := isAhead p useX newPosition
      if firstIsAhead ≠ secondIsAhead then (some tempIter, newPosition)
      else
        secondLayerLoopP f p useX firstIsAhead minLayer maxLayer increment hinc
          (some tempIter) newPosition (iLayer + increment)
  else (secondLayerIter, secondLayerPosition)
termination_by (if increment = -1 then iLayer + 1 - minLayer else maxLayer + 1 - iLayer).toNat
decreasing_by
  all_goals
    rcases hinc with h | h <;> subst h <;> simp <;> omega

/-- The choice `increment = ((firstIsAhead == increasesWithLayers) ? -1 : +1)`. -/
def walkIncrement (firstIsAhead increasesWithLayers : Bool) : Int :=
  if firstIsAhead = increasesWithLayers then -1 else 1

/-- The locate by global coordinate, `GetSurroundingLayerIterators(p, useX, ...)`. -/
def GetSurroundingLayerIteratorsP [FloorRing K] (zPitch : K) (f : TwoDSlidingFitResult K)
    (p : K) (useX : Bool) : Except StatusCode (SurroundingLayers K) :=
  match f.m_layerFitResultMap.begin, f.m_layerFitResultMap.rbegin with
  | some b, some r =>
    if useX = true ∧ |f.m_axisDirection.x| < epsilon then .error STATUS_CODE_INVALID_PARAMETER
    else if useX = false ∧ |f.m_axisDirection.z| < epsilon then
      .error STATUS_CODE_INVALID_PARAMETER
    else
      let firstL := if useX then (p - f.m_axisIntercept.x) / f.m_axisDirection.x
                    else (p - f.m_axisIntercept.z) / f.m_axisDirection.z
      let minLayer := b.1
      let maxLayer := r.1
      let startLayer := GetLayer zPitch firstL
      if startLayer < minLayer ∨ startLayer > maxLayer then .error STATUS_CODE_INVALID_PARAMETER
      else if startLayer = minLayer then .ok ⟨b, b, 1 / 2, 1 / 2⟩
      else if startLayer = maxLayer then .ok ⟨r, r, 1 / 2, 1 / 2⟩
      else
        match firstLayerLoopP f.m_layerFitResultMap maxLayer startLayer with
        | none => .error STATUS_CODE_NOT_FOUND
        | some firstLayerIter =>
          let firstLayerPosition :=
            f.GetGlobalPosition firstLayerIter.2.GetL firstLayerIter.2.GetFitT
          let firstIsAhead := isAhead p useX firstLayerPosition
          let increasesWithLayers : Bool :=
            if useX then decide (f.m_axisDirection.x > 0) else decide (f.m_axisDirection.z > 0)
          let walk := secondLayerLoopP f p useX firstIsAhead minLayer maxLayer
            (walkIncrement firstIsAhead increasesWithLayers)
            (by unfold walkIncrement; split <;> simp)
            none ⟨0, 0, 0⟩ (firstLayerIter.1 + walkIncrement firstIsAhead increasesWithLayers)
          match walk.1 with
          | none => .error STATUS_CODE_NOT_FOUND
          | some secondLayerIter =>
            let secondLayerPosition := walk.2
            let deltaP := if useX then p - firstLayerPosition.x else p - firstLayerPosition.z
            let deltaPLayers :=
              if useX then secondLayerPosition.x - firstLayerPosition.x
              else secondLayerPosition.z - firstLayerPosition.z
            if |deltaPLayers| < epsilon then .error STATUS_CODE_FAILURE
            else .ok ⟨firstLayerIter, secondLayerIter, 1 - deltaP / deltaPLayers,
              deltaP / deltaPLayers⟩
  | _, _ => .error STATUS_CODE_NOT_INITIALIZED

/-- The locate by position, `GetSurroundingLayerIterators(position, ...)`. -/
def GetSurroundingLayerIteratorsV [FloorRing K] (sqrt : K → K) (zPitch : K)
    (f : TwoDSlidingFitResult K) (position : CartesianVector K) :
    Except StatusCode (SurroundingLayers K) :=
  f.GetSurroundingLayerIterators zPitch (f.GetLocalPosition sqrt position).1

/-- Position blending `GetGlobalFitInterpolatedPosition`. Two iterators into the map are equal
exactly when they point to the same key. -/
def GetGlobalFitInterpolatedPosition (f : TwoDSlidingFitResult K)
    (firstLayerIter secondLayerIter : LayerIter K) (firstWeight secondWeight : K) :
    Except StatusCode (CartesianVector K) :=
  let firstLayerPosition := f.GetGlobalPosition firstLayerIter.2.GetL firstLayerIter.2.GetFitT
  if firstLayerIter.1 = secondLayerIter.1 then .ok firstLayerPosition
  else
    let secondLayerPosition :=
      f.GetGlobalPosition secondLayerIter.2.GetL secondLayerIter.2.GetFitT
    if firstWeight + secondWeight < epsilon then .error STATUS_CODE_FAILURE
    else .ok (((firstLayerPosition.smul firstWeight).add
      (secondLayerPosition.smul secondWeight)).smul (1 / (firstWeight + secondWeight)))

/-- The global unit direction of one layer, as both halves of
`GetGlobalFitInterpolatedDirection` compute it from the layer gradient. -/
def layerDirection (sqrt : K → K) (f : TwoDSlidingFitResult K) (layerGrad : K) :
    Except StatusCode (CartesianVector K) :=
  let layerPL := 1 / sqrt (1 + layerGrad * layerGrad)
  let layerPT := layerGrad / sqrt (1 + layerGrad * layerGrad)
  let layerStep := f.GetGlobalPosition layerPL layerPT
  (layerStep.sub f.m_axisIntercept).GetUnitVector sqrt

/-- Direction blending `GetGlobalFitInterpolatedDirection`. -/
def GetGlobalFitInterpolatedDirection (sqrt : K → K) (f : TwoDSlidingFitResult K)
    (firstLayerIter secondLayerIter : LayerIter K) (firstWeight secondWeight : K) :
    Except StatusCode (CartesianVector K) :=
  match layerDirection sqrt f firstLayerIter.2.GetGradient with
  | .error c => .error c
  | .ok firstLayerDirection =>
    if firstLayerIter.1 = secondLayerIter.1 then .ok firstLayerDirection
    else
      match layerDirection sqrt f secondLayerIter.2.GetGradient with
      | .error c => .error c
      | .ok secondLayerDirection =>
        if firstWeight + secondWeight < epsilon then .error STATUS_CODE_FAILURE
        else ((firstLayerDirection.smul firstWeight).add
          (secondLayerDirection.smul secondWeight)).GetUnitVector sqrt

/-- Position query `GetGlobalFitPosition(rL, position)`. -/
def GetGlobalFitPosition [FloorRing K] (zPitch : K) (f : TwoDSlidingFitResult K) (rL : K) :
    Except StatusCode (CartesianVector K) :=
  match f.GetSurroundingLayerIterators zPitch rL with
  | .error c => .error c
  | .ok s => f.GetGlobalFitInterpolatedPosition s.firstLayerIter s.secondLayerIter
      s.firstWeight s.secondWeight

/-- Direction query `GetGlobalFitDirection(rL, direction)`. -/
def GetGlobalFitDirection [FloorRing K] (sqrt : K → K) (zPitch : K) (f : TwoDSlidingFitResult K)
    (rL : K) : Except StatusCode (CartesianVector K) :=
  match f.GetSurroundingLayerIterators zPitch rL with
  | .error c => .error c
  | .ok s => f.GetGlobalFitInterpolatedDirection sqrt s.firstLayerIter s.secondLayerIter
      s.firstWeight s.secondWeight

/-- Residual query `GetRms(rL)`. -/
def GetRms [FloorRing K] (zPitch : K) (f : TwoDSlidingFitResult K) (rL : K) :
    Except StatusCode K :=
  match f.GetSurroundingLayerIterators zPitch rL with
  | .error c => .error c
  | .ok s =>
    let firstRms := s.firstLayerIter.2.GetRms
    if s.firstLayerIter.1 = s.secondLayerIter.1 then .ok firstRms
    else
      let secondRms := s.secondLayerIter.2.GetRms
      if s.firstWeight + s.secondWeight < epsilon then .error STATUS_CODE_FAILURE
      else .ok ((firstRms * s.firstWeight + secondRms * s.secondWeight) /
        (s.firstWeight + s.secondWeight))

/-- Position query `GetGlobalFitPosition(p, useX, position)`. -/
def GetGlobalFitPositionP [FloorRing K] (zPitch : K) (f : TwoDSlidingFitResult K) (p : K)
    (useX : Bool) : Except StatusCode (CartesianVector K) :=
  match f.GetSurroundingLayerIteratorsP zPitch p useX with
  | .error c => .error c
  | .ok s => f.GetGlobalFitInterpolatedPosition s.firstLayerIter s.secondLayerIter
      s.firstWeight s.secondWeight

/-- Direction query `GetGlobalFitDirection(p, useX, direction)`. -/
def GetGlobalFitDirectionP [FloorRing K] (sqrt : K → K) (zPitch : K)
    (f : TwoDSlidingFitResult K) (p : K) (useX : Bool) : Except StatusCode (CartesianVector K) :=
  match f.GetSurroundingLayerIteratorsP zPitch p useX with
  | .error c => .error c
  | .ok s => f.GetGlobalFitInterpolatedDirection sqrt s.firstLayerIter s.secondLayerIter
      s.firstWeight s.secondWeight

/-- Projection query `GetGlobalFitProjection`. -/
def GetGlobalFitProjection [FloorRing K] (sqrt : K → K) (zPitch : K)
    (f : TwoDSlidingFitResult K) (inputPosition : CartesianVector K) :
    Except StatusCode (CartesianVector K) :=
  f.GetGlobalFitPosition zPitch (f.GetLocalPosition sqrt inputPosition).1

/-- Query `GetLocalFitPosition`: returns the triple (rL, rT, layer). -/
def GetLocalFitPosition [FloorRing K] (sqrt : K → K) (zPitch : K) (f : TwoDSlidingFitResult K)
    (x : K) : Except StatusCode (K × K × Int) :=
  match f.GetGlobalFitPositionP zPitch x true with
  | .error c => .error c
  | .ok position =>
    let rLT := f.GetLocalPosition sqrt position
    .ok (rLT.1, rLT.2, GetLayer zPitch rLT.1)

/-- Query `GetGlobalMinLayerPosition`. -/
def GetGlobalMinLayerPosition (f : TwoDSlidingFitResult K) :
    Except StatusCode (CartesianVector K) :=
  match f.m_layerFitResultMap.begin with
  | none => .error STATUS_CODE_NOT_INITIALIZED
  | some iter => .ok (f.GetGlobalPosition iter.2.GetL iter.2.GetFitT)

/-- Query `GetGlobalMaxLayerPosition`. -/
def GetGlobalMaxLayerPosition (f : TwoDSlidingFitResult K) :
    Except StatusCode (CartesianVector K) :=
  match f.m_layerFitResultMap.rbegin with
  | none => .error STATUS_CODE_NOT_INITIALIZED
  | some iter => .ok (f.GetGlobalPosition iter.2.GetL iter.2.GetFitT)

/-- The global position of the fitted point of a layer record, `GetGlobalPosition(GetL(),
GetFitT())`, as the locates and the interpolations compute it for an iterator. -/
def layerPosition (f : TwoDSlidingFitResult K) (e : LayerIter K) : CartesianVector K :=
  f.GetGlobalPosition e.2.GetL e.2.GetFitT

/-- The coordinate a coordinate-mode query reads from a vector: X when `useX`, Z otherwise. -/
def chosenCoordinate (useX : Bool) (v : CartesianVector K) : K := if useX then v.x else v.z

/-- The estimate `firstL` of the coordinate locate: the coordinate `p` projected back on the
axis through the chosen component alone. -/
def firstL (f : TwoDSlidingFitResult K) (p : K) (useX : Bool) : K :=
  (p - chosenCoordinate useX f.m_axisIntercept) / chosenCoordinate useX f.m_axisDirection

/-- The increment of the coordinate locate for the first iterator `a`: -1 when
`(coordinate of a > p)` equals `(axis component > 0)`, +1 otherwise. -/
def incrementAt (f : TwoDSlidingFitResult K) (p : K) (useX : Bool) (a : LayerIter K) : Int :=
  if decide (chosenCoordinate useX (f.layerPosition a) > p) =
      decide (chosenCoordinate useX f.m_axisDirection > 0) then -1 else 1

/-- The second loop of the coordinate locate as it is entered after the first iterator `a`
has been found: from `a->first + increment`, with `secondLayerIter` at `end()`. -/
def secondLayerWalk (f : TwoDSlidingFitResult K) (p : K) (useX : Bool) (minLayer maxLayer : Int)
    (a : LayerIter K) : Option (LayerIter K) × CartesianVector K :=
  secondLayerLoopP f p useX (isAhead p useX (f.layerPosition a)) minLayer maxLayer
    (f.incrementAt p useX a) (by unfold incrementAt; split <;> simp)
    none ⟨0, 0, 0⟩ (a.1 + f.incrementAt p useX a)

end TwoDSlidingFitResult

/-! The construction of the layer map. Its implementation (LArHelpers/LArClusterHelper.cc) is
not part of the sources; only its declarations are (LArHelpers/LArClusterHelper.h). -/

namespace LArClusterHelper

section Construction

variable {K : Type} [LinearOrderedField K]

/-- Modelled from the spec: the error kinds of a failed construction (section 7); the body of
`LArTwoDSlidingFit` that throws it is missing. -/
inductive ConstructionError where
  | InsufficientData
  deriving DecidableEq, Repr

/-- Modelled from the spec: the Layer Fit Contribution accumulated from a list of local pairs
(L, T), built incrementally by adding points (section 3); the accumulation loop of
`LArTwoDSlidingFit` is missing. -/
def accumulate (points : List (K × K)) : LayerFitContribution K :=
  points.foldl (fun c lt => c.AddPoint lt.1 lt.2) LayerFitContribution.new

/-- Modelled from the spec: the points of all layers within the half-window on either side of
`layer`, inclusive (section 4.3); the windowing of `StoreSlidingFitResults` is missing. -/
def windowPoints [FloorRing K] (zPitch : K) (points : List (K × K)) (layer : Int)
    (halfWindow : Nat) : List (K × K) :=
  points.filter (fun lt =>
    decide (layer - (halfWindow : Int) ≤ TwoDSlidingFitResult.GetLayer zPitch lt.1 ∧
      TwoDSlidingFitResult.GetLayer zPitch lt.1 ≤ layer + (halfWindow : Int)))

/-- Modelled from the spec: the least-squares line through the points of one window, from the
sufficient statistics (section 4.3): no record for a degenerate denominator; otherwise the
representative L is the mean L of the contributing points, the fitted T is the value of the
line there and the RMS is the root of the mean squared residual. The per-layer fit of
`StoreSlidingFitResults` is missing. -/
def fitWindow (sqrt : K → K) (points : List (K × K)) : Option (LayerFitResult K) :=
  let c := accumulate points
  let n : K := (c.m_nPoints : K)
  let denominator := n * c.m_sumLL - c.m_sumL * c.m_sumL
  if denominator = 0 then none
  else
    let gradient := (n * c.m_sumLT - c.m_sumL * c.m_sumT) / denominator
    let intercept := (c.m_sumT - gradient * c.m_sumL) / n
    let l := c.m_sumL / n
    let fitT := gradient * l + intercept
    let rms := sqrt ((points.map (fun lt =>
      (lt.2 - (gradient * lt.1 + intercept)) * (lt.2 - (gradient * lt.1 + intercept)))).sum / n)
    some ⟨l, fitT, gradient, rms⟩

/-- Modelled from the spec: `StoreSlidingFitResults` (section 4.3), whose body is missing: for
every populated layer from `minLayer` to `maxLayer`, in increasing order, the record fitted to
the points of its window, when there is one. -/
def StoreSlidingFitResults [FloorRing K] (sqrt : K → K) (zPitch : K) (points : List (K × K))
    (layerFitHalfWindow : Nat) (minLayer maxLayer : Int) : LayerFitResultMap K :=
  ((List.range (maxLayer - minLayer + 1).toNat).map
      (fun (i : Nat) => minLayer + (i : Int))).filterMap
    (fun layer =>
      if points.any (fun lt => decide (TwoDSlidingFitResult.GetLayer zPitch lt.1 = layer)) then
        (fitWindow sqrt (windowPoints zPitch points layer layerFitHalfWindow)).map
          (fun record => (layer, record))
      else none)

/-- Modelled from the spec: `LArTwoDSlidingFit` with a specified primary axis (sections 4.3 and
6), whose body is missing: each point of the cluster is projected to (L, T) and assigned to the
layer of L; the construction fails with `InsufficientData` when the cluster spans fewer layers
than the configured minimum `minLayerSpan` or when the map would be empty. -/
def LArTwoDSlidingFit [FloorRing K] (sqrt : K → K) (zPitch : K) (minLayerSpan : Nat)
    (cluster : List (CartesianVector K)) (layerFitHalfWindow : Nat)
    (axisIntercept axisDirection : CartesianVector K) :
    Except ConstructionError (TwoDSlidingFitResult K) :=
  let points := cluster.map
    (TwoDSlidingFitResult.GetLocalPosition sqrt ⟨axisIntercept, axisDirection, []⟩)
  let layers := points.map (fun lt => TwoDSlidingFitResult.GetLayer zPitch lt.1)
  match layers.min?, layers.max? with
  | some minLayer, some maxLayer =>
    if maxLayer - minLayer + 1 < (minLayerSpan : Int) then .error .InsufficientData
    else
      let layerFitResultMap :=
        StoreSlidingFitResults sqrt zPitch points layerFitHalfWindow minLayer maxLayer
      if layerFitResultMap.isEmpty then .error .InsufficientData
      else .ok ⟨axisIntercept, axisDirection, layerFitResultMap⟩
  | _, _ => .error .InsufficientData

/-- The ordinary-least-squares slope of T on L over a list of local pairs (L, T), written with
plain sums over the list: `(n * SumLT - SumL * SumT) / (n * SumLL - SumL * SumL)`. -/
def olsSlope (points : List (K × K)) : K :=
  ((points.length : K) * (points.map (fun lt => lt.1 * lt.2)).sum -
      (points.map (fun lt => lt.1)).sum * (points.map (fun lt => lt.2)).sum) /
    ((points.length : K) * (points.map (fun lt => lt.1 * lt.1)).sum -
      (points.map (fun lt => lt.1)).sum * (points.map (fun lt => lt.1)).sum)

end Construction

end LArClusterHelper

/-! The layer lookups of the two locates. Each loop is written once more, returning with its
result the list of the layer indices it passes to `find`, in the order of the calls; and so is
each locate, with the lookups of its loops. -/

namespace TwoDSlidingFitResult

section Lookups

variable {K : Type}

/-- The loop of `firstLayerLoop` with the layer indices it looks up. -/
def firstLayerLoopTraced (m : LayerFitResultMap K) (minLayer : Int) (iLayer : Int) :
    Option (LayerIter K) × List Int :=
  if minLayer ≤ iLayer then
    match m.find iLayer with
    | some e => (some e, [iLayer])
    | none =>
      ((firstLayerLoopTraced m minLayer (iLayer - 1)).1,
        iLayer :: (firstLayerLoopTraced m minLayer (iLayer - 1)).2)
  else (none, [])
termination_by (iLayer + 1 - minLayer).toNat
decreasing_by all_goals omega

/-- The loop of `secondLayerLoop` with the layer indices it looks up. -/
def secondLayerLoopTraced (m : LayerFitResultMap K) (maxLayer : Int) (iLayer : Int) :
    Option (LayerIter K) × List Int :=
  if iLayer ≤ maxLayer then
    match m.find iLayer with
    | some e => (some e, [iLayer])
    | none =>
      ((secondLayerLoopTraced m maxLayer (iLayer + 1)).1,
        iLayer :: (secondLayerLoopTraced m maxLayer (iLayer + 1)).2)
  else (none, [])
termination_by (maxLayer + 1 - iLayer).toNat
decreasing_by all_goals omega

/-- The loop of `firstLayerLoopP` with the layer indices it looks up. -/
def firstLayerLoopPTraced (m : LayerFitResultMap K) (maxLayer : Int) (iLayer : Int) :
    Option (LayerIter K) × List Int :=
  if iLayer < maxLayer then
    match m.find iLayer with
    | some e => (some e, [iLayer])
    | none =>
      ((firstLayerLoopPTraced m maxLayer (iLayer + 1)).1,
        iLayer :: (firstLayerLoopPTraced m maxLayer (iLayer + 1)).2)
  else (none, [])
termination_by (maxLayer - iLayer).toNat
decreasing_by all_goals omega

/-- The number of layer indices from the key of `begin()` to the key of `rbegin()`, both
included; zero for an empty map. -/
def layerSpan (m : LayerFitResultMap K) : Nat :=
  match m.begin, m.rbegin with
  | some b, some r => (r.1 - b.1 + 1).toNat
  | _, _ => 0

end Lookups

section LookupsOfLocates

variable {K : Type} [LinearOrderedField K]

/-- The loop of `secondLayerLoopP` with the layer indices it looks up. -/
def secondLayerLoopPTraced (f : TwoDSlidingFitResult K) (p : K) (useX : Bool)
    (firstIsAhead : Bool) (minLayer maxLayer : Int) (increment : Int)
    (hinc : increment = -1 ∨ increment = 1)
    (secondLayerIter : Option (LayerIter K)) (secondLayerPosition : CartesianVector K)
    (iLayer : Int) : (Option (LayerIter K) × CartesianVector K) × List Int :=
  if minLayer ≤ iLayer ∧ iLayer ≤ maxLayer then
    match f.m_layerFitResultMap.find iLayer with
    | none =>
      ((secondLayerLoopPTraced f p useX firstIsAhead minLayer maxLayer increment hinc
          secondLayerIter secondLayerPosition (iLayer + increment)).1,
        iLayer :: (secondLayerLoopPTraced f p useX firstIsAhead minLayer maxLayer increment hinc
          secondLayerIter secondLayerPosition (iLayer + increment)).2)
    | some tempIter =>
      let newPosition := f.GetGlobalPosition tempIter.2.GetL tempIter.2.GetFitT
      let secondIsAhead := isAhead p useX newPosition
      if firstIsAhead ≠ secondIsAhead then ((some tempIter, newPosition), [iLayer])
      else
        ((secondLayerLoopPTraced f p useX firstIsAhead minLayer maxLayer increment hinc
            (some tempIter) newPosition (iLayer + increment)).1,
          iLayer :: (secondLayerLoopPTraced f p useX firstIsAhead minLayer maxLayer increment
            hinc (some tempIter) newPosition (iLayer + increment)).2)
  else ((secondLayerIter, secondLayerPosition), [])
termination_by (if increment = -1 then iLayer + 1 - minLayer else maxLayer + 1 - iLayer).toNat
decreasing_by
  all_goals
    rcases hinc with h | h <;> subst h <;> simp <;> omega

/-- The locate `GetSurroundingLayerIterators(rL, ...)` with the layer indices it looks up. -/
def GetSurroundingLayerIteratorsTraced [FloorRing K] (zPitch : K) (f : TwoDSlidingFitResult K)
    (rL : K) : Except StatusCode (SurroundingLayers K) × List Int :=
  match f.m_layerFitResultMap.begin, f.m_layerFitResultMap.rbegin with
  | some b, some r =>
    let minLayer := b.1
    let maxLayer := r.1
    let startLayer := GetLayer zPitch rL
    if startLayer < minLayer ∨ startLayer > maxLayer then
      (.error STATUS_CODE_INVALID_PARAMETER, [])
    else if startLayer = minLayer then (.ok ⟨b, b, 1 / 2, 1 / 2⟩, [])
    else if startLayer = maxLayer then (.ok ⟨r, r, 1 / 2, 1 / 2⟩, [])
    else
      let first := firstLayerLoopTraced f.m_layerFitResultMap minLayer startLayer
      match first.1 with
      | none => (.error STATUS_CODE_NOT_FOUND, first.2)
      | some firstLayerIter =>
        let second := secondLayerLoopTraced f.m_layerFitResultMap maxLayer (startLayer + 1)
        match second.1 with
        | none => (.error STATUS_CODE_NOT_FOUND, first.2 ++ second.2)
        | some secondLayerIter =>
          let deltaL := rL - firstLayerIter.2.GetL
          let deltaLLayers := secondLayerIter.2.GetL - firstLayerIter.2.GetL
          (if |deltaLLayers| < epsilon then .error STATUS_CODE_FAILURE
            else .ok ⟨firstLayerIter, secondLayerIter, 1 - deltaL / deltaLLayers,
              deltaL / deltaLLayers⟩,
            first.2 ++ second.2)
  | _, _ => (.error STATUS_CODE_NOT_INITIALIZED, [])

/-- The locate `GetSurroundingLayerIterators(p, useX, ...)` with the layer indices it looks
up. -/
def GetSurroundingLayerIteratorsPTraced [FloorRing K] (zPitch : K) (f : TwoDSlidingFitResult K)
    (p : K) (useX : Bool) : Except StatusCode (SurroundingLayers K) × List Int :=
  match f.m_layerFitResultMap.begin, f.m_layerFitResultMap.rbegin with
  | some b, some r =>
    if useX = true ∧ |f.m_axisDirection.x| < epsilon then
      (.error STATUS_CODE_INVALID_PARAMETER, [])
    else if useX = false ∧ |f.m_axisDirection.z| < epsilon then
      (.error STATUS_CODE_INVALID_PARAMETER, [])
    else
      let firstL := if useX then (p - f.m_axisIntercept.x) / f.m_axisDirection.x
                    else (p - f.m_axisIntercept.z) / f.m_axisDirection.z
      let minLayer := b.1
      let maxLayer := r.1
      let startLayer := GetLayer zPitch firstL
      if startLayer < minLayer ∨ startLayer > maxLayer then
        (.error STATUS_CODE_INVALID_PARAMETER, [])
      else if startLayer = minLayer then (.ok ⟨b, b, 1 / 2, 1 / 2⟩, [])
      else if startLayer = maxLayer then (.ok ⟨r, r, 1 / 2, 1 / 2⟩, [])
      else
        let first := firstLayerLoopPTraced f.m_layerFitResultMap maxLayer startLayer
        match first.1 with
        | none => (.error STATUS_CODE_NOT_FOUND, first.2)
        | some firstLayerIter =>
          let firstLayerPosition :=
            f.GetGlobalPosition firstLayerIter.2.GetL firstLayerIter.2.GetFitT
          let firstIsAhead := isAhead p useX firstLayerPosition
          let increasesWithLayers : Bool :=
            if useX then decide (f.m_axisDirection.x > 0) else decide (f.m_axisDirection.z > 0)
          let walk := secondLayerLoopPTraced f p useX firstIsAhead minLayer maxLayer
            (walkIncrement firstIsAhead increasesWithLayers)
            (by unfold walkIncrement; split <;> simp)
            none ⟨0, 0, 0⟩ (firstLayerIter.1 + walkIncrement firstIsAhead increasesWithLayers)
          match walk.1.1 with
          | none => (.error STATUS_CODE_NOT_FOUND, first.2 ++ walk.2)
          | some secondLayerIter =>
            let secondLayerPosition := walk.1.2
            let deltaP := if useX then p - firstLayerPosition.x else p - firstLayerPosition.z
            let deltaPLayers :=
              if useX then secondLayerPosition.x - firstLayerPosition.x
              else secondLayerPosition.z - firstLayerPosition.z
            (if |deltaPLayers| < epsilon then .error STATUS_CODE_FAILURE
              else .ok ⟨firstLayerIter, secondLayerIter, 1 - deltaP / deltaPLayers,
                deltaP / deltaPLayers⟩,
              first.2 ++ walk.2)
  | _, _ => (.error STATUS_CODE_NOT_INITIALIZED, [])

end LookupsOfLocates

end TwoDSlidingFitResult

/-- A cluster of three points on the z axis, one in each of the layers 0, 1 and 2 for the
pitch 1. -/
def lineCluster {K : Type} [LinearOrderedField K] : List (CartesianVector K) :=
  [⟨0, 0, 1 / 2⟩, ⟨0, 0, 3 / 2⟩, ⟨0, 0, 5 / 2⟩]

/-- A three-entry map with a gap, over the rationals. -/
def exampleMap : LayerFitResultMap ℚ :=
  [(0, ⟨0, 1, 0, 1⟩), (2, ⟨2, 3, 1, 2⟩), (5, ⟨5, 0, -1, 3⟩)]

/-- A fit result along the z axis holding `exampleMap`. -/
def exampleFit : TwoDSlidingFitResult ℚ := ⟨⟨0, 0, 0⟩, ⟨0, 0, 1⟩, exampleMap⟩

/-- A fit result along the z axis whose two records have the gradients -3/4 and 3/4. -/
def bentFit {K : Type} [LinearOrderedField K] : TwoDSlidingFitResult K :=
  ⟨⟨0, 0, 0⟩, ⟨0, 0, 1⟩, [(0, ⟨0, 0, -3 / 4, 0⟩), (2, ⟨2, 0, 3 / 4, 0⟩)]⟩

/-- A fit result along the x axis (its axis has no Z component) holding `exampleMap`. -/
def sidewaysFit : TwoDSlidingFitResult ℚ := ⟨⟨0, 0, 0⟩, ⟨1, 0, 0⟩, exampleMap⟩

/-- A fit result whose records at the keys 1 and 2 store the same longitudinal coordinate. -/
def degenerateFit : TwoDSlidingFitResult ℚ :=
  ⟨⟨0, 0, 0⟩, ⟨0, 0, 1⟩,
    [(0, ⟨0, 0, 0, 0⟩), (1, ⟨1, 0, 0, 0⟩), (2, ⟨1, 0, 0, 0⟩), (3, ⟨3, 0, 0, 0⟩)]⟩

/-- The fit with the keys 0, 1 and 3 whose record at the key 1 stores the longitudinal
coordinate 19/10, near the upper end of its layer for the pitch 1. -/
def skewFit : TwoDSlidingFitResult ℚ :=
  ⟨⟨0, 0, 0⟩, ⟨0, 0, 1⟩, [(0, ⟨0, 0, 0, 0⟩), (1, ⟨19 / 10, 0, 0, 0⟩), (3, ⟨3, 0, 0, 0⟩)]⟩

/-- The fit along the z axis with the keys 0, 2 and 5 whose records store the longitudinal
coordinates 2, 3 and 5. -/
def offsetFit : TwoDSlidingFitResult ℚ :=
  ⟨⟨0, 0, 0⟩, ⟨0, 0, 1⟩, [(0, ⟨2, 0, 0, 0⟩), (2, ⟨3, 0, 0, 0⟩), (5, ⟨5, 0, 0, 0⟩)]⟩

/-! Binary floating-point arithmetic. The quantities of the code are `float` (binary32) and,
inside the accumulator, `double` (binary64): every arithmetic operation returns its exact
result rounded to the nearest number of the format, a tie going to the even significand. The
rounding below keeps `mantissaBits + 1` significant bits and leaves the exponent unbounded, so
it is the rounding of the format wherever no overflow and no subnormal number occurs. The
functions whose claimed properties depend on rounding are given a second time with it. -/

/-- The integer nearest to `q`, a tie going to the even one. -/
def roundHalfEven (q : ℚ) : Int :=
  if q - ⌊q⌋ < 1 / 2 then ⌊q⌋
  else if 1 / 2 < q - ⌊q⌋ then ⌊q⌋ + 1
  else if ⌊q⌋ % 2 = 0 then ⌊q⌋ else ⌊q⌋ + 1

/-- The binary exponent `e` of a non-zero `x`, with `2 ^ e ≤ |x| < 2 ^ (e + 1)`. -/
def binade (x : ℚ) : Int := Int.log 2 |x|

/-- The number with `mantissaBits + 1` significant bits nearest to `x`, ties to even. -/
def roundToBits (mantissaBits : Nat) (x : ℚ) : ℚ :=
  if x = 0 then 0
  else (roundHalfEven (x / 2 ^ (binade x - mantissaBits)) : ℚ) * 2 ^ (binade x - mantissaBits)

/-- Rounding to `float`: binary32 has 23 stored significand bits. -/
def toFloat (x : ℚ) : ℚ := roundToBits 23 x

/-- Rounding to `double`: binary64 has 52 stored significand bits. -/
def toDouble (x : ℚ) : ℚ := roundToBits 52 x

namespace LayerFitContribution

/-- Accumulation `AddPoint(l, t)` in the `double` arithmetic of the code: `l` and `t` are
`float` values, converted to `double` without rounding; each product and each `+=` rounds to
`double`. -/
def AddPointD (c : LayerFitContribution ℚ) (l t : ℚ) : LayerFitContribution ℚ :=
  { m_sumT := toDouble (c.m_sumT + t)
    m_sumL := toDouble (c.m_sumL + l)
    m_sumTT := toDouble (c.m_sumTT + toDouble (t * t))
    m_sumLT := toDouble (c.m_sumLT + toDouble (l * t))
    m_sumLL := toDouble (c.m_sumLL + toDouble (l * l))
    m_nPoints := c.m_nPoints + 1 }

end LayerFitContribution

namespace TwoDSlidingFitResult

/-- Layer index `GetLayer` in the `float` arithmetic of the code: the quotient is rounded to
`float`, `std::floor` is taken, and the result is converted to `int` (a conversion that is
defined when the floor lies within the range of `int`). -/
def GetLayerF (zPitch rL : ℚ) : Int := ⌊toFloat (rL / zPitch)⌋

/-- Longitudinal coordinate `GetL` in the `float` arithmetic of the code:
`static_cast<float>(layer)` rounds the index to `float`, and so does the product. -/
def GetLF (zPitch : ℚ) (layer : Int) : ℚ := toFloat (toFloat (layer : ℚ) * zPitch)

/-- The locate by longitudinal coordinate in the `float` arithmetic of the code: the layer is
`GetLayerF`, and the two differences, the quotient and `1.f - quotient` each round to
`float`. -/
def GetSurroundingLayerIteratorsF (zPitch : ℚ) (f : TwoDSlidingFitResult ℚ) (rL : ℚ) :
    Except StatusCode (SurroundingLayers ℚ) :=
  match f.m_layerFitResultMap.begin, f.m_layerFitResultMap.rbegin with
  | some b, some r =>
    let minLayer := b.1
    let maxLayer := r.1
    let startLayer := GetLayerF zPitch rL
    if startLayer < minLayer ∨ startLayer > maxLayer then .error STATUS_CODE_INVALID_PARAMETER
    else if startLayer = minLayer then .ok ⟨b, b, 1 / 2, 1 / 2⟩
    else if startLayer = maxLayer then .ok ⟨r, r, 1 / 2, 1 / 2⟩
    else
      match firstLayerLoop f.m_layerFitResultMap minLayer startLayer with
      | none => .error STATUS_CODE_NOT_FOUND
      | some firstLayerIter =>
        match secondLayerLoop f.m_layerFitResultMap maxLayer (startLayer + 1) with
        | none => .error STATUS_CODE_NOT_FOUND
        | some secondLayerIter =>
          let deltaL := toFloat (rL - firstLayerIter.2.GetL)
          let deltaLLayers := toFloat (secondLayerIter.2.GetL - firstLayerIter.2.GetL)
          if |deltaLLayers| < epsilon then .error STATUS_CODE_FAILURE
          else .ok ⟨firstLayerIter, secondLayerIter,
            toFloat (1 - toFloat (deltaL / deltaLLayers)), toFloat (deltaL / deltaLLayers)⟩
  | _, _ => .error STATUS_CODE_NOT_INITIALIZED

end TwoDSlidingFitResult

/-- The fit with the keys 44, 45 and 47 for the pitch 0.3f, each record storing the
longitudinal coordinate `GetL(key)` as the code computes it in `float`. -/
def edgeFit : TwoDSlidingFitResult ℚ :=
  ⟨⟨0, 0, 0⟩, ⟨0, 0, 1⟩,
    [(44, ⟨TwoDSlidingFitResult.GetLF (toFloat (3 / 10)) 44, 0, 0, 0⟩),
      (45, ⟨TwoDSlidingFitResult.GetLF (toFloat (3 / 10)) 45, 0, 0, 0⟩),
      (47, ⟨TwoDSlidingFitResult.GetLF (toFloat (3 / 10)) 47, 0, 0, 0⟩)]⟩

/-- Three points with the longitudinal coordinate 0 and the transverse coordinates 0.1f, 0.2f
and 7.7f. -/
def decimalPoints : List (ℚ × ℚ) :=
  [(0, toFloat (1 / 10)), (0, toFloat (1 / 5)), (0, toFloat (77 / 10))]

/-- A fit result along the unit direction (3/5, 4/5, 0), out of the X-Z plane, whose two
records at the keys 0 and 2 both have the fitted transverse coordinate 1. -/
def slantFit {K : Type} [LinearOrderedField K] : TwoDSlidingFitResult K :=
  ⟨⟨0, 0, 0⟩, ⟨3 / 5, 4 / 5, 0⟩, [(0, ⟨0, 1, 0, 0⟩), (2, ⟨2, 1, 0, 0⟩)]⟩

/-- A fit result along the z axis whose two records at the keys 0 and 2 have the fitted
transverse coordinates 1 and 3. -/
def rampFit {K : Type} [LinearOrderedField K] : TwoDSlidingFitResult K :=
  ⟨⟨0, 0, 0⟩, ⟨0, 0, 1⟩, [(0, ⟨0, 1, 0, 0⟩), (2, ⟨2, 3, 0, 0⟩)]⟩

/-! ## Lookup and iteration order of the layer map -/

namespace LayerFitResultMap

variable {K : Type}

theorem find_some {m : LayerFitResultMap K} {k : Int} {e : LayerIter K}
    (h : m.find k = some e) : e ∈ m ∧ e.1 = k := by
  unfold find at h
  exact ⟨List.mem_of_find?_eq_some h, by simpa using List.find?_some h⟩

theorem find_none {m : LayerFitResultMap K} {k : Int} (h : m.find k = none) :
    ∀ x ∈ m, x.1 ≠ k := by
  unfold find at h
  intro x hx
  simpa using List.find?_eq_none.1 h x hx

theorem find_isSome_of_mem {m : LayerFitResultMap K} {e : LayerIter K} (he : e ∈ m) :
    ∃ e2, m.find e.1 = some e2 := by
  cases hf : m.find e.1 with
  | none => exact absurd rfl (find_none hf e he)
  | some e2 => exact ⟨e2, rfl⟩

theorem key_inj {m : LayerFitResultMap K} (hord : Ordered m) {a b : LayerIter K}
    (ha : a ∈ m) (hb : b ∈ m) (hab : a.1 = b.1) : a = b := by
  induction m with
  | nil => cases ha
  | cons c t ih =>
    unfold Ordered at hord
    rw [List.pairwise_cons] at hord
    rcases List.mem_cons.1 ha with rfl | ha2
    · rcases List.mem_cons.1 hb with rfl | hb2
      · rfl
      · exact absurd hab (ne_of_lt (hord.1 b hb2))
    · rcases List.mem_cons.1 hb with rfl | hb2
      · exact absurd hab.symm (ne_of_lt (hord.1 a ha2))
      · exact ih hord.2 ha2 hb2

theorem find_of_mem {m : LayerFitResultMap K} (hord : Ordered m) {e : LayerIter K}
    (he : e ∈ m) : m.find e.1 = some e := by
  obtain ⟨e2, h2⟩ := find_isSome_of_mem he
  have h3 := find_some h2
  rw [h2, key_inj hord h3.1 he h3.2]

theorem begin_mem {m : LayerFitResultMap K} {b : LayerIter K} (hb : m.begin = some b) :
    b ∈ m := by
  unfold begin at hb
  exact List.mem_of_mem_head? hb

theorem rbegin_mem {m : LayerFitResultMap K} {r : LayerIter K} (hr : m.rbegin = some r) :
    r ∈ m := by
  unfold rbegin at hr
  exact List.mem_of_getLast?_eq_some hr

theorem begin_le {m : LayerFitResultMap K} (hord : Ordered m) {b : LayerIter K}
    (hb : m.begin = some b) : ∀ x ∈ m, b.1 ≤ x.1 := by
  unfold begin at hb
  obtain ⟨t, rfl⟩ := List.head?_eq_some_iff.1 hb
  unfold Ordered at hord
  rw [List.pairwise_cons] at hord
  intro x hx
  rcases List.mem_cons.1 hx with rfl | hx2
  · exact le_refl _
  · exact le_of_lt (hord.1 x hx2)

theorem le_rbegin {m : LayerFitResultMap K} (hord : Ordered m) {r : LayerIter K}
    (hr : m.rbegin = some r) : ∀ x ∈ m, x.1 ≤ r.1 := by
  unfold rbegin at hr
  obtain ⟨t, rfl⟩ := List.getLast?_eq_some_iff.1 hr
  unfold Ordered at hord
  rw [List.pairwise_append] at hord
  intro x hx
  rcases List.mem_append.1 hx with hx2 | hx2
  · exact le_of_lt (hord.2.2 x hx2 r (List.mem_singleton.2 rfl))
  · rw [List.mem_singleton.1 hx2]

theorem begin_rbegin_of_ne_nil {m : LayerFitResultMap K} (hne : m ≠ []) :
    ∃ b r, m.begin = some b ∧ m.rbegin = some r := by
  cases m with
  | nil => exact absurd rfl hne
  | cons a t =>
    exact ⟨a, (a :: t).getLast (by simp), rfl, List.getLast?_eq_getLast _ _⟩

end LayerFitResultMap

/-! ## The two scans of the longitudinal locate -/

namespace TwoDSlidingFitResult

open LayerFitResultMap

section Scans

variable {K : Type}

theorem firstLayerLoop_some {m : LayerFitResultMap K} {minLayer : Int} :
    ∀ (n : Nat) (iLayer : Int) (e : LayerIter K), (iLayer + 1 - minLayer).toNat = n →
      firstLayerLoop m minLayer iLayer = some e →
      e ∈ m ∧ minLayer ≤ e.1 ∧ e.1 ≤ iLayer ∧ ∀ x ∈ m, x.1 ≤ iLayer → x.1 ≤ e.1 := by
  intro n
  induction n with
  | zero =>
    intro iLayer e hn h
    rw [firstLayerLoop] at h
    have : ¬ minLayer ≤ iLayer := by omega
    simp [this] at h
  | succ n ih =>
    intro iLayer e hn h
    rw [firstLayerLoop] at h
    by_cases hc : minLayer ≤ iLayer
    · simp only [hc, if_true] at h
      cases hf : m.find iLayer with
      | some e2 =>
        rw [hf] at h
        simp only [Option.some.injEq] at h
        subst h
        have h2 := find_some hf
        refine ⟨h2.1, by omega, by omega, ?_⟩
        intro x _ hx
        omega
      | none =>
        rw [hf] at h
        simp only at h
        have h3 := ih (iLayer - 1) e (by omega) h
        refine ⟨h3.1, h3.2.1, by omega, ?_⟩
        intro x hx hxi
        have hne := find_none hf x hx
        exact h3.2.2.2 x hx (by omega)
    · simp [hc] at h

theorem firstLayerLoop_none {m : LayerFitResultMap K} {minLayer : Int} :
    ∀ (n : Nat) (iLayer : Int), (iLayer + 1 - minLayer).toNat = n →
      firstLayerLoop m minLayer iLayer = none →
      ∀ x ∈ m, ¬ (minLayer ≤ x.1 ∧ x.1 ≤ iLayer) := by
  intro n
  induction n with
  | zero =>
    intro iLayer hn _ x _ hx
    omega
  | succ n ih =>
    intro iLayer hn h
    rw [firstLayerLoop] at h
    by_cases hc : minLayer ≤ iLayer
    · simp only [hc, if_true] at h
      cases hf : m.find iLayer with
      | some e2 =>
        rw [hf] at h
        simp at h
      | none =>
        rw [hf] at h
        simp only at h
        intro x hx hxi
        have hne := find_none hf x hx
        exact ih (iLayer - 1) (by omega) h x hx ⟨hxi.1, by omega⟩
    · intro x _ hx
      omega

theorem secondLayerLoop_some {m : LayerFitResultMap K} {maxLayer : Int} :
    ∀ (n : Nat) (iLayer : Int) (e : LayerIter K), (maxLayer + 1 - iLayer).toNat = n →
      secondLayerLoop m maxLayer iLayer = some e →
      e ∈ m ∧ e.1 ≤ maxLayer ∧ iLayer ≤ e.1 ∧ ∀ x ∈ m, iLayer ≤ x.1 → e.1 ≤ x.1 := by
  intro n
  induction n with
  | zero =>
    intro iLayer e hn h
    rw [secondLayerLoop] at h
    have : ¬ iLayer ≤ maxLayer := by omega
    simp [this] at h
  | succ n ih =>
    intro iLayer e hn h
    rw [secondLayerLoop] at h
    by_cases hc : iLayer ≤ maxLayer
    · simp only [hc, if_true] at h
      cases hf : m.find iLayer with
      | some e2 =>
        rw [hf] at h
        simp only [Option.some.injEq] at h
        subst h
        have h2 := find_some hf
        refine ⟨h2.1, by omega, by omega, ?_⟩
        intro x _ hx
        omega
      | none =>
        rw [hf] at h
        simp only at h
        have h3 := ih (iLayer + 1) e (by omega) h
        refine ⟨h3.1, h3.2.1, by omega, ?_⟩
        intro x hx hxi
        have hne := find_none hf x hx
        exact h3.2.2.2 x hx (by omega)
    · simp [hc] at h

theorem secondLayerLoop_none {m : LayerFitResultMap K} {maxLayer : Int} :
    ∀ (n : Nat) (iLayer : Int), (maxLayer + 1 - iLayer).toNat = n →
      secondLayerLoop m maxLayer iLayer = none →
      ∀ x ∈ m, ¬ (iLayer ≤ x.1 ∧ x.1 ≤ maxLayer) := by
  intro n
  induction n with
  | zero =>
    intro iLayer hn _ x _ hx
    omega
  | succ n ih =>
    intro iLayer hn h
    rw [secondLayerLoop] at h
    by_cases hc : iLayer ≤ maxLayer
    · simp only [hc, if_true] at h
      cases hf : m.find iLayer with
      | some e2 =>
        rw [hf] at h
        simp at h
      | none =>
        rw [hf] at h
        simp only at h
        intro x hx hxi
        have hne := find_none hf x hx
        exact ih (iLayer + 1) (by omega) h x hx ⟨by omega, hxi.2⟩
    · intro x _ hx
      omega

/-- From a start layer at or above the key of `begin()` the down scan returns the lower
bracket. -/
theorem firstLayerLoop_interior {m : LayerFitResultMap K} {b : LayerIter K}
    (hb : m.begin = some b) {target : Int} (hlo : b.1 ≤ target) :
    ∃ a, firstLayerLoop m b.1 target = some a ∧ IsLowerBracket m target a := by
  cases h : firstLayerLoop m b.1 target with
  | none =>
    exact absurd ⟨le_refl _, hlo⟩ (firstLayerLoop_none _ _ rfl h b (begin_mem hb))
  | some a =>
    have h2 := firstLayerLoop_some _ _ _ rfl h
    exact ⟨a, rfl, h2.1, h2.2.2.1, h2.2.2.2⟩

/-- Towards a key of `rbegin()` above the start layer the up scan returns the upper
bracket. -/
theorem secondLayerLoop_interior {m : LayerFitResultMap K} {r : LayerIter K}
    (hr : m.rbegin = some r) {target : Int} (hhi : target + 1 ≤ r.1) :
    ∃ c, secondLayerLoop m r.1 (target + 1) = some c ∧ IsUpperBracket m target c := by
  cases h : secondLayerLoop m r.1 (target + 1) with
  | none =>
    exact absurd ⟨hhi, le_refl _⟩ (secondLayerLoop_none _ _ rfl h r (rbegin_mem hr))
  | some c =>
    have h2 := secondLayerLoop_some _ _ _ rfl h
    exact ⟨c, rfl, h2.1, h2.2.2.1, h2.2.2.2⟩

theorem lowerBracket_unique {m : LayerFitResultMap K} (hord : Ordered m) {target : Int}
    {a a2 : LayerIter K} (h : IsLowerBracket m target a) (h2 : IsLowerBracket m target a2) :
    a = a2 :=
  key_inj hord h.1 h2.1 (le_antisymm (h2.2.2 a h.1 h.2.1) (h.2.2 a2 h2.1 h2.2.1))

theorem upperBracket_unique {m : LayerFitResultMap K} (hord : Ordered m) {target : Int}
    {c c2 : LayerIter K} (h : IsUpperBracket m target c) (h2 : IsUpperBracket m target c2) :
    c = c2 :=
  key_inj hord h.1 h2.1 (le_antisymm (h.2.2 c2 h2.1 h2.2.1) (h2.2.2 c h.1 h.2.1))

/-- On a non-empty map a layer is interior exactly when it is not a boundary. -/
theorem interior_of_not_atBoundary {m : LayerFitResultMap K} {target : Int}
    (h : ¬ AtBoundary m target) : Interior m target := by
  unfold AtBoundary at h
  unfold Interior
  push_neg at h
  exact h

end Scans

section Epsilon

variable {K : Type} [LinearOrderedField K]

theorem epsilon_pos : (0 : K) < epsilon := by
  unfold epsilon
  positivity

theorem epsilon_le_one : (epsilon : K) ≤ 1 := by
  unfold epsilon
  rw [div_le_one (by positivity)]
  norm_num

end Epsilon

variable {K : Type} [LinearOrderedField K] [FloorRing K]

/-- The locate, once `begin()` and `rbegin()` are known. -/
theorem GetSurroundingLayerIterators_eq {zPitch : K} {f : TwoDSlidingFitResult K} {rL : K}
    {b r : LayerIter K} (hb : f.m_layerFitResultMap.begin = some b)
    (hr : f.m_layerFitResultMap.rbegin = some r) :
    f.GetSurroundingLayerIterators zPitch rL =
      if GetLayer zPitch rL < b.1 ∨ GetLayer zPitch rL > r.1 then
        .error STATUS_CODE_INVALID_PARAMETER
      else if GetLayer zPitch rL = b.1 then .ok ⟨b, b, 1 / 2, 1 / 2⟩
      else if GetLayer zPitch rL = r.1 then .ok ⟨r, r, 1 / 2, 1 / 2⟩
      else
        match firstLayerLoop f.m_layerFitResultMap b.1 (GetLayer zPitch rL) with
        | none => .error STATUS_CODE_NOT_FOUND
        | some firstLayerIter =>
          match secondLayerLoop f.m_layerFitResultMap r.1 (GetLayer zPitch rL + 1) with
          | none => .error STATUS_CODE_NOT_FOUND
          | some secondLayerIter =>
            if |secondLayerIter.2.GetL - firstLayerIter.2.GetL| < epsilon then
              .error STATUS_CODE_FAILURE
            else .ok ⟨firstLayerIter, secondLayerIter,
              1 - (rL - firstLayerIter.2.GetL) / (secondLayerIter.2.GetL - firstLayerIter.2.GetL),
              (rL - firstLayerIter.2.GetL) / (secondLayerIter.2.GetL - firstLayerIter.2.GetL)⟩ := by
  unfold GetSurroundingLayerIterators
  rw [hb, hr]

/-- The locate at an interior target of an ordered map, in terms of the two brackets. -/
theorem GetSurroundingLayerIterators_interior (zPitch : K) (f : TwoDSlidingFitResult K) (rL : K)
    (hord : Ordered f.m_layerFitResultMap)
    (hint : Interior f.m_layerFitResultMap (GetLayer zPitch rL)) :
    ∃ a c, IsLowerBracket f.m_layerFitResultMap (GetLayer zPitch rL) a ∧
      IsUpperBracket f.m_layerFitResultMap (GetLayer zPitch rL) c ∧
      f.GetSurroundingLayerIterators zPitch rL =
        if |c.2.GetL - a.2.GetL| < epsilon then .error STATUS_CODE_FAILURE
        else .ok ⟨a, c, 1 - (rL - a.2.GetL) / (c.2.GetL - a.2.GetL),
          (rL - a.2.GetL) / (c.2.GetL - a.2.GetL)⟩ := by
  obtain ⟨⟨x, hx, hxlt⟩, ⟨y, hy, hylt⟩⟩ := hint
  obtain ⟨b, r, hb, hr⟩ := begin_rbegin_of_ne_nil (List.ne_nil_of_mem hx)
  have hbx := begin_le hord hb x hx
  have hyr := le_rbegin hord hr y hy
  obtain ⟨a, ha, hab⟩ := firstLayerLoop_interior hb (le_of_lt (lt_of_le_of_lt hbx hxlt))
  obtain ⟨c, hc, hcb⟩ := secondLayerLoop_interior hr
    (Int.add_one_le_of_lt (lt_of_lt_of_le hylt hyr))
  refine ⟨a, c, hab, hcb, ?_⟩
  rw [GetSurroundingLayerIterators_eq hb hr, ha, hc]
  have h1 : ¬ (GetLayer zPitch rL < b.1 ∨ GetLayer zPitch rL > r.1) := by
    intro h
    rcases h with h | h <;> omega
  have h2 : ¬ GetLayer zPitch rL = b.1 := by omega
  have h3 : ¬ GetLayer zPitch rL = r.1 := by omega
  simp only [h1, h2, h3, if_false]

/-- What a successful longitudinal locate has gone through. -/
theorem GetSurroundingLayerIterators_ok_inv {zPitch : K} {f : TwoDSlidingFitResult K} {rL : K}
    {s : SurroundingLayers K} (hok : f.GetSurroundingLayerIterators zPitch rL = .ok s) :
    ∃ b r, f.m_layerFitResultMap.begin = some b ∧ f.m_layerFitResultMap.rbegin = some r ∧
      b.1 ≤ GetLayer zPitch rL ∧ GetLayer zPitch rL ≤ r.1 ∧
      ((GetLayer zPitch rL = b.1 ∧ s = ⟨b, b, 1 / 2, 1 / 2⟩) ∨
        (GetLayer zPitch rL = r.1 ∧ s = ⟨r, r, 1 / 2, 1 / 2⟩) ∨
        (GetLayer zPitch rL ≠ b.1 ∧ GetLayer zPitch rL ≠ r.1 ∧ ∃ a c,
          firstLayerLoop f.m_layerFitResultMap b.1 (GetLayer zPitch rL) = some a ∧
          secondLayerLoop f.m_layerFitResultMap r.1 (GetLayer zPitch rL + 1) = some c ∧
          ¬ |c.2.GetL - a.2.GetL| < epsilon ∧
          s = ⟨a, c, 1 - (rL - a.2.GetL) / (c.2.GetL - a.2.GetL),
            (rL - a.2.GetL) / (c.2.GetL - a.2.GetL)⟩)) := by
  cases hbeg : f.m_layerFitResultMap.begin with
  | none =>
    unfold GetSurroundingLayerIterators at hok
    rw [hbeg] at hok
    cases hok
  | some b =>
    cases hrb : f.m_layerFitResultMap.rbegin with
    | none =>
      unfold GetSurroundingLayerIterators at hok
      rw [hbeg, hrb] at hok
      cases hok
    | some r =>
      rw [GetSurroundingLayerIterators_eq hbeg hrb] at hok
      by_cases h1 : GetLayer zPitch rL < b.1 ∨ GetLayer zPitch rL > r.1
      · rw [if_pos h1] at hok
        cases hok
      rw [if_neg h1] at hok
      refine ⟨b, r, rfl, rfl, by omega, by omega, ?_⟩
      by_cases h2 : GetLayer zPitch rL = b.1
      · rw [if_pos h2] at hok
        simp only [Except.ok.injEq] at hok
        exact Or.inl ⟨h2, hok.symm⟩
      rw [if_neg h2] at hok
      by_cases h3 : GetLayer zPitch rL = r.1
      · rw [if_pos h3] at hok
        simp only [Except.ok.injEq] at hok
        exact Or.inr (Or.inl ⟨h3, hok.symm⟩)
      rw [if_neg h3] at hok
      refine Or.inr (Or.inr ⟨h2, h3, ?_⟩)
      cases ha : firstLayerLoop f.m_layerFitResultMap b.1 (GetLayer zPitch rL) with
      | none =>
        rw [ha] at hok
        cases hok
      | some a =>
        cases hc : secondLayerLoop f.m_layerFitResultMap r.1 (GetLayer zPitch rL + 1) with
        | none =>
          rw [ha, hc] at hok
          cases hok
        | some c =>
          rw [ha, hc] at hok
          by_cases h4 : |c.2.GetL - a.2.GetL| < epsilon
          · simp only [h4, if_true] at hok
            cases hok
          · simp only [h4, if_false, Except.ok.injEq] at hok
            exact ⟨a, c, rfl, rfl, h4, hok.symm⟩

/-- The weights of a successful longitudinal locate add up to one. -/
theorem GetSurroundingLayerIterators_weights {zPitch : K} {f : TwoDSlidingFitResult K} {rL : K}
    {s : SurroundingLayers K} (hok : f.GetSurroundingLayerIterators zPitch rL = .ok s) :
    s.firstWeight + s.secondWeight = 1 := by
  obtain ⟨b, r, _, _, _, _, h⟩ := GetSurroundingLayerIterators_ok_inv hok
  rcases h with ⟨_, rfl⟩ | ⟨_, rfl⟩ | ⟨_, _, a, c, _, _, _, rfl⟩
  · norm_num
  · norm_num
  · simp

/-- The locate at a boundary layer of an ordered map. -/
theorem GetSurroundingLayerIterators_boundary {zPitch : K} {f : TwoDSlidingFitResult K} {rL : K}
    {e : LayerIter K} (hord : Ordered f.m_layerFitResultMap) (he : e ∈ f.m_layerFitResultMap)
    (hlayer : GetLayer zPitch rL = e.1)
    (hb : AtBoundary f.m_layerFitResultMap (GetLayer zPitch rL)) :
    f.GetSurroundingLayerIterators zPitch rL = .ok ⟨e, e, 1 / 2, 1 / 2⟩ := by
  obtain ⟨b, r, hbeg, hrb⟩ := begin_rbegin_of_ne_nil (List.ne_nil_of_mem he)
  have hbe := begin_le hord hbeg e he
  have her := le_rbegin hord hrb e he
  rw [GetSurroundingLayerIterators_eq hbeg hrb]
  have h1 : ¬ (GetLayer zPitch rL < b.1 ∨ GetLayer zPitch rL > r.1) := by
    intro h
    rcases h with h | h <;> omega
  rw [if_neg h1]
  rcases hb with hb | hb
  · have h2 : GetLayer zPitch rL = b.1 :=
      le_antisymm (hb b (begin_mem hbeg)) (by omega)
    rw [if_pos h2, key_inj hord (begin_mem hbeg) he (by omega)]
  · have h3 : GetLayer zPitch rL = r.1 :=
      le_antisymm (by omega) (hb r (rbegin_mem hrb))
    by_cases h2 : GetLayer zPitch rL = b.1
    · rw [if_pos h2, key_inj hord (begin_mem hbeg) he (by omega)]
    · rw [if_neg h2, if_pos h3, key_inj hord (rbegin_mem hrb) he (by omega)]

/-- The iterators of a successful longitudinal locate on an ordered map coincide exactly at
the boundary layers. -/
theorem GetSurroundingLayerIterators_same_iff {zPitch : K} {f : TwoDSlidingFitResult K} {rL : K}
    {s : SurroundingLayers K} (hord : Ordered f.m_layerFitResultMap)
    (hok : f.GetSurroundingLayerIterators zPitch rL = .ok s) :
    s.firstLayerIter.1 = s.secondLayerIter.1 ↔
      AtBoundary f.m_layerFitResultMap (GetLayer zPitch rL) := by
  by_cases hb : AtBoundary f.m_layerFitResultMap (GetLayer zPitch rL)
  · refine ⟨fun _ => hb, fun _ => ?_⟩
    obtain ⟨b, r, hbeg, hrb, hlo, hhi, _⟩ := GetSurroundingLayerIterators_ok_inv hok
    have hcases : GetLayer zPitch rL = b.1 ∨ GetLayer zPitch rL = r.1 := by
      rcases hb with hb | hb
      · exact Or.inl (le_antisymm (hb b (begin_mem hbeg)) hlo)
      · exact Or.inr (le_antisymm hhi (hb r (rbegin_mem hrb)))
    rcases hcases with hk | hk
    · rw [GetSurroundingLayerIterators_boundary hord (begin_mem hbeg) hk hb] at hok
      simp only [Except.ok.injEq] at hok
      rw [← hok]
    · rw [GetSurroundingLayerIterators_boundary hord (rbegin_mem hrb) hk hb] at hok
      simp only [Except.ok.injEq] at hok
      rw [← hok]
  · refine ⟨fun h => ?_, fun h => absurd h hb⟩
    exfalso
    obtain ⟨a, c, ha, hc, heq⟩ :=
      GetSurroundingLayerIterators_interior zPitch f rL hord (interior_of_not_atBoundary hb)
    rw [heq] at hok
    split_ifs at hok
    simp only [Except.ok.injEq] at hok
    subst hok
    have h1 := ha.2.1
    have h2 := hc.2.1
    have h3 : a.1 = c.1 := h
    omega

/-! ## Evaluation of the locate on the example map -/

theorem exampleFit_begin : exampleFit.m_layerFitResultMap.begin = some (0, ⟨0, 1, 0, 1⟩) := rfl

theorem exampleFit_rbegin : exampleFit.m_layerFitResultMap.rbegin = some (5, ⟨5, 0, -1, 3⟩) := rfl

theorem exampleFit_ordered : Ordered exampleFit.m_layerFitResultMap := by
  simp [Ordered, exampleFit, exampleMap]

theorem exampleFit_layer_half : GetLayer (1 : ℚ) (1 / 2) = 0 := by
  simp only [GetLayer, Int.floor_eq_iff]
  norm_num

theorem exampleFit_layer_interior : GetLayer (1 : ℚ) (7 / 2) = 3 := by
  simp only [GetLayer, Int.floor_eq_iff]
  norm_num

theorem exampleFit_layer_above : GetLayer (1 : ℚ) 10 = 10 := by
  simp only [GetLayer, Int.floor_eq_iff]
  norm_num

theorem degenerateFit_layer : GetLayer (1 : ℚ) (3 / 2) = 1 := by
  simp only [GetLayer, Int.floor_eq_iff]
  norm_num

theorem exampleFit_interior : Interior exampleFit.m_layerFitResultMap (GetLayer (1 : ℚ) (7 / 2)) := by
  rw [exampleFit_layer_interior]
  simp [Interior, exampleFit, exampleMap]

theorem exampleFit_lower :
    IsLowerBracket exampleFit.m_layerFitResultMap (GetLayer (1 : ℚ) (7 / 2)) (2, ⟨2, 3, 1, 2⟩) := by
  rw [exampleFit_layer_interior]
  simp [IsLowerBracket, exampleFit, exampleMap]

theorem exampleFit_upper :
    IsUpperBracket exampleFit.m_layerFitResultMap (GetLayer (1 : ℚ) (7 / 2)) (5, ⟨5, 0, -1, 3⟩) := by
  rw [exampleFit_layer_interior]
  simp [IsUpperBracket, exampleFit, exampleMap]

theorem exampleFit_locate :
    exampleFit.GetSurroundingLayerIterators 1 (7 / 2) =
      .ok ⟨(2, ⟨2, 3, 1, 2⟩), (5, ⟨5, 0, -1, 3⟩), 1 / 2, 1 / 2⟩ := by
  obtain ⟨a, c, ha, hc, h⟩ := GetSurroundingLayerIterators_interior (1 : ℚ) exampleFit (7 / 2)
    exampleFit_ordered exampleFit_interior
  rw [lowerBracket_unique exampleFit_ordered ha exampleFit_lower,
    upperBracket_unique exampleFit_ordered hc exampleFit_upper] at h
  rw [h]
  norm_num [LayerFitResult.GetL, epsilon, abs_lt]

end TwoDSlidingFitResult

/-! ## The locate by longitudinal coordinate -/

section LongitudinalLocate

open TwoDSlidingFitResult LayerFitResultMap StatusCode

variable {K : Type} [LinearOrderedField K] [FloorRing K]

/-- Claim C1: on an ordered map, when the layer of `rL` is the key of an entry `e` that is the
least or the greatest populated key, the longitudinal locate succeeds with both iterators on
`e` and both weights equal to one half. -/
theorem C1_boundary_locate (zPitch : K) (f : TwoDSlidingFitResult K) (rL : K) (e : LayerIter K)
    (hord : Ordered f.m_layerFitResultMap) (he : e ∈ f.m_layerFitResultMap)
    (hlayer : GetLayer zPitch rL = e.1)
    (hb : AtBoundary f.m_layerFitResultMap (GetLayer zPitch rL)) :
    f.GetSurroundingLayerIterators zPitch rL = .ok ⟨e, e, 1 / 2, 1 / 2⟩ :=
  GetSurroundingLayerIterators_boundary hord he hlayer hb

/-- Witness of C1 on the example map, for a coordinate in the least layer. -/
theorem C1_boundary_locate_witness :
    exampleFit.GetSurroundingLayerIterators 1 (1 / 2) =
      .ok ⟨(0, ⟨0, 1, 0, 1⟩), (0, ⟨0, 1, 0, 1⟩), 1 / 2, 1 / 2⟩ :=
  C1_boundary_locate 1 exampleFit (1 / 2) (0, ⟨0, 1, 0, 1⟩) exampleFit_ordered
    (by simp [exampleFit, exampleMap]) exampleFit_layer_half
    (by rw [exampleFit_layer_half]; simp [AtBoundary, exampleFit, exampleMap])

/-- Claim C2: on a non-empty ordered map the longitudinal locate throws
`STATUS_CODE_INVALID_PARAMETER` exactly when the layer of `rL` is strictly below every
populated key or strictly above every populated key. -/
theorem C2_out_of_range_iff (zPitch : K) (f : TwoDSlidingFitResult K) (rL : K)
    (hne : f.m_layerFitResultMap ≠ []) (hord : Ordered f.m_layerFitResultMap) :
    f.GetSurroundingLayerIterators zPitch rL = .error STATUS_CODE_INVALID_PARAMETER ↔
      ((∀ x ∈ f.m_layerFitResultMap, GetLayer zPitch rL < x.1) ∨
        (∀ x ∈ f.m_layerFitResultMap, x.1 < GetLayer zPitch rL)) := by
  obtain ⟨b, r, hbeg, hrb⟩ := begin_rbegin_of_ne_nil hne
  rw [GetSurroundingLayerIterators_eq hbeg hrb]
  by_cases h1 : GetLayer zPitch rL < b.1 ∨ GetLayer zPitch rL > r.1
  · rw [if_pos h1]
    refine ⟨fun _ => ?_, fun _ => rfl⟩
    rcases h1 with h1 | h1
    · exact Or.inl fun x hx => lt_of_lt_of_le h1 (begin_le hord hbeg x hx)
    · exact Or.inr fun x hx => lt_of_le_of_lt (le_rbegin hord hrb x hx) h1
  · rw [if_neg h1]
    constructor
    · intro h
      exfalso
      split_ifs at h
      split at h
      · cases h
      · split at h
        · cases h
        · split_ifs at h
          cases h
    · intro h
      exfalso
      apply h1
      rcases h with h | h
      · exact Or.inl (h b (begin_mem hbeg))
      · exact Or.inr (h r (rbegin_mem hrb))

/-- Witness of C2 on the example map: a coordinate in layer 10, above every key, is refused. -/
theorem C2_out_of_range_iff_witness :
    exampleFit.GetSurroundingLayerIterators 1 10 = .error STATUS_CODE_INVALID_PARAMETER :=
  (C2_out_of_range_iff 1 exampleFit 10 (by simp [exampleFit, exampleMap])
    exampleFit_ordered).2 (Or.inr (by rw [exampleFit_layer_above]; simp [exampleFit, exampleMap]))

/-- Claim C3: on an ordered map, when the layer `target` of `rL` lies strictly between the least
and the greatest populated key, a successful longitudinal locate returns as first iterator the
entry with the greatest key at most `target` and as second iterator the entry with the least
key at least `target + 1`; the first key is below the second and no populated key lies
strictly between them. -/
theorem C3_interior_brackets (zPitch : K) (f : TwoDSlidingFitResult K) (rL : K)
    (s : SurroundingLayers K) (hord : Ordered f.m_layerFitResultMap)
    (hint : Interior f.m_layerFitResultMap (GetLayer zPitch rL))
    (hok : f.GetSurroundingLayerIterators zPitch rL = .ok s) :
    IsLowerBracket f.m_layerFitResultMap (GetLayer zPitch rL) s.firstLayerIter ∧
      IsUpperBracket f.m_layerFitResultMap (GetLayer zPitch rL) s.secondLayerIter ∧
      s.firstLayerIter.1 < s.secondLayerIter.1 ∧
      ∀ x ∈ f.m_layerFitResultMap, ¬ (s.firstLayerIter.1 < x.1 ∧ x.1 < s.secondLayerIter.1) := by
  obtain ⟨a, c, ha, hc, h⟩ := GetSurroundingLayerIterators_interior zPitch f rL hord hint
  rw [h] at hok
  split_ifs at hok
  simp only [Except.ok.injEq] at hok
  subst hok
  refine ⟨ha, hc, ?_, ?_⟩
  · have h1 := ha.2.1
    have h2 := hc.2.1
    show a.1 < c.1
    omega
  · intro x hx hxx
    have h1 : a.1 < x.1 := hxx.1
    have h2 : x.1 < c.1 := hxx.2
    by_cases hxt : x.1 ≤ GetLayer zPitch rL
    · have := ha.2.2 x hx hxt
      omega
    · have := hc.2.2 x hx (by omega)
      omega

/-- Witness of C3 on the example map: layer 3 is bracketed by the keys 2 and 5. -/
theorem C3_interior_brackets_witness :
    IsLowerBracket exampleFit.m_layerFitResultMap (GetLayer (1 : ℚ) (7 / 2)) (2, ⟨2, 3, 1, 2⟩) ∧
      IsUpperBracket exampleFit.m_layerFitResultMap (GetLayer (1 : ℚ) (7 / 2))
        (5, ⟨5, 0, -1, 3⟩) ∧
      (2 : Int) < 5 ∧
      ∀ x ∈ exampleFit.m_layerFitResultMap, ¬ ((2 : Int) < x.1 ∧ x.1 < 5) :=
  C3_interior_brackets 1 exampleFit (7 / 2) ⟨(2, ⟨2, 3, 1, 2⟩), (5, ⟨5, 0, -1, 3⟩), 1 / 2, 1 / 2⟩
    exampleFit_ordered exampleFit_interior exampleFit_locate

/-- Claim C4: on an ordered map, a successful longitudinal locate at an interior target layer
returns the weights `w1 = 1 - (rL - L_first) / (L_second - L_first)` and `w2 = 1 - w1`, with
`L_first` and `L_second` the coordinates stored in the two returned records. -/
theorem C4_interior_weights (zPitch : K) (f : TwoDSlidingFitResult K) (rL : K)
    (s : SurroundingLayers K) (hord : Ordered f.m_layerFitResultMap)
    (hint : Interior f.m_layerFitResultMap (GetLayer zPitch rL))
    (hok : f.GetSurroundingLayerIterators zPitch rL = .ok s) :
    s.firstWeight = 1 - (rL - s.firstLayerIter.2.GetL) /
        (s.secondLayerIter.2.GetL - s.firstLayerIter.2.GetL) ∧
      s.secondWeight = 1 - s.firstWeight := by
  obtain ⟨a, c, ha, hc, h⟩ := GetSurroundingLayerIterators_interior zPitch f rL hord hint
  rw [h] at hok
  split_ifs at hok
  simp only [Except.ok.injEq] at hok
  subst hok
  exact ⟨rfl, by simp⟩

/-- Witness of C4 on the example map: at 7/2, between the records at 2 and 5, both weights
are one half. -/
theorem C4_interior_weights_witness :
    (1 / 2 : ℚ) = 1 - (7 / 2 - LayerFitResult.GetL ⟨2, 3, 1, 2⟩) /
        (LayerFitResult.GetL ⟨5, 0, -1, 3⟩ - LayerFitResult.GetL ⟨2, 3, 1, 2⟩) ∧
      (1 / 2 : ℚ) = 1 - 1 / 2 :=
  C4_interior_weights 1 exampleFit (7 / 2) ⟨(2, ⟨2, 3, 1, 2⟩), (5, ⟨5, 0, -1, 3⟩), 1 / 2, 1 / 2⟩
    exampleFit_ordered exampleFit_interior exampleFit_locate

/-- Claim C5: on an ordered map with the layer of `rL` at an interior target, let `a` and `c`
be the lower and upper brackets. The longitudinal locate throws `STATUS_CODE_FAILURE` exactly
when `|L_c - L_a|` is below epsilon; and whenever it succeeds it returns `a` and `c` and the
separation it divided by is not zero. -/
theorem C5_degenerate_separation_iff (zPitch : K) (f : TwoDSlidingFitResult K) (rL : K)
    (a c : LayerIter K) (hord : Ordered f.m_layerFitResultMap)
    (hint : Interior f.m_layerFitResultMap (GetLayer zPitch rL))
    (ha : IsLowerBracket f.m_layerFitResultMap (GetLayer zPitch rL) a)
    (hc : IsUpperBracket f.m_layerFitResultMap (GetLayer zPitch rL) c) :
    (f.GetSurroundingLayerIterators zPitch rL = .error STATUS_CODE_FAILURE ↔
        |c.2.GetL - a.2.GetL| < epsilon) ∧
      ∀ s, f.GetSurroundingLayerIterators zPitch rL = .ok s →
        s.firstLayerIter = a ∧ s.secondLayerIter = c ∧
          s.secondLayerIter.2.GetL - s.firstLayerIter.2.GetL ≠ 0 := by
  obtain ⟨a2, c2, ha2, hc2, h⟩ := GetSurroundingLayerIterators_interior zPitch f rL hord hint
  rw [lowerBracket_unique hord ha2 ha, upperBracket_unique hord hc2 hc] at h
  rw [h]
  by_cases hd : |c.2.GetL - a.2.GetL| < epsilon
  · rw [if_pos hd]
    refine ⟨⟨fun _ => hd, fun _ => rfl⟩, ?_⟩
    intro s hs
    cases hs
  · rw [if_neg hd]
    refine ⟨⟨fun hf => (by cases hf), fun hf => absurd hf hd⟩, ?_⟩
    intro s hs
    simp only [Except.ok.injEq] at hs
    subst hs
    refine ⟨rfl, rfl, ?_⟩
    intro hz
    apply hd
    show |c.2.GetL - a.2.GetL| < epsilon
    have hz2 : c.2.GetL - a.2.GetL = 0 := hz
    rw [hz2, abs_zero]
    exact epsilon_pos

/-- Witness of C5 on a map whose two interior brackets store the same coordinate. -/
theorem C5_degenerate_separation_iff_witness :
    degenerateFit.GetSurroundingLayerIterators 1 (3 / 2) = .error STATUS_CODE_FAILURE :=
  (C5_degenerate_separation_iff 1 degenerateFit (3 / 2) (1, ⟨1, 0, 0, 0⟩) (2, ⟨1, 0, 0, 0⟩)
    (by simp [Ordered, degenerateFit])
    (by rw [degenerateFit_layer]; simp [Interior, degenerateFit])
    (by rw [degenerateFit_layer]; simp [IsLowerBracket, degenerateFit])
    (by rw [degenerateFit_layer]; simp [IsUpperBracket, degenerateFit])).1.2
    (by norm_num [LayerFitResult.GetL, epsilon])

/-- Claim C6: on a non-empty map the longitudinal locate never throws `STATUS_CODE_NOT_FOUND`:
whenever the layer of `rL` is within the span of `begin()` and `rbegin()`, the down scan and
the up scan each return an entry. -/
theorem C6_never_not_found (zPitch : K) (f : TwoDSlidingFitResult K) (rL : K)
    (hne : f.m_layerFitResultMap ≠ []) :
    f.GetSurroundingLayerIterators zPitch rL ≠ .error STATUS_CODE_NOT_FOUND ∧
      ∀ b r, f.m_layerFitResultMap.begin = some b → f.m_layerFitResultMap.rbegin = some r →
        b.1 ≤ GetLayer zPitch rL → GetLayer zPitch rL + 1 ≤ r.1 →
        (firstLayerLoop f.m_layerFitResultMap b.1 (GetLayer zPitch rL)).isSome = true ∧
          (secondLayerLoop f.m_layerFitResultMap r.1 (GetLayer zPitch rL + 1)).isSome = true := by
  have key : ∀ b r, f.m_layerFitResultMap.begin = some b → f.m_layerFitResultMap.rbegin = some r →
      b.1 ≤ GetLayer zPitch rL → GetLayer zPitch rL + 1 ≤ r.1 →
      (firstLayerLoop f.m_layerFitResultMap b.1 (GetLayer zPitch rL)).isSome = true ∧
        (secondLayerLoop f.m_layerFitResultMap r.1 (GetLayer zPitch rL + 1)).isSome = true := by
    intro b r hbeg hrb hlo hhi
    obtain ⟨a, ha, _⟩ := firstLayerLoop_interior hbeg hlo
    obtain ⟨c, hc, _⟩ := secondLayerLoop_interior hrb hhi
    rw [ha, hc]
    exact ⟨rfl, rfl⟩
  refine ⟨?_, key⟩
  obtain ⟨b, r, hbeg, hrb⟩ := begin_rbegin_of_ne_nil hne
  rw [GetSurroundingLayerIterators_eq hbeg hrb]
  intro h
  by_cases h1 : GetLayer zPitch rL < b.1 ∨ GetLayer zPitch rL > r.1
  · rw [if_pos h1] at h
    cases h
  rw [if_neg h1] at h
  by_cases h2 : GetLayer zPitch rL = b.1
  · rw [if_pos h2] at h
    cases h
  rw [if_neg h2] at h
  by_cases h3 : GetLayer zPitch rL = r.1
  · rw [if_pos h3] at h
    cases h
  rw [if_neg h3] at h
  have h4 := key b r hbeg hrb (by omega) (by omega)
  split at h
  · rename_i hnone
    rw [hnone] at h4
    exact absurd h4.1 (by simp)
  · split at h
    · rename_i hnone
      rw [hnone] at h4
      exact absurd h4.2 (by simp)
    · split_ifs at h
      cases h

/-- Witness of C6 on the example map, whose layers 1, 3 and 4 are unpopulated. -/
theorem C6_never_not_found_witness :
    exampleFit.GetSurroundingLayerIterators 1 (7 / 2) ≠ .error STATUS_CODE_NOT_FOUND :=
  (C6_never_not_found 1 exampleFit (7 / 2) (by simp [exampleFit, exampleMap])).1

end LongitudinalLocate

/-! ## Interpolation of position, direction and residual -/

section Interpolation

open TwoDSlidingFitResult LayerFitResultMap StatusCode

variable {K : Type} [LinearOrderedField K]

/-- Claim C7, as the code has it: when the two iterators are on the same key the interpolated
position is the global position of the first record, whatever the weights; otherwise the query
throws `STATUS_CODE_FAILURE` when `w1 + w2` is below epsilon, and else returns
`(ToGlobal(first) * w1 + ToGlobal(second) * w2) / (w1 + w2)`. -/
theorem C7_interpolated_position (f : TwoDSlidingFitResult K) (first second : LayerIter K)
    (w1 w2 : K) :
    f.GetGlobalFitInterpolatedPosition first second w1 w2 =
      if first.1 = second.1 then .ok (f.GetGlobalPosition first.2.GetL first.2.GetFitT)
      else if w1 + w2 < epsilon then .error STATUS_CODE_FAILURE
      else .ok
        ⟨((f.GetGlobalPosition first.2.GetL first.2.GetFitT).x * w1 +
            (f.GetGlobalPosition second.2.GetL second.2.GetFitT).x * w2) / (w1 + w2),
          ((f.GetGlobalPosition first.2.GetL first.2.GetFitT).y * w1 +
            (f.GetGlobalPosition second.2.GetL second.2.GetFitT).y * w2) / (w1 + w2),
          ((f.GetGlobalPosition first.2.GetL first.2.GetFitT).z * w1 +
            (f.GetGlobalPosition second.2.GetL second.2.GetFitT).z * w2) / (w1 + w2)⟩ := by
  unfold GetGlobalFitInterpolatedPosition
  by_cases h1 : first.1 = second.1
  · simp only [h1, if_true]
  · simp only [h1, if_false]
    by_cases h2 : w1 + w2 < epsilon
    · simp only [h2, if_true]
    · simp only [h2, if_false]
      simp only [CartesianVector.smul, CartesianVector.add, mul_one_div]

/-- Counterexample to C7 as stated: for the two distinct layers 2 and 5 of the example map and
the weights (0, 0) no blended position is returned, the query throws. -/
theorem C7_interpolated_position_counterexample :
    ((2 : Int) ≠ 5) ∧
      exampleFit.GetGlobalFitInterpolatedPosition (2, ⟨2, 3, 1, 2⟩) (5, ⟨5, 0, -1, 3⟩) 0 0 =
        .error STATUS_CODE_FAILURE ∧
      ∀ position, exampleFit.GetGlobalFitInterpolatedPosition (2, ⟨2, 3, 1, 2⟩)
        (5, ⟨5, 0, -1, 3⟩) 0 0 ≠ .ok position := by
  have h : exampleFit.GetGlobalFitInterpolatedPosition (2, ⟨2, 3, 1, 2⟩) (5, ⟨5, 0, -1, 3⟩) 0 0 =
      .error STATUS_CODE_FAILURE := by
    unfold GetGlobalFitInterpolatedPosition
    norm_num [epsilon]
  refine ⟨by decide, h, ?_⟩
  intro position hp
  rw [h] at hp
  cases hp

/-- Claim C9: when the longitudinal locate at `rL` succeeds with iterators and weights `s`,
`GetRms(rL)` returns the first record's RMS if the two iterators are on the same key, and
otherwise `(rms_first * w1 + rms_second * w2) / (w1 + w2)`; on an ordered map the iterators
are on the same key exactly at the boundary layers. -/
theorem C9_rms_blend [FloorRing K] (zPitch : K) (f : TwoDSlidingFitResult K) (rL : K)
    (s : SurroundingLayers K) (hord : Ordered f.m_layerFitResultMap)
    (hok : f.GetSurroundingLayerIterators zPitch rL = .ok s) :
    f.GetRms zPitch rL =
        .ok (if s.firstLayerIter.1 = s.secondLayerIter.1 then s.firstLayerIter.2.GetRms
          else (s.firstLayerIter.2.GetRms * s.firstWeight +
            s.secondLayerIter.2.GetRms * s.secondWeight) / (s.firstWeight + s.secondWeight)) ∧
      (s.firstLayerIter.1 = s.secondLayerIter.1 ↔
        AtBoundary f.m_layerFitResultMap (GetLayer zPitch rL)) := by
  refine ⟨?_, GetSurroundingLayerIterators_same_iff hord hok⟩
  have hsum := GetSurroundingLayerIterators_weights hok
  have hnot : ¬ s.firstWeight + s.secondWeight < epsilon := by
    rw [hsum]
    exact not_lt.2 epsilon_le_one
  unfold GetRms
  rw [hok]
  by_cases h1 : s.firstLayerIter.1 = s.secondLayerIter.1
  · simp only [h1, if_true]
  · simp only [h1, hnot, if_false]

/-- Witness of C9 on the example map: at 7/2 the RMS values 2 and 3 are blended to 5/2. -/
theorem C9_rms_blend_witness :
    exampleFit.GetRms 1 (7 / 2) =
        .ok (if (2 : Int) = 5 then LayerFitResult.GetRms (⟨2, 3, 1, 2⟩ : LayerFitResult ℚ)
          else (LayerFitResult.GetRms ⟨2, 3, 1, 2⟩ * (1 / 2) +
            LayerFitResult.GetRms ⟨5, 0, -1, 3⟩ * (1 / 2)) / (1 / 2 + 1 / 2)) ∧
      ((2 : Int) = 5 ↔ AtBoundary exampleFit.m_layerFitResultMap (GetLayer (1 : ℚ) (7 / 2))) :=
  C9_rms_blend 1 exampleFit (7 / 2) ⟨(2, ⟨2, 3, 1, 2⟩), (5, ⟨5, 0, -1, 3⟩), 1 / 2, 1 / 2⟩
    exampleFit_ordered exampleFit_locate

end Interpolation

/-! ## Directions and the local frame, over the reals -/

section RealGeometry

open TwoDSlidingFitResult LayerFitResultMap StatusCode CartesianVector

/-- A vector returned by `GetUnitVector` has magnitude one. -/
theorem GetUnitVector_magnitude {v d : CartesianVector ℝ}
    (h : v.GetUnitVector Real.sqrt = .ok d) : d.GetMagnitude Real.sqrt = 1 := by
  unfold GetUnitVector at h
  simp only at h
  split_ifs at h with hm
  simp only [Except.ok.injEq] at h
  subst h
  have h0 : 0 ≤ v.GetMagnitude Real.sqrt := Real.sqrt_nonneg _
  rw [abs_of_nonneg h0] at hm
  have hpos : 0 < v.GetMagnitude Real.sqrt := lt_of_lt_of_le epsilon_pos (not_lt.1 hm)
  have hsq : v.GetMagnitude Real.sqrt * v.GetMagnitude Real.sqrt =
      v.x * v.x + v.y * v.y + v.z * v.z := by
    unfold GetMagnitude GetMagnitudeSquared
    exact Real.mul_self_sqrt
      (add_nonneg (add_nonneg (mul_self_nonneg _) (mul_self_nonneg _)) (mul_self_nonneg _))
  have hone : v.x / v.GetMagnitude Real.sqrt * (v.x / v.GetMagnitude Real.sqrt) +
      v.y / v.GetMagnitude Real.sqrt * (v.y / v.GetMagnitude Real.sqrt) +
      v.z / v.GetMagnitude Real.sqrt * (v.z / v.GetMagnitude Real.sqrt) = 1 := by
    field_simp
    linarith
  show Real.sqrt (v.x / v.GetMagnitude Real.sqrt * (v.x / v.GetMagnitude Real.sqrt) +
      v.y / v.GetMagnitude Real.sqrt * (v.y / v.GetMagnitude Real.sqrt) +
      v.z / v.GetMagnitude Real.sqrt * (v.z / v.GetMagnitude Real.sqrt)) = 1
  rw [hone, Real.sqrt_one]

/-- A direction returned by `GetGlobalFitInterpolatedDirection` has magnitude one, for any
two iterators and any weights. -/
theorem GetGlobalFitInterpolatedDirection_magnitude {f : TwoDSlidingFitResult ℝ}
    {first second : LayerIter ℝ} {w1 w2 : ℝ} {d : CartesianVector ℝ}
    (h : f.GetGlobalFitInterpolatedDirection Real.sqrt first second w1 w2 = .ok d) :
    d.GetMagnitude Real.sqrt = 1 := by
  unfold GetGlobalFitInterpolatedDirection at h
  cases h1 : layerDirection Real.sqrt f first.2.GetGradient with
  | error c =>
    rw [h1] at h
    cases h
  | ok d1 =>
    rw [h1] at h
    simp only at h
    by_cases hs : first.1 = second.1
    · rw [if_pos hs] at h
      simp only [Except.ok.injEq] at h
      subst h
      exact GetUnitVector_magnitude h1
    · rw [if_neg hs] at h
      cases h2 : layerDirection Real.sqrt f second.2.GetGradient with
      | error c =>
        rw [h2] at h
        cases h
      | ok d2 =>
        rw [h2] at h
        simp only at h
        split_ifs at h
        exact GetUnitVector_magnitude h

/-- Claim C8: a direction returned by `GetGlobalFitDirection`, queried by longitudinal
coordinate or by X/Z coordinate, has magnitude exactly one over the reals. -/
theorem C8_direction_unit (zPitch : ℝ) (f : TwoDSlidingFitResult ℝ) (d : CartesianVector ℝ)
    (h : (∃ rL, f.GetGlobalFitDirection Real.sqrt zPitch rL = .ok d) ∨
      (∃ p useX, f.GetGlobalFitDirectionP Real.sqrt zPitch p useX = .ok d)) :
    d.GetMagnitude Real.sqrt = 1 := by
  rcases h with ⟨rL, h⟩ | ⟨p, useX, h⟩
  · unfold GetGlobalFitDirection at h
    cases hl : f.GetSurroundingLayerIterators zPitch rL with
    | error c =>
      rw [hl] at h
      cases h
    | ok s =>
      rw [hl] at h
      exact GetGlobalFitInterpolatedDirection_magnitude h
  · unfold GetGlobalFitDirectionP at h
    cases hl : f.GetSurroundingLayerIteratorsP zPitch p useX with
    | error c =>
      rw [hl] at h
      cases h
    | ok s =>
      rw [hl] at h
      exact GetGlobalFitInterpolatedDirection_magnitude h

theorem sqrt_one_add_sq (g r : ℝ) (hr : 0 ≤ r) (h : 1 + g * g = r * r) :
    Real.sqrt (1 + g * g) = r := by
  rw [h]
  exact Real.sqrt_mul_self hr

theorem bentFit_direction_first :
    layerDirection Real.sqrt (bentFit : TwoDSlidingFitResult ℝ) (-3 / 4) =
      .ok ⟨3 / 5, 0, 4 / 5⟩ := by
  have h1 : Real.sqrt (1 + (-3 / 4 : ℝ) * (-3 / 4)) = 5 / 4 :=
    sqrt_one_add_sq _ _ (by norm_num) (by norm_num)
  unfold layerDirection
  simp only [h1]
  norm_num [GetUnitVector, GetMagnitude, GetMagnitudeSquared, GetGlobalPosition, bentFit,
    CartesianVector.add, CartesianVector.smul, CartesianVector.sub, GetCrossProduct, epsilon]

theorem bentFit_direction_second :
    layerDirection Real.sqrt (bentFit : TwoDSlidingFitResult ℝ) (3 / 4) =
      .ok ⟨-3 / 5, 0, 4 / 5⟩ := by
  have h1 : Real.sqrt (1 + (3 / 4 : ℝ) * (3 / 4)) = 5 / 4 :=
    sqrt_one_add_sq _ _ (by norm_num) (by norm_num)
  unfold layerDirection
  simp only [h1]
  norm_num [GetUnitVector, GetMagnitude, GetMagnitudeSquared, GetGlobalPosition, bentFit,
    CartesianVector.add, CartesianVector.smul, CartesianVector.sub, GetCrossProduct, epsilon]

theorem bentFit_layer : GetLayer (1 : ℝ) 1 = 1 := by
  simp [GetLayer]

theorem bentFit_locate :
    (bentFit : TwoDSlidingFitResult ℝ).GetSurroundingLayerIterators 1 1 =
      .ok ⟨(0, ⟨0, 0, -3 / 4, 0⟩), (2, ⟨2, 0, 3 / 4, 0⟩), 1 / 2, 1 / 2⟩ := by
  have hord : Ordered (bentFit : TwoDSlidingFitResult ℝ).m_layerFitResultMap := by
    simp [Ordered, bentFit]
  obtain ⟨a, c, ha, hc, h⟩ := GetSurroundingLayerIterators_interior (1 : ℝ) bentFit 1 hord (by rw [bentFit_layer]; simp [Interior, bentFit])
  have ha2 : IsLowerBracket (bentFit : TwoDSlidingFitResult ℝ).m_layerFitResultMap
      (GetLayer (1 : ℝ) 1) (0, ⟨0, 0, -3 / 4, 0⟩) := by
    rw [bentFit_layer]
    simp [IsLowerBracket, bentFit]
  have hc2 : IsUpperBracket (bentFit : TwoDSlidingFitResult ℝ).m_layerFitResultMap
      (GetLayer (1 : ℝ) 1) (2, ⟨2, 0, 3 / 4, 0⟩) := by
    rw [bentFit_layer]
    simp [IsUpperBracket, bentFit]
  rw [lowerBracket_unique hord ha ha2, upperBracket_unique hord hc hc2] at h
  rw [h]
  norm_num [LayerFitResult.GetL, epsilon, abs_lt]

theorem bentFit_blend_unit :
    CartesianVector.GetUnitVector Real.sqrt (⟨0, 0, 4 / 5⟩ : CartesianVector ℝ) =
      .ok ⟨0, 0, 1⟩ := by
  have h1 : CartesianVector.GetMagnitude Real.sqrt (⟨0, 0, 4 / 5⟩ : CartesianVector ℝ) =
      4 / 5 := by
    unfold GetMagnitude GetMagnitudeSquared
    rw [show ((0 : ℝ) * 0 + 0 * 0 + 4 / 5 * (4 / 5)) = 4 / 5 * (4 / 5) by ring]
    exact Real.sqrt_mul_self (by norm_num)
  have h2 : ¬ |(4 / 5 : ℝ)| < epsilon := by
    rw [abs_of_nonneg (by norm_num)]
    norm_num [epsilon]
  unfold GetUnitVector
  simp only [h1, h2, if_false]
  norm_num

theorem bentFit_direction :
    (bentFit : TwoDSlidingFitResult ℝ).GetGlobalFitDirection Real.sqrt 1 1 = .ok ⟨0, 0, 1⟩ := by
  have h1 : ((⟨3 / 5, 0, 4 / 5⟩ : CartesianVector ℝ).smul (1 / 2)).add
      ((⟨-3 / 5, 0, 4 / 5⟩ : CartesianVector ℝ).smul (1 / 2)) = ⟨0, 0, 4 / 5⟩ := by
    norm_num [CartesianVector.add, CartesianVector.smul]
  unfold GetGlobalFitDirection
  rw [bentFit_locate]
  unfold GetGlobalFitInterpolatedDirection
  simp only [LayerFitResult.GetGradient, bentFit_direction_first, bentFit_direction_second, h1,
    bentFit_blend_unit]
  norm_num [epsilon]

/-- Witness of C8: the direction at rL = 1 of a fit whose two layers have the gradients
-3/4 and 3/4, blended with weights (1/2, 1/2), is the unit vector (0, 0, 1). -/
theorem C8_direction_unit_witness :
    CartesianVector.GetMagnitude Real.sqrt (⟨0, 0, 1⟩ : CartesianVector ℝ) = 1 :=
  C8_direction_unit 1 bentFit ⟨0, 0, 1⟩ (Or.inl ⟨1, bentFit_direction⟩)

/-- The magnitude of a vector along the Y axis is the absolute value of its Y component. -/
theorem GetMagnitude_of_y (c : ℝ) :
    CartesianVector.GetMagnitude Real.sqrt (⟨0, c, 0⟩ : CartesianVector ℝ) = |c| := by
  unfold GetMagnitude GetMagnitudeSquared
  rw [show ((0 : ℝ) * 0 + c * c + 0 * 0) = c * c by ring]
  exact Real.sqrt_mul_self_eq_abs c

/-- Claim C10, amended to the plane of the fit: for an axis frame whose unit direction has zero
Y component and a point `p` whose Y coordinate is that of the intercept, `GetGlobalPosition`
applied to the local coordinates `GetLocalPosition` gives for `p` returns `p`. -/
theorem C10_global_local_global_in_plane (f : TwoDSlidingFitResult ℝ) (p : CartesianVector ℝ)
    (hunit : f.m_axisDirection.GetMagnitude Real.sqrt = 1) (hdir : f.m_axisDirection.y = 0)
    (hp : p.y = f.m_axisIntercept.y) :
    f.GetGlobalPosition (f.GetLocalPosition Real.sqrt p).1 (f.GetLocalPosition Real.sqrt p).2 =
      p := by
  obtain ⟨i, u, m⟩ := f
  obtain ⟨ix, iy, iz⟩ := i
  obtain ⟨ux, uy, uz⟩ := u
  obtain ⟨px, py, pz⟩ := p
  simp only at hdir hp
  subst hdir
  subst hp
  have hsq : ux * ux + uz * uz = 1 := by
    unfold GetMagnitude GetMagnitudeSquared at hunit
    simp only at hunit
    have h := Real.mul_self_sqrt (show (0 : ℝ) ≤ ux * ux + 0 * 0 + uz * uz from
      add_nonneg (add_nonneg (mul_self_nonneg _) (mul_self_nonneg _)) (mul_self_nonneg _))
    rw [hunit] at h
    linarith
  have hcross : (CartesianVector.sub ⟨px, py, pz⟩ ⟨ix, py, iz⟩).GetCrossProduct
      (⟨ux, 0, uz⟩ : CartesianVector ℝ) = ⟨0, (pz - iz) * ux - uz * (px - ix), 0⟩ := by
    simp [GetCrossProduct, CartesianVector.sub]
  have hT : (if (pz - iz) * ux - uz * (px - ix) < 0 then
      -1 * |(pz - iz) * ux - uz * (px - ix)| else |(pz - iz) * ux - uz * (px - ix)|) =
      (pz - iz) * ux - uz * (px - ix) := by
    split_ifs with hneg
    · rw [abs_of_neg hneg]
      ring
    · exact abs_of_nonneg (not_lt.1 hneg)
  unfold GetLocalPosition GetGlobalPosition
  simp only [hcross, GetMagnitude_of_y, hT]
  simp only [GetDotProduct, GetCrossProduct, CartesianVector.sub, CartesianVector.add,
    CartesianVector.smul, CartesianVector.mk.injEq]
  refine ⟨?_, ?_, ?_⟩
  · linear_combination (px - ix) * hsq
  · ring
  · linear_combination (pz - iz) * hsq

/-- Witness of the amended C10: the frame at (1, 0, 2) along (3/5, 0, 4/5) and the point
(2, 0, 1). -/
theorem C10_global_local_global_in_plane_witness :
    TwoDSlidingFitResult.GetGlobalPosition (⟨⟨1, 0, 2⟩, ⟨3 / 5, 0, 4 / 5⟩, []⟩ : TwoDSlidingFitResult ℝ)
      (TwoDSlidingFitResult.GetLocalPosition Real.sqrt
        (⟨⟨1, 0, 2⟩, ⟨3 / 5, 0, 4 / 5⟩, []⟩ : TwoDSlidingFitResult ℝ) ⟨2, 0, 1⟩).1
      (TwoDSlidingFitResult.GetLocalPosition Real.sqrt
        (⟨⟨1, 0, 2⟩, ⟨3 / 5, 0, 4 / 5⟩, []⟩ : TwoDSlidingFitResult ℝ) ⟨2, 0, 1⟩).2 =
      ⟨2, 0, 1⟩ :=
  C10_global_local_global_in_plane ⟨⟨1, 0, 2⟩, ⟨3 / 5, 0, 4 / 5⟩, []⟩ ⟨2, 0, 1⟩
    (by
      unfold GetMagnitude GetMagnitudeSquared
      rw [show ((3 / 5 : ℝ) * (3 / 5) + 0 * 0 + 4 / 5 * (4 / 5)) = 1 by norm_num]
      exact Real.sqrt_one)
    rfl rfl

/-- Counterexample to C10 as stated: in the frame at the origin along the unit vector
(0, 0, 1), the point (0, 1, 0) off the X-Z plane is not recovered; the round trip returns a
point whose Y coordinate is 0. -/
theorem C10_global_local_global_counterexample :
    CartesianVector.GetMagnitude Real.sqrt (⟨0, 0, 1⟩ : CartesianVector ℝ) = 1 ∧
      TwoDSlidingFitResult.GetGlobalPosition (⟨⟨0, 0, 0⟩, ⟨0, 0, 1⟩, []⟩ : TwoDSlidingFitResult ℝ)
        (TwoDSlidingFitResult.GetLocalPosition Real.sqrt
          (⟨⟨0, 0, 0⟩, ⟨0, 0, 1⟩, []⟩ : TwoDSlidingFitResult ℝ) ⟨0, 1, 0⟩).1
        (TwoDSlidingFitResult.GetLocalPosition Real.sqrt
          (⟨⟨0, 0, 0⟩, ⟨0, 0, 1⟩, []⟩ : TwoDSlidingFitResult ℝ) ⟨0, 1, 0⟩).2 ≠
        ⟨0, 1, 0⟩ := by
  constructor
  · unfold GetMagnitude GetMagnitudeSquared
    rw [show ((0 : ℝ) * 0 + 0 * 0 + 1 * 1) = 1 by norm_num]
    exact Real.sqrt_one
  · intro h
    have hy := congrArg CartesianVector.y h
    simp [GetGlobalPosition, GetCrossProduct, CartesianVector.add, CartesianVector.smul] at hy

end RealGeometry

/-! ## The local frame and the layer quantizer -/

section LocalFrame

open TwoDSlidingFitResult LayerFitResultMap StatusCode CartesianVector

/-- Claim C11, amended to the plane of the fit: for an axis frame whose unit direction has zero
Y component and every pair (L, T), `GetLocalPosition` applied to `GetGlobalPosition(L, T)`
returns exactly (L, T), the sign of T included. -/
theorem C11_local_global_local_in_plane (f : TwoDSlidingFitResult ℝ) (rL rT : ℝ)
    (hunit : f.m_axisDirection.GetMagnitude Real.sqrt = 1) (hdir : f.m_axisDirection.y = 0) :
    f.GetLocalPosition Real.sqrt (f.GetGlobalPosition rL rT) = (rL, rT) := by
  obtain ⟨i, u, m⟩ := f
  obtain ⟨ix, iy, iz⟩ := i
  obtain ⟨ux, uy, uz⟩ := u
  simp only at hdir
  subst hdir
  have hsq : ux * ux + uz * uz = 1 := by
    unfold GetMagnitude GetMagnitudeSquared at hunit
    simp only at hunit
    have h := Real.mul_self_sqrt (show (0 : ℝ) ≤ ux * ux + 0 * 0 + uz * uz from
      add_nonneg (add_nonneg (mul_self_nonneg _) (mul_self_nonneg _)) (mul_self_nonneg _))
    rw [hunit] at h
    linarith
  have hcross : (CartesianVector.sub
      (TwoDSlidingFitResult.GetGlobalPosition ⟨⟨ix, iy, iz⟩, ⟨ux, 0, uz⟩, m⟩ rL rT)
      ⟨ix, iy, iz⟩).GetCrossProduct (⟨ux, 0, uz⟩ : CartesianVector ℝ) = ⟨0, rT, 0⟩ := by
    simp only [GetGlobalPosition, GetCrossProduct, CartesianVector.sub, CartesianVector.add,
      CartesianVector.smul, CartesianVector.mk.injEq]
    refine ⟨by ring, ?_, by ring⟩
    linear_combination rT * hsq
  have hT : (if rT < 0 then -1 * |rT| else |rT|) = rT := by
    split_ifs with hneg
    · rw [abs_of_neg hneg]
      ring
    · exact abs_of_nonneg (not_lt.1 hneg)
  unfold GetLocalPosition
  simp only [hcross, GetMagnitude_of_y, hT, Prod.mk.injEq, and_true]
  simp only [GetGlobalPosition, GetDotProduct, GetCrossProduct, CartesianVector.sub,
    CartesianVector.add, CartesianVector.smul]
  linear_combination rL * hsq

/-- Witness of the amended C11: the frame at (1, 0, 2) along (3/5, 0, 4/5) and the local pair
(2, -1). -/
theorem C11_local_global_local_in_plane_witness :
    TwoDSlidingFitResult.GetLocalPosition Real.sqrt
      (⟨⟨1, 0, 2⟩, ⟨3 / 5, 0, 4 / 5⟩, []⟩ : TwoDSlidingFitResult ℝ)
      (TwoDSlidingFitResult.GetGlobalPosition
        (⟨⟨1, 0, 2⟩, ⟨3 / 5, 0, 4 / 5⟩, []⟩ : TwoDSlidingFitResult ℝ) 2 (-1)) = (2, -1) :=
  C11_local_global_local_in_plane ⟨⟨1, 0, 2⟩, ⟨3 / 5, 0, 4 / 5⟩, []⟩ 2 (-1)
    (by
      unfold GetMagnitude GetMagnitudeSquared
      rw [show ((3 / 5 : ℝ) * (3 / 5) + 0 * 0 + 4 / 5 * (4 / 5)) = 1 by norm_num]
      exact Real.sqrt_one)
    rfl

/-- Counterexample to C11 as stated: in the frame at the origin along the unit vector
(0, 1, 0) the local pair (0, 1) goes to the origin, whose local pair is (0, 0). -/
theorem C11_local_global_local_counterexample :
    CartesianVector.GetMagnitude Real.sqrt (⟨0, 1, 0⟩ : CartesianVector ℝ) = 1 ∧
      TwoDSlidingFitResult.GetLocalPosition Real.sqrt
        (⟨⟨0, 0, 0⟩, ⟨0, 1, 0⟩, []⟩ : TwoDSlidingFitResult ℝ)
        (TwoDSlidingFitResult.GetGlobalPosition
          (⟨⟨0, 0, 0⟩, ⟨0, 1, 0⟩, []⟩ : TwoDSlidingFitResult ℝ) 0 1) ≠ (0, 1) := by
  constructor
  · unfold GetMagnitude GetMagnitudeSquared
    rw [show ((0 : ℝ) * 0 + 1 * 1 + 0 * 0) = 1 by norm_num]
    exact Real.sqrt_one
  · intro h
    have h2 := congrArg Prod.snd h
    simp [GetLocalPosition, GetGlobalPosition, GetCrossProduct, GetMagnitude,
      GetMagnitudeSquared, CartesianVector.add, CartesianVector.smul, CartesianVector.sub] at h2

/-- Claim C12: for every point `p`, `GetLocalPosition` returns `L = (p - intercept) . direction`
and a `T` whose absolute value is the magnitude of `(p - intercept) x direction`; `T` is
negative exactly when the Y component of that cross product is negative, and non-negative
exactly when it is not. -/
theorem C12_local_position (f : TwoDSlidingFitResult ℝ) (p : CartesianVector ℝ) :
    (f.GetLocalPosition Real.sqrt p).1 = (p.sub f.m_axisIntercept).GetDotProduct f.m_axisDirection ∧
      |(f.GetLocalPosition Real.sqrt p).2| =
        ((p.sub f.m_axisIntercept).GetCrossProduct f.m_axisDirection).GetMagnitude Real.sqrt ∧
      ((f.GetLocalPosition Real.sqrt p).2 < 0 ↔
        ((p.sub f.m_axisIntercept).GetCrossProduct f.m_axisDirection).y < 0) ∧
      (0 ≤ (f.GetLocalPosition Real.sqrt p).2 ↔
        ¬ ((p.sub f.m_axisIntercept).GetCrossProduct f.m_axisDirection).y < 0) := by
  have hmag : 0 ≤ ((p.sub f.m_axisIntercept).GetCrossProduct f.m_axisDirection).GetMagnitude
      Real.sqrt := Real.sqrt_nonneg _
  unfold GetLocalPosition
  simp only
  by_cases hy : ((p.sub f.m_axisIntercept).GetCrossProduct f.m_axisDirection).y < 0
  · have hpos : 0 < ((p.sub f.m_axisIntercept).GetCrossProduct f.m_axisDirection).GetMagnitude
        Real.sqrt := by
      unfold GetMagnitude GetMagnitudeSquared
      apply Real.sqrt_pos.2
      have h1 := mul_pos_of_neg_of_neg hy hy
      have h2 := mul_self_nonneg ((p.sub f.m_axisIntercept).GetCrossProduct f.m_axisDirection).x
      have h3 := mul_self_nonneg ((p.sub f.m_axisIntercept).GetCrossProduct f.m_axisDirection).z
      linarith
    simp only [hy, if_true, neg_mul, one_mul, abs_neg, abs_of_nonneg hmag, true_and,
      not_true_eq_false, iff_false, iff_true, not_le]
    exact ⟨by linarith, by linarith⟩
  · simp only [hy, if_false, abs_of_nonneg hmag, true_and, not_false_eq_true, iff_true,
      iff_false, not_lt]
    exact ⟨hmag, hmag⟩

end LocalFrame

/-! ## Binary floating-point arithmetic -/

section FloatingPoint

open TwoDSlidingFitResult LayerFitResultMap StatusCode

/-- A rational within one half of the integer `n` rounds to `n`. -/
theorem roundHalfEven_of_lt {q : ℚ} {n : Int} (h1 : (n : ℚ) - 1 / 2 < q)
    (h2 : q < (n : ℚ) + 1 / 2) : roundHalfEven q = n := by
  have hf1 := Int.floor_le q
  have hf2 := Int.lt_floor_add_one q
  have hlo : n - 1 ≤ ⌊q⌋ := by
    have h : ((n - 1 : Int) : ℚ) < ((⌊q⌋ + 1 : Int) : ℚ) := by
      push_cast
      linarith
    have := Int.cast_lt.1 h
    omega
  have hhi : ⌊q⌋ ≤ n := by
    have h : ((⌊q⌋ : Int) : ℚ) < ((n + 1 : Int) : ℚ) := by
      push_cast
      linarith
    have := Int.cast_lt.1 h
    omega
  unfold roundHalfEven
  rcases (by omega : ⌊q⌋ = n ∨ ⌊q⌋ = n - 1) with h | h
  · rw [h, if_pos (by linarith)]
  · rw [h]
    have hgt : (1 : ℚ) / 2 < q - ((n - 1 : Int) : ℚ) := by
      push_cast
      linarith
    rw [if_neg (by linarith), if_pos hgt]
    omega

/-- The binary exponent of a number between `2 ^ e` and `2 ^ (e + 1)` is `e`. -/
theorem binade_eq {x : ℚ} {e : Int} (h1 : (2 : ℚ) ^ e ≤ |x|) (h2 : |x| < (2 : ℚ) ^ (e + 1)) :
    binade x = e := by
  have hpos : 0 < |x| := lt_of_lt_of_le (by positivity) h1
  unfold binade
  have ha : e ≤ Int.log 2 |x| :=
    (Int.zpow_le_iff_le_log (by norm_num) hpos).1 (by exact_mod_cast h1)
  have hb : Int.log 2 |x| < e + 1 :=
    (Int.lt_zpow_iff_log_lt (by norm_num) hpos).1 (by exact_mod_cast h2)
  omega

/-- Evaluation of the rounding for a number whose binary exponent `e` and rounded
significand `n` are known. -/
theorem roundToBits_of {mantissaBits : Nat} {x v : ℚ} (e n : Int) (h1 : (2 : ℚ) ^ e ≤ |x|)
    (h2 : |x| < (2 : ℚ) ^ (e + 1)) (h3 : (n : ℚ) - 1 / 2 < x / 2 ^ (e - mantissaBits))
    (h4 : x / 2 ^ (e - mantissaBits) < (n : ℚ) + 1 / 2)
    (hv : v = (n : ℚ) * 2 ^ (e - mantissaBits)) : roundToBits mantissaBits x = v := by
  have hx : x ≠ 0 := by
    intro h0
    rw [h0, abs_zero] at h1
    exact absurd h1 (not_le.2 (by positivity))
  unfold roundToBits
  rw [if_neg hx, binade_eq h1 h2, roundHalfEven_of_lt h3 h4, hv]

/-- The value of 0.3f. -/
theorem toFloat_pitch : toFloat (3 / 10) = 5033165 / 16777216 :=
  roundToBits_of (-2) 10066330 (by norm_num [abs_of_pos]) (by norm_num [abs_of_pos])
      (by norm_num) (by norm_num) (by norm_num)

theorem GetLF_15 : GetLF (5033165 / 16777216) 15 = 9 / 2 := by
  have h : toFloat (15 : ℚ) = 15 :=
    roundToBits_of 3 15728640 (by norm_num [abs_of_pos]) (by norm_num [abs_of_pos])
      (by norm_num) (by norm_num) (by norm_num)
  unfold GetLF
  push_cast
  rw [h]
  exact roundToBits_of 2 9437184 (by norm_num [abs_of_pos]) (by norm_num [abs_of_pos])
      (by norm_num) (by norm_num) (by norm_num)

theorem GetLF_44 : GetLF (5033165 / 16777216) 44 = 3460301 / 262144 := by
  have h : toFloat (44 : ℚ) = 44 :=
    roundToBits_of 5 11534336 (by norm_num [abs_of_pos]) (by norm_num [abs_of_pos])
      (by norm_num) (by norm_num) (by norm_num)
  unfold GetLF
  push_cast
  rw [h]
  exact roundToBits_of 3 13841204 (by norm_num [abs_of_pos]) (by norm_num [abs_of_pos])
      (by norm_num) (by norm_num) (by norm_num)

theorem GetLF_45 : GetLF (5033165 / 16777216) 45 = 14155777 / 1048576 := by
  have h : toFloat (45 : ℚ) = 45 :=
    roundToBits_of 5 11796480 (by norm_num [abs_of_pos]) (by norm_num [abs_of_pos])
      (by norm_num) (by norm_num) (by norm_num)
  unfold GetLF
  push_cast
  rw [h]
  exact roundToBits_of 3 14155777 (by norm_num [abs_of_pos]) (by norm_num [abs_of_pos])
      (by norm_num) (by norm_num) (by norm_num)

theorem GetLF_47 : GetLF (5033165 / 16777216) 47 = 7392461 / 524288 := by
  have h : toFloat (47 : ℚ) = 47 :=
    roundToBits_of 5 12320768 (by norm_num [abs_of_pos]) (by norm_num [abs_of_pos])
      (by norm_num) (by norm_num) (by norm_num)
  unfold GetLF
  push_cast
  rw [h]
  exact roundToBits_of 3 14784922 (by norm_num [abs_of_pos]) (by norm_num [abs_of_pos])
      (by norm_num) (by norm_num) (by norm_num)

/-- For the pitch 0.3f the quotient 4.5 / 0.3f rounds to the `float` below 15. -/
theorem GetLayerF_GetLF_15 : GetLayerF (5033165 / 16777216) (9 / 2) = 14 := by
  have h : toFloat (9 / 2 / (5033165 / 16777216)) = 15728639 / 1048576 :=
    roundToBits_of 3 15728639 (by norm_num [abs_of_pos]) (by norm_num [abs_of_pos])
      (by norm_num) (by norm_num) (by norm_num)
  unfold GetLayerF
  rw [h, Int.floor_eq_iff]
  norm_num

/-- For the pitch 0.3f the quotient 13.5 / 0.3f rounds to 45. -/
theorem GetLayerF_edge : GetLayerF (5033165 / 16777216) (27 / 2) = 45 := by
  have h : toFloat (27 / 2 / (5033165 / 16777216)) = 45 :=
    roundToBits_of 5 11796480 (by norm_num [abs_of_pos]) (by norm_num [abs_of_pos])
      (by norm_num) (by norm_num) (by norm_num)
  unfold GetLayerF
  rw [h, Int.floor_eq_iff]
  norm_num

/-- The `float` operations of the weights for rL = 13.5 between the stored coordinates of
the keys 45 and 47. -/
theorem edgeFit_weights :
    toFloat (toFloat (27 / 2 - (14155777 / 1048576)) / toFloat (7392461 / 524288 - (14155777 / 1048576))) =
        -13981027 / 8796093022208 ∧
      toFloat (1 - (-13981027 / 8796093022208)) = 8388621 / 8388608 ∧
      ¬ |toFloat (7392461 / 524288 - (14155777 / 1048576))| < (epsilon : ℚ) := by
  have h1 : toFloat (27 / 2 - (14155777 / 1048576)) = -1 / 1048576 :=
    roundToBits_of (-20) (-8388608) (by norm_num [abs_of_neg]) (by norm_num [abs_of_neg])
      (by norm_num) (by norm_num) (by norm_num)
  have h2 : toFloat (7392461 / 524288 - (14155777 / 1048576)) = 629145 / 1048576 :=
    roundToBits_of (-1) 10066320 (by norm_num [abs_of_pos]) (by norm_num [abs_of_pos])
      (by norm_num) (by norm_num) (by norm_num)
  have h3 : toFloat (-1 / 1048576 / (629145 / 1048576)) = -13981027 / 8796093022208 :=
    roundToBits_of (-20) (-13981027) (by norm_num [abs_of_neg]) (by norm_num [abs_of_neg])
      (by norm_num) (by norm_num) (by norm_num)
  have h4 : toFloat (1 - (-13981027 / 8796093022208)) = 8388621 / 8388608 :=
    roundToBits_of 0 8388621 (by norm_num [abs_of_pos]) (by norm_num [abs_of_pos])
      (by norm_num) (by norm_num) (by norm_num)
  rw [h1, h2, h3]
  refine ⟨rfl, h4, ?_⟩
  norm_num [epsilon, abs_of_pos]


theorem edgeFit_begin : edgeFit.m_layerFitResultMap.begin =
    some (44, ⟨GetLF (toFloat (3 / 10)) 44, 0, 0, 0⟩) := rfl

theorem edgeFit_rbegin : edgeFit.m_layerFitResultMap.rbegin =
    some (47, ⟨GetLF (toFloat (3 / 10)) 47, 0, 0, 0⟩) := rfl

theorem edgeFit_first : firstLayerLoop edgeFit.m_layerFitResultMap 44 45 =
    some (45, ⟨GetLF (toFloat (3 / 10)) 45, 0, 0, 0⟩) := by
  simp [firstLayerLoop, edgeFit, LayerFitResultMap.find]

theorem edgeFit_second : secondLayerLoop edgeFit.m_layerFitResultMap 47 (45 + 1) =
    some (47, ⟨GetLF (toFloat (3 / 10)) 47, 0, 0, 0⟩) := by
  simp [secondLayerLoop, edgeFit, LayerFitResultMap.find]

/-- The locate in `float` arithmetic at rL = 13.5 on the map with the keys 44, 45, 47. -/
theorem edgeFit_locate :
    edgeFit.GetSurroundingLayerIteratorsF (toFloat (3 / 10)) (27 / 2) =
      .ok ⟨(45, ⟨GetLF (toFloat (3 / 10)) 45, 0, 0, 0⟩),
        (47, ⟨GetLF (toFloat (3 / 10)) 47, 0, 0, 0⟩),
        8388621 / 8388608, -13981027 / 8796093022208⟩ := by
  have hlayer : GetLayerF (toFloat (3 / 10)) (27 / 2) = 45 := by
    rw [toFloat_pitch]
    exact GetLayerF_edge
  unfold GetSurroundingLayerIteratorsF
  rw [edgeFit_begin, edgeFit_rbegin]
  simp only [hlayer, edgeFit_first, edgeFit_second]
  simp only [toFloat_pitch, GetLF_45, GetLF_47, LayerFitResult.GetL, edgeFit_weights.1,
    edgeFit_weights.2.1]
  rw [if_neg (by decide), if_neg (by decide), if_neg (by decide), if_neg edgeFit_weights.2.2]

theorem toFloat_tenth : toFloat (1 / 10) = 13421773 / 134217728 :=
  roundToBits_of (-4) 13421773 (by norm_num [abs_of_pos]) (by norm_num [abs_of_pos])
      (by norm_num) (by norm_num) (by norm_num)

theorem toFloat_fifth : toFloat (1 / 5) = 13421773 / 67108864 :=
  roundToBits_of (-3) 13421773 (by norm_num [abs_of_pos]) (by norm_num [abs_of_pos])
      (by norm_num) (by norm_num) (by norm_num)

theorem toFloat_seven_point_seven : toFloat (77 / 10) = 8074035 / 1048576 :=
  roundToBits_of 2 16148070 (by norm_num [abs_of_pos]) (by norm_num [abs_of_pos])
      (by norm_num) (by norm_num) (by norm_num)

/-- The sum of squares after adding 0.1f, 0.2f, 7.7f in this order, in `double`. -/
theorem AddPointD_sumTT_forward :
    (decimalPoints.foldl
      (fun c lt => c.AddPointD lt.1 lt.2) LayerFitContribution.new).m_sumTT =
      4175681072912141 / 70368744177664 := by
  show toDouble (toDouble (toDouble (0 + toDouble (toFloat (1 / 10) * (toFloat (1 / 10)))) +
      toDouble (toFloat (1 / 5) * (toFloat (1 / 5)))) + toDouble (toFloat (77 / 10) * (toFloat (77 / 10)))) = _
  rw [toFloat_tenth, toFloat_fifth, toFloat_seven_point_seven]
  have ha : toDouble (13421773 / 134217728 * (13421773 / 134217728)) = 180143990463529 / 18014398509481984 :=
    roundToBits_of (-7) 5764607694832928 (by norm_num [abs_of_pos]) (by norm_num [abs_of_pos])
      (by norm_num) (by norm_num) (by norm_num)
  have hb : toDouble (13421773 / 67108864 * (13421773 / 67108864)) = 180143990463529 / 4503599627370496 :=
    roundToBits_of (-5) 5764607694832928 (by norm_num [abs_of_pos]) (by norm_num [abs_of_pos])
      (by norm_num) (by norm_num) (by norm_num)
  have hc : toDouble (8074035 / 1048576 * (8074035 / 1048576)) = 65190041181225 / 1099511627776 :=
    roundToBits_of 5 8344325271196800 (by norm_num [abs_of_pos]) (by norm_num [abs_of_pos])
      (by norm_num) (by norm_num) (by norm_num)
  rw [ha, hb, hc]
  have hs0 : toDouble (0 + 180143990463529 / 18014398509481984) = 180143990463529 / 18014398509481984 :=
    roundToBits_of (-7) 5764607694832928 (by norm_num [abs_of_pos]) (by norm_num [abs_of_pos])
      (by norm_num) (by norm_num) (by norm_num)
  rw [hs0]
  have hs1 : toDouble (180143990463529 / 18014398509481984 + 180143990463529 / 4503599627370496) = 900719952317645 / 18014398509481984 :=
    roundToBits_of (-5) 7205759618541160 (by norm_num [abs_of_pos]) (by norm_num [abs_of_pos])
      (by norm_num) (by norm_num) (by norm_num)
  rw [hs1]
  have hs2 : toDouble (900719952317645 / 18014398509481984 + 65190041181225 / 1099511627776) = 4175681072912141 / 70368744177664 :=
    roundToBits_of 5 8351362145824282 (by norm_num [abs_of_pos]) (by norm_num [abs_of_pos])
      (by norm_num) (by norm_num) (by norm_num)
  rw [hs2]

/-- The sum of squares after adding 7.7f, 0.2f, 0.1f in this order, in `double`. -/
theorem AddPointD_sumTT_backward :
    (decimalPoints.reverse.foldl
      (fun c lt => c.AddPointD lt.1 lt.2) LayerFitContribution.new).m_sumTT =
      8351362145824281 / 140737488355328 := by
  show toDouble (toDouble (toDouble (0 + toDouble (toFloat (77 / 10) * (toFloat (77 / 10)))) +
      toDouble (toFloat (1 / 5) * (toFloat (1 / 5)))) + toDouble (toFloat (1 / 10) * (toFloat (1 / 10)))) = _
  rw [toFloat_tenth, toFloat_fifth, toFloat_seven_point_seven]
  have ha : toDouble (13421773 / 134217728 * (13421773 / 134217728)) = 180143990463529 / 18014398509481984 :=
    roundToBits_of (-7) 5764607694832928 (by norm_num [abs_of_pos]) (by norm_num [abs_of_pos])
      (by norm_num) (by norm_num) (by norm_num)
  have hb : toDouble (13421773 / 67108864 * (13421773 / 67108864)) = 180143990463529 / 4503599627370496 :=
    roundToBits_of (-5) 5764607694832928 (by norm_num [abs_of_pos]) (by norm_num [abs_of_pos])
      (by norm_num) (by norm_num) (by norm_num)
  have hc : toDouble (8074035 / 1048576 * (8074035 / 1048576)) = 65190041181225 / 1099511627776 :=
    roundToBits_of 5 8344325271196800 (by norm_num [abs_of_pos]) (by norm_num [abs_of_pos])
      (by norm_num) (by norm_num) (by norm_num)
  rw [ha, hb, hc]
  have hs0 : toDouble (0 + 65190041181225 / 1099511627776) = 65190041181225 / 1099511627776 :=
    roundToBits_of 5 8344325271196800 (by norm_num [abs_of_pos]) (by norm_num [abs_of_pos])
      (by norm_num) (by norm_num) (by norm_num)
  rw [hs0]
  have hs1 : toDouble (65190041181225 / 1099511627776 + 180143990463529 / 4503599627370496) = 8349954770898785 / 140737488355328 :=
    roundToBits_of 5 8349954770898785 (by norm_num [abs_of_pos]) (by norm_num [abs_of_pos])
      (by norm_num) (by norm_num) (by norm_num)
  rw [hs1]
  have hs2 : toDouble (8349954770898785 / 140737488355328 + 180143990463529 / 18014398509481984) = 8351362145824281 / 140737488355328 :=
    roundToBits_of 5 8351362145824281 (by norm_num [abs_of_pos]) (by norm_num [abs_of_pos])
      (by norm_num) (by norm_num) (by norm_num)
  rw [hs2]

/-- Every `AddPoint` increases the point count by one. -/
theorem foldl_AddPointD_nPoints (points : List (ℚ × ℚ)) :
    ∀ c : LayerFitContribution ℚ,
      (points.foldl (fun c lt => c.AddPointD lt.1 lt.2) c).m_nPoints =
        c.m_nPoints + points.length := by
  induction points with
  | nil => intro c; rfl
  | cons p t ih =>
    intro c
    rw [List.foldl_cons, ih, List.length_cons]
    simp only [LayerFitContribution.AddPointD]
    omega

end FloatingPoint

section Quantizer

open TwoDSlidingFitResult

variable {K : Type} [LinearOrderedField K] [FloorRing K]

/-- In `float` arithmetic, for the pitch 0.3f, the layer of `GetL(15)` is 14. -/
theorem GetLayerF_GetLF_fifteen :
    GetLayerF (toFloat (3 / 10)) (GetLF (toFloat (3 / 10)) 15) = 14 := by
  rw [toFloat_pitch, GetLF_15]
  exact GetLayerF_GetLF_15

/-- In `float` arithmetic, for the pitch 0.3f, the layer of 13.5 is 45 and `GetL(45)` is
greater than 13.5. -/
theorem GetLF_GetLayerF_edge :
    GetLayerF (toFloat (3 / 10)) (27 / 2) = 45 ∧ 27 / 2 < GetLF (toFloat (3 / 10)) 45 := by
  rw [toFloat_pitch, GetLF_45]
  exact ⟨GetLayerF_edge, by norm_num⟩

/-- Claim C13, amended: in exact arithmetic, for a pitch above zero, `GetLayer(GetL(k)) = k`
for every layer `k`, and for every `L` the coordinate `GetL(GetLayer(L))` is at most `L` and
less than one pitch below it; in the `float` arithmetic of the code neither holds for every
input: for the pitch 0.3f the layer of `GetL(15)` is not 15, and `GetL(GetLayer(13.5))` is not
at most 13.5. -/
theorem C13_layer_quantizer (zPitch : K) (hp : 0 < zPitch) (k : Int) (rL : K) :
    (GetLayer zPitch (GetL zPitch k) = k ∧
        GetL zPitch (GetLayer zPitch rL) ≤ rL ∧
        rL < GetL zPitch (GetLayer zPitch rL) + zPitch) ∧
      GetLayerF (toFloat (3 / 10)) (GetLF (toFloat (3 / 10)) 15) ≠ 15 ∧
      ¬ GetLF (toFloat (3 / 10)) (GetLayerF (toFloat (3 / 10)) (27 / 2)) ≤ 27 / 2 := by
  refine ⟨?_, ?_, ?_⟩
  · unfold GetLayer GetL
    refine ⟨?_, ?_, ?_⟩
    · rw [mul_div_assoc, div_self (ne_of_gt hp), mul_one]
      exact Int.floor_intCast k
    · have h := Int.floor_le (rL / zPitch)
      exact (le_div_iff₀ hp).1 h
    · have h := Int.lt_floor_add_one (rL / zPitch)
      have h2 := (div_lt_iff₀ hp).1 h
      linarith
  · rw [GetLayerF_GetLF_fifteen]
    decide
  · rw [GetLF_GetLayerF_edge.1]
    exact not_le.2 GetLF_GetLayerF_edge.2

/-- Witness of the amended C13 in exact arithmetic, for the pitch 3/10, the layer 15 and the
coordinate 27/2. -/
theorem C13_layer_quantizer_witness :
    GetLayer (3 / 10 : ℚ) (GetL (3 / 10 : ℚ) 15) = 15 ∧
      GetL (3 / 10 : ℚ) (GetLayer (3 / 10 : ℚ) (27 / 2)) ≤ 27 / 2 ∧
      (27 / 2 : ℚ) < GetL (3 / 10 : ℚ) (GetLayer (3 / 10 : ℚ) (27 / 2)) + 3 / 10 :=
  (C13_layer_quantizer (3 / 10) (by norm_num) 15 (27 / 2)).1

/-- Counterexample to C13 as stated, in the `float` arithmetic of the code: for the pitch
0.3f, which is above zero, `GetL(15)` is 4.5 and `GetLayer(4.5)` is 14, not 15; and
`GetLayer(13.5)` is 45 while `GetL(45)` is greater than 13.5. -/
theorem C13_layer_quantizer_counterexample :
    0 < toFloat (3 / 10) ∧
      GetLF (toFloat (3 / 10)) 15 = 9 / 2 ∧
      GetLayerF (toFloat (3 / 10)) (GetLF (toFloat (3 / 10)) 15) = 14 ∧
      GetLayerF (toFloat (3 / 10)) (27 / 2) = 45 ∧
      27 / 2 < GetLF (toFloat (3 / 10)) 45 := by
  refine ⟨?_, ?_, GetLayerF_GetLF_fifteen, GetLF_GetLayerF_edge.1, GetLF_GetLayerF_edge.2⟩
  · rw [toFloat_pitch]
    norm_num
  · rw [toFloat_pitch]
    exact GetLF_15

end Quantizer

/-! ## The coordinate locate -/

namespace TwoDSlidingFitResult

open LayerFitResultMap StatusCode

section FirstScan

variable {K : Type}

theorem firstLayerLoopP_some {m : LayerFitResultMap K} {maxLayer : Int} :
    ∀ (n : Nat) (iLayer : Int) (e : LayerIter K), (maxLayer - iLayer).toNat = n →
      firstLayerLoopP m maxLayer iLayer = some e →
      e ∈ m ∧ iLayer ≤ e.1 ∧ e.1 < maxLayer ∧ ∀ x ∈ m, iLayer ≤ x.1 → e.1 ≤ x.1 := by
  intro n
  induction n with
  | zero =>
    intro iLayer e hn h
    rw [firstLayerLoopP] at h
    have : ¬ iLayer < maxLayer := by omega
    simp [this] at h
  | succ n ih =>
    intro iLayer e hn h
    rw [firstLayerLoopP] at h
    by_cases hc : iLayer < maxLayer
    · simp only [hc, if_true] at h
      cases hf : m.find iLayer with
      | some e2 =>
        rw [hf] at h
        simp only [Option.some.injEq] at h
        subst h
        have h2 := find_some hf
        refine ⟨h2.1, by omega, by omega, ?_⟩
        intro x _ hx
        omega
      | none =>
        rw [hf] at h
        simp only at h
        have h3 := ih (iLayer + 1) e (by omega) h
        refine ⟨h3.1, by omega, h3.2.2.1, ?_⟩
        intro x hx hxi
        have hne := find_none hf x hx
        exact h3.2.2.2 x hx (by omega)
    · simp [hc] at h

theorem firstLayerLoopP_none {m : LayerFitResultMap K} {maxLayer : Int} :
    ∀ (n : Nat) (iLayer : Int), (maxLayer - iLayer).toNat = n →
      firstLayerLoopP m maxLayer iLayer = none →
      ∀ x ∈ m, ¬ (iLayer ≤ x.1 ∧ x.1 < maxLayer) := by
  intro n
  induction n with
  | zero =>
    intro iLayer hn _ x _ hx
    omega
  | succ n ih =>
    intro iLayer hn h
    rw [firstLayerLoopP] at h
    by_cases hc : iLayer < maxLayer
    · simp only [hc, if_true] at h
      cases hf : m.find iLayer with
      | some e2 =>
        rw [hf] at h
        simp at h
      | none =>
        rw [hf] at h
        simp only at h
        intro x hx hxi
        have hne := find_none hf x hx
        exact ih (iLayer + 1) (by omega) h x hx ⟨by omega, hxi.2⟩
    · intro x _ hx
      omega

end FirstScan

section CoordinateLocate

variable {K : Type} [LinearOrderedField K]

theorem isAhead_eq (p : K) (useX : Bool) (v : CartesianVector K) :
    isAhead p useX v = decide (chosenCoordinate useX v > p) := by
  cases useX <;> simp [isAhead, chosenCoordinate]

theorem incrementAt_cases (f : TwoDSlidingFitResult K) (p : K) (useX : Bool) (a : LayerIter K) :
    f.incrementAt p useX a = -1 ∨ f.incrementAt p useX a = 1 := by
  unfold incrementAt
  split <;> simp

/-- The coordinate locate, once `begin()` and `rbegin()` are known. -/
theorem GetSurroundingLayerIteratorsP_eq [FloorRing K] {zPitch : K} {f : TwoDSlidingFitResult K}
    {p : K} {useX : Bool} {b r : LayerIter K} (hb : f.m_layerFitResultMap.begin = some b)
    (hr : f.m_layerFitResultMap.rbegin = some r) :
    f.GetSurroundingLayerIteratorsP zPitch p useX =
      if |chosenCoordinate useX f.m_axisDirection| < epsilon then
        .error STATUS_CODE_INVALID_PARAMETER
      else if GetLayer zPitch (f.firstL p useX) < b.1 ∨ GetLayer zPitch (f.firstL p useX) > r.1
      then .error STATUS_CODE_INVALID_PARAMETER
      else if GetLayer zPitch (f.firstL p useX) = b.1 then .ok ⟨b, b, 1 / 2, 1 / 2⟩
      else if GetLayer zPitch (f.firstL p useX) = r.1 then .ok ⟨r, r, 1 / 2, 1 / 2⟩
      else
        match firstLayerLoopP f.m_layerFitResultMap r.1 (GetLayer zPitch (f.firstL p useX)) with
        | none => .error STATUS_CODE_NOT_FOUND
        | some a =>
          match (f.secondLayerWalk p useX b.1 r.1 a).1 with
          | none => .error STATUS_CODE_NOT_FOUND
          | some c =>
            if |chosenCoordinate useX (f.secondLayerWalk p useX b.1 r.1 a).2 -
                chosenCoordinate useX (f.layerPosition a)| < epsilon then
              .error STATUS_CODE_FAILURE
            else .ok ⟨a, c,
              1 - (p - chosenCoordinate useX (f.layerPosition a)) /
                (chosenCoordinate useX (f.secondLayerWalk p useX b.1 r.1 a).2 -
                  chosenCoordinate useX (f.layerPosition a)),
              (p - chosenCoordinate useX (f.layerPosition a)) /
                (chosenCoordinate useX (f.secondLayerWalk p useX b.1 r.1 a).2 -
                  chosenCoordinate useX (f.layerPosition a))⟩ := by
  unfold GetSurroundingLayerIteratorsP
  rw [hb, hr]
  cases useX
  · simp only [Bool.false_eq_true, false_and, if_false, true_and, chosenCoordinate, firstL,
      secondLayerWalk, incrementAt, walkIncrement, isAhead, layerPosition]
  · simp only [Bool.true_eq_false, false_and, if_false, true_and, chosenCoordinate, firstL,
      secondLayerWalk, incrementAt, walkIncrement, isAhead, layerPosition, if_true]

/-- Once `secondLayerIter` has left `end()`, the second loop does not return it to `end()`. -/
theorem secondLayerLoopP_isSome_of_acc (f : TwoDSlidingFitResult K) (p : K) (useX : Bool)
    (firstIsAhead : Bool) (minLayer maxLayer : Int) (increment : Int)
    (hinc : increment = -1 ∨ increment = 1) :
    ∀ (n : Nat) (iLayer : Int) (acc : Option (LayerIter K)) (pos : CartesianVector K),
      (if increment = -1 then iLayer + 1 - minLayer else maxLayer + 1 - iLayer).toNat = n →
      acc ≠ none →
      (secondLayerLoopP f p useX firstIsAhead minLayer maxLayer increment hinc acc pos iLayer).1 ≠
        none := by
  intro n
  induction n with
  | zero =>
    intro iLayer acc pos hn hacc
    rw [secondLayerLoopP]
    have hout : ¬ (minLayer ≤ iLayer ∧ iLayer ≤ maxLayer) := by
      rcases hinc with h | h <;> simp [h] at hn <;> omega
    rw [if_neg hout]
    exact hacc
  | succ n ih =>
    intro iLayer acc pos hn hacc
    rw [secondLayerLoopP]
    by_cases hin : minLayer ≤ iLayer ∧ iLayer ≤ maxLayer
    · rw [if_pos hin]
      have hn2 : (if increment = -1 then iLayer + increment + 1 - minLayer
          else maxLayer + 1 - (iLayer + increment)).toNat = n := by
        rcases hinc with h | h <;> simp [h] at hn ⊢ <;> omega
      cases hf : f.m_layerFitResultMap.find iLayer with
      | none =>
        simp only
        exact ih _ _ _ hn2 hacc
      | some t =>
        simp only
        split_ifs
        · simp
        · exact ih _ _ _ hn2 (by simp)
    · rw [if_neg hin]
      exact hacc

/-- A property that holds of the entry in `secondLayerIter` (with `secondLayerPosition` its
position) and of every populated layer the second loop can still visit, holds of the entry the
loop ends on, and the position returned is that entry's position. -/
theorem secondLayerLoopP_invariant (f : TwoDSlidingFitResult K) (p : K) (useX : Bool)
    (firstIsAhead : Bool) (minLayer maxLayer : Int) (increment : Int)
    (hinc : increment = -1 ∨ increment = 1) (Q : LayerIter K → Prop) :
    ∀ (n : Nat) (iLayer : Int) (acc : Option (LayerIter K)) (pos : CartesianVector K),
      (if increment = -1 then iLayer + 1 - minLayer else maxLayer + 1 - iLayer).toNat = n →
      (∀ e, acc = some e → Q e ∧ pos = f.layerPosition e) →
      (∀ x ∈ f.m_layerFitResultMap, minLayer ≤ x.1 → x.1 ≤ maxLayer →
        0 ≤ increment * (x.1 - iLayer) → Q x) →
      ∀ c, (secondLayerLoopP f p useX firstIsAhead minLayer maxLayer increment hinc acc pos
          iLayer).1 = some c →
        Q c ∧ (secondLayerLoopP f p useX firstIsAhead minLayer maxLayer increment hinc acc pos
          iLayer).2 = f.layerPosition c := by
  intro n
  induction n with
  | zero =>
    intro iLayer acc pos hn hacc _ c
    rw [secondLayerLoopP]
    have hout : ¬ (minLayer ≤ iLayer ∧ iLayer ≤ maxLayer) := by
      rcases hinc with h | h <;> simp [h] at hn <;> omega
    rw [if_neg hout]
    exact hacc c
  | succ n ih =>
    intro iLayer acc pos hn hacc hQ c
    rw [secondLayerLoopP]
    by_cases hin : minLayer ≤ iLayer ∧ iLayer ≤ maxLayer
    · rw [if_pos hin]
      have hn2 : (if increment = -1 then iLayer + increment + 1 - minLayer
          else maxLayer + 1 - (iLayer + increment)).toNat = n := by
        rcases hinc with h | h <;> simp [h] at hn ⊢ <;> omega
      have hQ2 : ∀ x ∈ f.m_layerFitResultMap, minLayer ≤ x.1 → x.1 ≤ maxLayer →
          0 ≤ increment * (x.1 - (iLayer + increment)) → Q x := by
        intro x hx hlo hhi hdir
        apply hQ x hx hlo hhi
        rcases hinc with h | h <;> simp only [h] at hdir ⊢ <;> omega
      cases hf : f.m_layerFitResultMap.find iLayer with
      | none =>
        simp only
        exact ih _ _ _ hn2 hacc hQ2 c
      | some t =>
        have ht := find_some hf
        have hQt : Q t := by
          apply hQ t ht.1 (by omega) (by omega)
          rw [ht.2, sub_self, mul_zero]
        simp only
        split_ifs
        · intro hc
          simp only [Option.some.injEq] at hc
          subst hc
          exact ⟨hQt, rfl⟩
        · refine ih _ _ _ hn2 ?_ hQ2 c
          intro e he
          simp only [Option.some.injEq] at he
          subst he
          exact ⟨hQt, rfl⟩
    · rw [if_neg hin]
      exact hacc c

/-- The second loop ends on an entry whenever a populated layer lies in its range in the
direction of the walk. -/
theorem secondLayerLoopP_isSome (f : TwoDSlidingFitResult K) (p : K) (useX : Bool)
    (firstIsAhead : Bool) (minLayer maxLayer : Int) (increment : Int)
    (hinc : increment = -1 ∨ increment = 1) (x : LayerIter K)
    (hx : x ∈ f.m_layerFitResultMap) (hxlo : minLayer ≤ x.1) (hxhi : x.1 ≤ maxLayer) :
    ∀ (n : Nat) (iLayer : Int) (acc : Option (LayerIter K)) (pos : CartesianVector K),
      (increment * (x.1 - iLayer)).toNat = n → 0 ≤ increment * (x.1 - iLayer) →
      minLayer ≤ iLayer → iLayer ≤ maxLayer →
      (secondLayerLoopP f p useX firstIsAhead minLayer maxLayer increment hinc acc pos iLayer).1 ≠
        none := by
  intro n
  induction n with
  | zero =>
    intro iLayer acc pos hn hdir hlo hhi
    have hi : x.1 = iLayer := by
      rcases hinc with h | h <;> simp only [h] at hn hdir <;> omega
    rw [secondLayerLoopP, if_pos ⟨hlo, hhi⟩]
    obtain ⟨t, ht⟩ := find_isSome_of_mem hx
    rw [← hi, ht]
    simp only
    split_ifs
    · simp
    · exact secondLayerLoopP_isSome_of_acc f p useX firstIsAhead minLayer maxLayer increment hinc
        _ _ _ _ rfl (by simp)
  | succ n ih =>
    intro iLayer acc pos hn hdir hlo hhi
    rw [secondLayerLoopP, if_pos ⟨hlo, hhi⟩]
    have hstep : (increment * (x.1 - (iLayer + increment))).toNat = n ∧
        0 ≤ increment * (x.1 - (iLayer + increment)) ∧
        minLayer ≤ iLayer + increment ∧ iLayer + increment ≤ maxLayer := by
      rcases hinc with h | h <;> simp only [h] at hn hdir ⊢ <;> omega
    cases hf : f.m_layerFitResultMap.find iLayer with
    | none =>
      simp only
      exact ih _ _ _ hstep.1 hstep.2.1 hstep.2.2.1 hstep.2.2.2
    | some t =>
      simp only
      split_ifs
      · simp
      · exact ih _ _ _ hstep.1 hstep.2.1 hstep.2.2.1 hstep.2.2.2

/-- On an ordered map the second loop ends on the nearest populated layer, in the direction of
the walk, whose position is on the other side of `p`. -/
theorem secondLayerLoopP_crossing (f : TwoDSlidingFitResult K) (p : K) (useX : Bool)
    (firstIsAhead : Bool) (minLayer maxLayer : Int) (increment : Int)
    (hinc : increment = -1 ∨ increment = 1) (hord : Ordered f.m_layerFitResultMap)
    (c : LayerIter K) (hc : c ∈ f.m_layerFitResultMap) (hclo : minLayer ≤ c.1)
    (hchi : c.1 ≤ maxLayer) (hcross : firstIsAhead ≠ isAhead p useX (f.layerPosition c)) :
    ∀ (n : Nat) (iLayer : Int) (acc : Option (LayerIter K)) (pos : CartesianVector K),
      (increment * (c.1 - iLayer)).toNat = n → 0 ≤ increment * (c.1 - iLayer) →
      minLayer ≤ iLayer → iLayer ≤ maxLayer →
      (∀ x ∈ f.m_layerFitResultMap, 0 ≤ increment * (x.1 - iLayer) →
        0 < increment * (c.1 - x.1) → firstIsAhead = isAhead p useX (f.layerPosition x)) →
      secondLayerLoopP f p useX firstIsAhead minLayer maxLayer increment hinc acc pos iLayer =
        (some c, f.layerPosition c) := by
  intro n
  induction n with
  | zero =>
    intro iLayer acc pos hn hdir hlo hhi _
    have hi : c.1 = iLayer := by
      rcases hinc with h | h <;> simp only [h] at hn hdir <;> omega
    rw [secondLayerLoopP, if_pos ⟨hlo, hhi⟩, ← hi, find_of_mem hord hc]
    simp only
    exact if_pos hcross
  | succ n ih =>
    intro iLayer acc pos hn hdir hlo hhi hbefore
    rw [secondLayerLoopP, if_pos ⟨hlo, hhi⟩]
    have hstep : (increment * (c.1 - (iLayer + increment))).toNat = n ∧
        0 ≤ increment * (c.1 - (iLayer + increment)) ∧
        minLayer ≤ iLayer + increment ∧ iLayer + increment ≤ maxLayer ∧
        0 < increment * (c.1 - iLayer) := by
      rcases hinc with h | h <;> simp only [h] at hn hdir ⊢ <;> omega
    have hbefore2 : ∀ x ∈ f.m_layerFitResultMap, 0 ≤ increment * (x.1 - (iLayer + increment)) →
        0 < increment * (c.1 - x.1) → firstIsAhead = isAhead p useX (f.layerPosition x) := by
      intro x hx h1 h2
      apply hbefore x hx _ h2
      rcases hinc with h | h <;> simp only [h] at h1 ⊢ <;> omega
    cases hf : f.m_layerFitResultMap.find iLayer with
    | none =>
      simp only
      exact ih _ _ _ hstep.1 hstep.2.1 hstep.2.2.1 hstep.2.2.2.1 hbefore2
    | some t =>
      have ht := find_some hf
      have hsame : firstIsAhead = isAhead p useX (f.layerPosition t) := by
        apply hbefore t ht.1
        · rw [ht.2, sub_self, mul_zero]
        · rw [ht.2]
          exact hstep.2.2.2.2
      have hsame2 : ¬ firstIsAhead ≠ isAhead p useX (f.GetGlobalPosition t.2.GetL t.2.GetFitT) :=
        not_not.2 hsame
      simp only
      rw [if_neg hsame2]
      exact ih _ _ _ hstep.1 hstep.2.1 hstep.2.2.1 hstep.2.2.2.1 hbefore2

/-- The walk entered from a first iterator strictly inside the span of `begin()` and
`rbegin()` ends on an entry in the direction of the walk, and returns that entry's position. -/
theorem secondLayerWalk_spec {f : TwoDSlidingFitResult K} (p : K) (useX : Bool)
    {b r a : LayerIter K} (hb : f.m_layerFitResultMap.begin = some b)
    (hr : f.m_layerFitResultMap.rbegin = some r) (hlo : b.1 < a.1) (hhi : a.1 < r.1) :
    ∃ c, (f.secondLayerWalk p useX b.1 r.1 a).1 = some c ∧ c ∈ f.m_layerFitResultMap ∧
      0 < f.incrementAt p useX a * (c.1 - a.1) ∧
      (f.secondLayerWalk p useX b.1 r.1 a).2 = f.layerPosition c := by
  have hinc := incrementAt_cases f p useX a
  have hsome : (f.secondLayerWalk p useX b.1 r.1 a).1 ≠ none := by
    unfold secondLayerWalk
    rcases hinc with h | h
    · exact secondLayerLoopP_isSome f p useX _ b.1 r.1 _ _ b (begin_mem hb) (le_refl _)
        (by omega) _ _ _ _ rfl (by simp only [h]; omega) (by simp only [h]; omega)
        (by simp only [h]; omega)
    · exact secondLayerLoopP_isSome f p useX _ b.1 r.1 _ _ r (rbegin_mem hr) (by omega)
        (le_refl _) _ _ _ _ rfl (by simp only [h]; omega) (by simp only [h]; omega)
        (by simp only [h]; omega)
  cases hw : (f.secondLayerWalk p useX b.1 r.1 a).1 with
  | none => exact absurd hw hsome
  | some c =>
    have hinv := secondLayerLoopP_invariant f p useX (isAhead p useX (f.layerPosition a))
      b.1 r.1 (f.incrementAt p useX a) (incrementAt_cases f p useX a)
      (fun x => x ∈ f.m_layerFitResultMap ∧ 0 < f.incrementAt p useX a * (x.1 - a.1))
      _ (a.1 + f.incrementAt p useX a) none ⟨0, 0, 0⟩ rfl
      (by intro e he; cases he)
      (by
        intro x hx _ _ hdir
        refine ⟨hx, ?_⟩
        rcases hinc with h | h <;> simp only [h] at hdir ⊢ <;> omega)
      c hw
    exact ⟨c, rfl, hinv.1.1, hinv.1.2, hinv.2⟩

/-- The coordinate locate at an interior start layer of an ordered map with a valid axis. -/
theorem GetSurroundingLayerIteratorsP_interior [FloorRing K] (zPitch : K)
    (f : TwoDSlidingFitResult K) (p : K) (useX : Bool) (hord : Ordered f.m_layerFitResultMap)
    (haxis : ¬ |chosenCoordinate useX f.m_axisDirection| < epsilon)
    (hint : Interior f.m_layerFitResultMap (GetLayer zPitch (f.firstL p useX))) :
    ∃ b r, f.m_layerFitResultMap.begin = some b ∧ f.m_layerFitResultMap.rbegin = some r ∧
      b.1 < GetLayer zPitch (f.firstL p useX) ∧ GetLayer zPitch (f.firstL p useX) < r.1 ∧
      f.GetSurroundingLayerIteratorsP zPitch p useX =
        match firstLayerLoopP f.m_layerFitResultMap r.1 (GetLayer zPitch (f.firstL p useX)) with
        | none => .error STATUS_CODE_NOT_FOUND
        | some a =>
          match (f.secondLayerWalk p useX b.1 r.1 a).1 with
          | none => .error STATUS_CODE_NOT_FOUND
          | some c =>
            if |chosenCoordinate useX (f.secondLayerWalk p useX b.1 r.1 a).2 -
                chosenCoordinate useX (f.layerPosition a)| < epsilon then
              .error STATUS_CODE_FAILURE
            else .ok ⟨a, c,
              1 - (p - chosenCoordinate useX (f.layerPosition a)) /
                (chosenCoordinate useX (f.secondLayerWalk p useX b.1 r.1 a).2 -
                  chosenCoordinate useX (f.layerPosition a)),
              (p - chosenCoordinate useX (f.layerPosition a)) /
                (chosenCoordinate useX (f.secondLayerWalk p useX b.1 r.1 a).2 -
                  chosenCoordinate useX (f.layerPosition a))⟩ := by
  obtain ⟨⟨x, hx, hxlt⟩, ⟨y, hy, hylt⟩⟩ := hint
  obtain ⟨b, r, hb, hr⟩ := begin_rbegin_of_ne_nil (List.ne_nil_of_mem hx)
  have hbx := begin_le hord hb x hx
  have hyr := le_rbegin hord hr y hy
  refine ⟨b, r, hb, hr, by omega, by omega, ?_⟩
  rw [GetSurroundingLayerIteratorsP_eq hb hr, if_neg haxis]
  have h1 : ¬ (GetLayer zPitch (f.firstL p useX) < b.1 ∨
      GetLayer zPitch (f.firstL p useX) > r.1) := by
    intro h
    rcases h with h | h <;> omega
  have h2 : ¬ GetLayer zPitch (f.firstL p useX) = b.1 := by omega
  have h3 : ¬ GetLayer zPitch (f.firstL p useX) = r.1 := by omega
  simp only [h1, h2, h3, if_false]

/-- The coordinate locate throws `STATUS_CODE_INVALID_PARAMETER` exactly for a chosen axis
component below epsilon or a start layer outside the populated span. -/
theorem GetSurroundingLayerIteratorsP_invalid_iff [FloorRing K] (zPitch : K)
    (f : TwoDSlidingFitResult K) (p : K) (useX : Bool) (hne : f.m_layerFitResultMap ≠ [])
    (hord : Ordered f.m_layerFitResultMap) :
    f.GetSurroundingLayerIteratorsP zPitch p useX = .error STATUS_CODE_INVALID_PARAMETER ↔
      (|chosenCoordinate useX f.m_axisDirection| < epsilon ∨
        (∀ x ∈ f.m_layerFitResultMap, GetLayer zPitch (f.firstL p useX) < x.1) ∨
        (∀ x ∈ f.m_layerFitResultMap, x.1 < GetLayer zPitch (f.firstL p useX))) := by
  obtain ⟨b, r, hb, hr⟩ := begin_rbegin_of_ne_nil hne
  rw [GetSurroundingLayerIteratorsP_eq hb hr]
  by_cases h0 : |chosenCoordinate useX f.m_axisDirection| < epsilon
  · rw [if_pos h0]
    exact ⟨fun _ => Or.inl h0, fun _ => rfl⟩
  rw [if_neg h0]
  by_cases h1 : GetLayer zPitch (f.firstL p useX) < b.1 ∨ GetLayer zPitch (f.firstL p useX) > r.1
  · rw [if_pos h1]
    refine ⟨fun _ => Or.inr ?_, fun _ => rfl⟩
    rcases h1 with h1 | h1
    · exact Or.inl fun x hx => lt_of_lt_of_le h1 (begin_le hord hb x hx)
    · exact Or.inr fun x hx => lt_of_le_of_lt (le_rbegin hord hr x hx) h1
  · rw [if_neg h1]
    constructor
    · intro h
      exfalso
      split_ifs at h
      split at h
      · cases h
      · split at h
        · cases h
        · split_ifs at h
          cases h
    · intro h
      exfalso
      rcases h with h | h | h
      · exact h0 h
      · exact h1 (Or.inl (h b (begin_mem hb)))
      · exact h1 (Or.inr (h r (rbegin_mem hr)))

/-- On a non-empty map every failure of the coordinate locate carries one of three codes. -/
theorem GetSurroundingLayerIteratorsP_error_codes [FloorRing K] (zPitch : K)
    (f : TwoDSlidingFitResult K) (p : K) (useX : Bool) (hne : f.m_layerFitResultMap ≠ [])
    (c : StatusCode) (h : f.GetSurroundingLayerIteratorsP zPitch p useX = .error c) :
    c = STATUS_CODE_INVALID_PARAMETER ∨ c = STATUS_CODE_NOT_FOUND ∨ c = STATUS_CODE_FAILURE := by
  obtain ⟨b, r, hb, hr⟩ := begin_rbegin_of_ne_nil hne
  rw [GetSurroundingLayerIteratorsP_eq hb hr] at h
  split_ifs at h
  · cases h
    exact Or.inl rfl
  · cases h
    exact Or.inl rfl
  · split at h
    · cases h
      exact Or.inr (Or.inl rfl)
    · split at h
      · cases h
        exact Or.inr (Or.inl rfl)
      · split_ifs at h
        cases h
        exact Or.inr (Or.inr rfl)

end CoordinateLocate

/-! ## Evaluation of the coordinate locate on the example map -/

theorem exampleMap_find_zero : exampleMap.find 0 = some (0, ⟨0, 1, 0, 1⟩) := by
  simp [exampleMap, LayerFitResultMap.find]

theorem exampleMap_find_one : exampleMap.find 1 = none := by
  simp [exampleMap, LayerFitResultMap.find]

theorem exampleFit_axis_z :
    ¬ |chosenCoordinate false exampleFit.m_axisDirection| < epsilon := by
  norm_num [chosenCoordinate, exampleFit, epsilon]

theorem exampleFit_start_three : GetLayer (1 : ℚ) (exampleFit.firstL (7 / 2) false) = 3 := by
  simp only [firstL, chosenCoordinate, exampleFit, GetLayer, Int.floor_eq_iff]
  norm_num

theorem exampleFit_start_one : GetLayer (1 : ℚ) (exampleFit.firstL (3 / 2) false) = 1 := by
  simp only [firstL, chosenCoordinate, exampleFit, GetLayer, Int.floor_eq_iff]
  norm_num

theorem exampleFit_start_ten : GetLayer (1 : ℚ) (exampleFit.firstL 10 false) = 10 := by
  simp only [firstL, chosenCoordinate, exampleFit, GetLayer, Int.floor_eq_iff]
  norm_num

theorem exampleFit_first_from_one :
    firstLayerLoopP exampleFit.m_layerFitResultMap 5 1 = some (2, ⟨2, 3, 1, 2⟩) := by
  simp [firstLayerLoopP, exampleFit, exampleMap, LayerFitResultMap.find]

theorem exampleFit_first_from_three :
    firstLayerLoopP exampleFit.m_layerFitResultMap 5 3 = none := by
  simp [firstLayerLoopP, exampleFit, exampleMap, LayerFitResultMap.find]

theorem exampleFit_increment :
    exampleFit.incrementAt (3 / 2) false (2, ⟨2, 3, 1, 2⟩) = -1 := by
  norm_num [incrementAt, chosenCoordinate, layerPosition, GetGlobalPosition, exampleFit,
    CartesianVector.add, CartesianVector.smul, CartesianVector.GetCrossProduct,
    LayerFitResult.GetL, LayerFitResult.GetFitT]

theorem exampleFit_walk :
    exampleFit.secondLayerWalk (3 / 2) false 0 5 (2, ⟨2, 3, 1, 2⟩) =
      (some (0, ⟨0, 1, 0, 1⟩), ⟨-1, 0, 0⟩) := by
  unfold secondLayerWalk
  simp only [exampleFit_increment]
  rw [secondLayerLoopP]
  norm_num [exampleMap_find_one, exampleFit]
  rw [secondLayerLoopP]
  norm_num [exampleMap_find_zero, isAhead, layerPosition, GetGlobalPosition,
    CartesianVector.add, CartesianVector.smul, CartesianVector.GetCrossProduct,
    LayerFitResult.GetL, LayerFitResult.GetFitT]

theorem exampleFit_locateP_not_found :
    exampleFit.GetSurroundingLayerIteratorsP 1 (7 / 2) false = .error STATUS_CODE_NOT_FOUND := by
  rw [GetSurroundingLayerIteratorsP_eq exampleFit_begin exampleFit_rbegin, exampleFit_start_three]
  simp only [exampleFit_first_from_three]
  norm_num [chosenCoordinate, exampleFit, epsilon]

theorem exampleFit_locateP :
    exampleFit.GetSurroundingLayerIteratorsP 1 (3 / 2) false =
      .ok ⟨(2, ⟨2, 3, 1, 2⟩), (0, ⟨0, 1, 0, 1⟩), 3 / 4, 1 / 4⟩ := by
  rw [GetSurroundingLayerIteratorsP_eq exampleFit_begin exampleFit_rbegin, exampleFit_start_one]
  simp only [exampleFit_first_from_one, exampleFit_walk]
  norm_num [chosenCoordinate, exampleFit, epsilon, layerPosition, GetGlobalPosition,
    CartesianVector.add, CartesianVector.smul, CartesianVector.GetCrossProduct,
    LayerFitResult.GetL, LayerFitResult.GetFitT, abs_lt]

theorem exampleFit_interior_one :
    Interior exampleFit.m_layerFitResultMap (GetLayer (1 : ℚ) (exampleFit.firstL (3 / 2) false)) := by
  rw [exampleFit_start_one]
  simp [Interior, exampleFit, exampleMap]

theorem exampleFit_interior_three :
    Interior exampleFit.m_layerFitResultMap (GetLayer (1 : ℚ) (exampleFit.firstL (7 / 2) false)) := by
  rw [exampleFit_start_three]
  simp [Interior, exampleFit, exampleMap]

theorem sidewaysFit_ordered : Ordered sidewaysFit.m_layerFitResultMap := by
  simp [Ordered, sidewaysFit, exampleMap]

theorem sidewaysFit_ne_nil : sidewaysFit.m_layerFitResultMap ≠ [] := by
  simp [sidewaysFit, exampleMap]

theorem sidewaysFit_axis_z : |sidewaysFit.m_axisDirection.z| < (epsilon : ℚ) := by
  norm_num [sidewaysFit, epsilon]


end TwoDSlidingFitResult

/-! ## Claims on the coordinate locate -/

section CoordinateLocateClaims

open TwoDSlidingFitResult LayerFitResultMap StatusCode

variable {K : Type} [LinearOrderedField K] [FloorRing K]

/-- Claim C14: on a non-empty ordered map, an X-mode coordinate locate throws
`STATUS_CODE_INVALID_PARAMETER` whenever the X component of the axis direction is below
epsilon in magnitude, and a Z-mode locate whenever the Z component is, whatever `p`; and an
X-mode locate is refused with that code only for the X component or for a start layer
(computed from the X components alone) outside the populated span, likewise in Z mode. -/
theorem C14_invalid_axis (zPitch : K) (f : TwoDSlidingFitResult K)
    (hne : f.m_layerFitResultMap ≠ []) (hord : Ordered f.m_layerFitResultMap) :
    (∀ p, |f.m_axisDirection.x| < epsilon →
        f.GetSurroundingLayerIteratorsP zPitch p true = .error STATUS_CODE_INVALID_PARAMETER) ∧
      (∀ p, |f.m_axisDirection.z| < epsilon →
        f.GetSurroundingLayerIteratorsP zPitch p false = .error STATUS_CODE_INVALID_PARAMETER) ∧
      (∀ p, f.GetSurroundingLayerIteratorsP zPitch p true = .error STATUS_CODE_INVALID_PARAMETER ↔
        (|f.m_axisDirection.x| < epsilon ∨
          (∀ x ∈ f.m_layerFitResultMap,
            GetLayer zPitch ((p - f.m_axisIntercept.x) / f.m_axisDirection.x) < x.1) ∨
          (∀ x ∈ f.m_layerFitResultMap,
            x.1 < GetLayer zPitch ((p - f.m_axisIntercept.x) / f.m_axisDirection.x)))) ∧
      (∀ p, f.GetSurroundingLayerIteratorsP zPitch p false = .error STATUS_CODE_INVALID_PARAMETER ↔
        (|f.m_axisDirection.z| < epsilon ∨
          (∀ x ∈ f.m_layerFitResultMap,
            GetLayer zPitch ((p - f.m_axisIntercept.z) / f.m_axisDirection.z) < x.1) ∨
          (∀ x ∈ f.m_layerFitResultMap,
            x.1 < GetLayer zPitch ((p - f.m_axisIntercept.z) / f.m_axisDirection.z)))) := by
  have hx := fun p => GetSurroundingLayerIteratorsP_invalid_iff zPitch f p true hne hord
  have hz := fun p => GetSurroundingLayerIteratorsP_invalid_iff zPitch f p false hne hord
  simp only [chosenCoordinate, firstL, if_true, Bool.false_eq_true, if_false] at hx hz
  exact ⟨fun p h => (hx p).2 (Or.inl h), fun p h => (hz p).2 (Or.inl h), hx, hz⟩

/-- Witness of C14 on a fit along the x axis: a Z-mode query is refused, an X-mode query for a
coordinate in layer 0 is not. -/
theorem C14_invalid_axis_witness :
    sidewaysFit.GetSurroundingLayerIteratorsP 1 (1 / 2) false =
        .error STATUS_CODE_INVALID_PARAMETER ∧
      sidewaysFit.GetSurroundingLayerIteratorsP 1 (1 / 2) true ≠
        .error STATUS_CODE_INVALID_PARAMETER := by
  have h := C14_invalid_axis (1 : ℚ) sidewaysFit sidewaysFit_ne_nil sidewaysFit_ordered
  refine ⟨h.2.1 (1 / 2) sidewaysFit_axis_z, ?_⟩
  intro hbad
  have h2 := (h.2.2.1 (1 / 2)).1 hbad
  have hl : GetLayer (1 : ℚ) ((1 / 2 - sidewaysFit.m_axisIntercept.x) /
      sidewaysFit.m_axisDirection.x) = 0 := by
    simp only [sidewaysFit, GetLayer, Int.floor_eq_iff]
    norm_num
  rw [hl] at h2
  norm_num [sidewaysFit, exampleMap, epsilon] at h2

/-- Claim C15, a defect of the first scan: on an ordered map, for a valid axis and an interior
start layer, the coordinate locate throws `STATUS_CODE_NOT_FOUND` exactly when every populated
key at or above the start layer is the greatest key, since its first scan
`for (iLayer = startLayer; iLayer < maxLayer; ++iLayer)` never looks up the greatest key; and
when it succeeds its first iterator is on the least populated key at or above the start layer,
where the longitudinal locate takes the greatest populated key at or below it. -/
theorem C15_not_found_iff (zPitch : K) (f : TwoDSlidingFitResult K) (p : K) (useX : Bool)
    (hord : Ordered f.m_layerFitResultMap)
    (haxis : ¬ |chosenCoordinate useX f.m_axisDirection| < epsilon)
    (hint : Interior f.m_layerFitResultMap (GetLayer zPitch (f.firstL p useX))) :
    (f.GetSurroundingLayerIteratorsP zPitch p useX = .error STATUS_CODE_NOT_FOUND ↔
        ∀ x ∈ f.m_layerFitResultMap, GetLayer zPitch (f.firstL p useX) ≤ x.1 →
          ∀ y ∈ f.m_layerFitResultMap, y.1 ≤ x.1) ∧
      (∀ s, f.GetSurroundingLayerIteratorsP zPitch p useX = .ok s →
        s.firstLayerIter ∈ f.m_layerFitResultMap ∧
          GetLayer zPitch (f.firstL p useX) ≤ s.firstLayerIter.1 ∧
          ∀ x ∈ f.m_layerFitResultMap, GetLayer zPitch (f.firstL p useX) ≤ x.1 →
            s.firstLayerIter.1 ≤ x.1) := by
  obtain ⟨b, r, hb, hr, hlo, hhi, heq⟩ :=
    GetSurroundingLayerIteratorsP_interior zPitch f p useX hord haxis hint
  rw [heq]
  cases ha : firstLayerLoopP f.m_layerFitResultMap r.1
      (GetLayer zPitch (f.firstL p useX)) with
  | none =>
    refine ⟨⟨fun _ x hx hxs y hy => ?_, fun _ => rfl⟩, fun s hs => by cases hs⟩
    have hnot := firstLayerLoopP_none _ _ rfl ha x hx
    have hyr := le_rbegin hord hr y hy
    have : ¬ x.1 < r.1 := fun h => hnot ⟨hxs, h⟩
    omega
  | some a =>
    have ha2 := firstLayerLoopP_some _ _ _ rfl ha
    obtain ⟨c, hc, _, _, _⟩ := secondLayerWalk_spec p useX hb hr
      (lt_of_lt_of_le hlo ha2.2.1) ha2.2.2.1
    simp only [hc]
    refine ⟨⟨fun h => ?_, fun h => ?_⟩, fun s hs => ?_⟩
    · split_ifs at h
      cases h
    · have := h a ha2.1 ha2.2.1 r (rbegin_mem hr)
      have := ha2.2.2.1
      omega
    · split_ifs at hs
      simp only [Except.ok.injEq] at hs
      subst hs
      exact ⟨ha2.1, ha2.2.1, ha2.2.2.2⟩

/-- Witness of C15, the failing input: on the ordered example map (keys 0, 2, 5) with the
valid axis (0, 0, 1), the Z-mode locate at 7/2 has the interior start layer 3, the only
populated key at or above it is the greatest key 5, and the locate throws
`STATUS_CODE_NOT_FOUND`; the longitudinal locate at the same coordinate returns the layers 2
and 5 with the weights 1/2 and 1/2. -/
theorem C15_not_found_iff_witness :
    exampleFit.GetSurroundingLayerIteratorsP 1 (7 / 2) false = .error STATUS_CODE_NOT_FOUND ∧
      exampleFit.GetSurroundingLayerIterators 1 (7 / 2) =
        .ok ⟨(2, ⟨2, 3, 1, 2⟩), (5, ⟨5, 0, -1, 3⟩), 1 / 2, 1 / 2⟩ :=
  ⟨(C15_not_found_iff 1 exampleFit (7 / 2) false exampleFit_ordered exampleFit_axis_z
      exampleFit_interior_three).1.2
      (by
        rw [exampleFit_start_three]
        simp [exampleFit, exampleMap]),
    exampleFit_locate⟩

/-- Claim C16: for a successful coordinate locate at an interior start layer of an ordered map,
with `first` the first iterator returned: the walk increment is -1 exactly when
`(coordinate of first > p)` is equivalent to `(axis component > 0)` and +1 exactly when it is
not; the second iterator lies in the direction of the walk; and whenever a populated layer `c`
in that direction has its coordinate on the other side of `p` from the coordinate of `first`,
with no nearer populated layer in that direction doing so, the second iterator is `c`. -/
theorem C16_walk_direction_and_crossing (zPitch : K) (f : TwoDSlidingFitResult K) (p : K)
    (useX : Bool) (s : SurroundingLayers K) (hord : Ordered f.m_layerFitResultMap)
    (hint : Interior f.m_layerFitResultMap (GetLayer zPitch (f.firstL p useX)))
    (hok : f.GetSurroundingLayerIteratorsP zPitch p useX = .ok s) :
    (f.incrementAt p useX s.firstLayerIter = -1 ↔
        (chosenCoordinate useX (f.layerPosition s.firstLayerIter) > p ↔
          chosenCoordinate useX f.m_axisDirection > 0)) ∧
      (f.incrementAt p useX s.firstLayerIter = 1 ↔
        ¬ (chosenCoordinate useX (f.layerPosition s.firstLayerIter) > p ↔
          chosenCoordinate useX f.m_axisDirection > 0)) ∧
      0 < f.incrementAt p useX s.firstLayerIter * (s.secondLayerIter.1 - s.firstLayerIter.1) ∧
      ∀ c ∈ f.m_layerFitResultMap,
        0 < f.incrementAt p useX s.firstLayerIter * (c.1 - s.firstLayerIter.1) →
        ¬ (chosenCoordinate useX (f.layerPosition c) > p ↔
          chosenCoordinate useX (f.layerPosition s.firstLayerIter) > p) →
        (∀ x ∈ f.m_layerFitResultMap,
          0 < f.incrementAt p useX s.firstLayerIter * (x.1 - s.firstLayerIter.1) →
          0 < f.incrementAt p useX s.firstLayerIter * (c.1 - x.1) →
          (chosenCoordinate useX (f.layerPosition x) > p ↔
            chosenCoordinate useX (f.layerPosition s.firstLayerIter) > p)) →
        s.secondLayerIter = c := by
  have hrule : ∀ a : LayerIter K,
      (f.incrementAt p useX a = -1 ↔
        (chosenCoordinate useX (f.layerPosition a) > p ↔
          chosenCoordinate useX f.m_axisDirection > 0)) ∧
      (f.incrementAt p useX a = 1 ↔
        ¬ (chosenCoordinate useX (f.layerPosition a) > p ↔
          chosenCoordinate useX f.m_axisDirection > 0)) := by
    intro a
    unfold incrementAt
    by_cases h : (chosenCoordinate useX (f.layerPosition a) > p ↔
        chosenCoordinate useX f.m_axisDirection > 0)
    · rw [if_pos (decide_eq_decide.2 h)]
      simp [h]
    · rw [if_neg (fun hd => h (decide_eq_decide.1 hd))]
      simp [h]
  have haxis : ¬ |chosenCoordinate useX f.m_axisDirection| < epsilon := by
    intro h
    have hne : f.m_layerFitResultMap ≠ [] := by
      obtain ⟨⟨x, hx, _⟩, _⟩ := hint
      exact List.ne_nil_of_mem hx
    rw [(GetSurroundingLayerIteratorsP_invalid_iff zPitch f p useX hne hord).2 (Or.inl h)] at hok
    cases hok
  obtain ⟨b, r, hb, hr, hlo, hhi, heq⟩ :=
    GetSurroundingLayerIteratorsP_interior zPitch f p useX hord haxis hint
  rw [heq] at hok
  cases ha : firstLayerLoopP f.m_layerFitResultMap r.1 (GetLayer zPitch (f.firstL p useX)) with
  | none =>
    rw [ha] at hok
    cases hok
  | some a =>
    have ha2 := firstLayerLoopP_some _ _ _ rfl ha
    have hba : b.1 < a.1 := lt_of_lt_of_le hlo ha2.2.1
    obtain ⟨c2, hc2, hc2m, hc2dir, _⟩ := secondLayerWalk_spec p useX hb hr hba ha2.2.2.1
    rw [ha] at hok
    simp only [hc2] at hok
    split_ifs at hok
    simp only [Except.ok.injEq] at hok
    subst hok
    refine ⟨(hrule a).1, (hrule a).2, hc2dir, ?_⟩
    intro c hc hcdir hcross hnear
    have hinc := incrementAt_cases f p useX a
    have hwalk : f.secondLayerWalk p useX b.1 r.1 a = (some c, f.layerPosition c) := by
      unfold secondLayerWalk
      refine secondLayerLoopP_crossing f p useX _ b.1 r.1 _ _ hord c hc (begin_le hord hb c hc)
        (le_rbegin hord hr c hc) ?_ _ _ _ _ rfl ?_ ?_ ?_ ?_
      · rw [isAhead_eq, isAhead_eq]
        intro h
        rw [decide_eq_decide] at h
        exact hcross h.symm
      · rcases hinc with h | h <;> simp only [h] at hcdir ⊢ <;> omega
      · rcases hinc with h | h <;> simp only [h] <;> omega
      · rcases hinc with h | h <;> simp only [h] <;> omega
      · intro x hx h1 h2
        rw [isAhead_eq, isAhead_eq, decide_eq_decide]
        refine (hnear x hx ?_ h2).symm
        rcases hinc with h | h <;> simp only [h] at h1 ⊢ <;> omega
    rw [hwalk] at hc2
    simp only [Option.some.injEq] at hc2
    exact hc2.symm

/-- Witness of C16 on the example map: from the first iterator on the key 2, whose coordinate
2 is above p = 3/2, the walk goes down and stops on the key 0, whose coordinate is below. -/
theorem C16_walk_direction_and_crossing_witness :
    (⟨(2, ⟨2, 3, 1, 2⟩), (0, ⟨0, 1, 0, 1⟩), 3 / 4, 1 / 4⟩ :
      SurroundingLayers ℚ).secondLayerIter = (0, ⟨0, 1, 0, 1⟩) :=
  (C16_walk_direction_and_crossing 1 exampleFit (3 / 2) false
    ⟨(2, ⟨2, 3, 1, 2⟩), (0, ⟨0, 1, 0, 1⟩), 3 / 4, 1 / 4⟩ exampleFit_ordered
    exampleFit_interior_one exampleFit_locateP).2.2.2 (0, ⟨0, 1, 0, 1⟩)
    (by simp [exampleFit, exampleMap])
    (by simp only [exampleFit_increment]; decide)
    (by
      norm_num [chosenCoordinate, layerPosition, GetGlobalPosition, exampleFit,
        CartesianVector.add, CartesianVector.smul, CartesianVector.GetCrossProduct,
        LayerFitResult.GetL, LayerFitResult.GetFitT])
    (by
      intro x hx h1 h2
      simp only [exampleFit_increment] at h1 h2
      simp only [exampleFit, exampleMap, List.mem_cons, List.mem_singleton, List.not_mem_nil,
        or_false] at hx
      rcases hx with rfl | rfl | rfl <;> simp at h1 h2)

/-- Claim C17: on an ordered map with a valid axis and an interior start layer, let `a` be the
entry the first scan stops on and `c` the entry the walk stops on, with `c_a` and `c_c` the
chosen coordinates (X when `useX`, Z otherwise) of their fitted points. The coordinate locate
throws `STATUS_CODE_FAILURE` exactly when `|c_c - c_a|` is below epsilon; and when it succeeds
it returns `a` and `c` with `w2 = (p - c_a) / (c_c - c_a)` and `w1 = 1 - w2`. -/
theorem C17_coordinate_weights (zPitch : K) (f : TwoDSlidingFitResult K) (p : K) (useX : Bool)
    (b r a c : LayerIter K) (hord : Ordered f.m_layerFitResultMap)
    (haxis : ¬ |chosenCoordinate useX f.m_axisDirection| < epsilon)
    (hint : Interior f.m_layerFitResultMap (GetLayer zPitch (f.firstL p useX)))
    (hb : f.m_layerFitResultMap.begin = some b) (hr : f.m_layerFitResultMap.rbegin = some r)
    (ha : firstLayerLoopP f.m_layerFitResultMap r.1 (GetLayer zPitch (f.firstL p useX)) = some a)
    (hc : (f.secondLayerWalk p useX b.1 r.1 a).1 = some c) :
    (f.GetSurroundingLayerIteratorsP zPitch p useX = .error STATUS_CODE_FAILURE ↔
        |chosenCoordinate useX (f.layerPosition c) - chosenCoordinate useX (f.layerPosition a)| <
          epsilon) ∧
      ∀ s, f.GetSurroundingLayerIteratorsP zPitch p useX = .ok s →
        s.firstLayerIter = a ∧ s.secondLayerIter = c ∧
          s.secondWeight = (p - chosenCoordinate useX (f.layerPosition a)) /
            (chosenCoordinate useX (f.layerPosition c) -
              chosenCoordinate useX (f.layerPosition a)) ∧
          s.firstWeight = 1 - s.secondWeight := by
  obtain ⟨b2, r2, hb2, hr2, hlo, hhi, heq⟩ :=
    GetSurroundingLayerIteratorsP_interior zPitch f p useX hord haxis hint
  rw [hb] at hb2
  rw [hr] at hr2
  simp only [Option.some.injEq] at hb2 hr2
  subst hb2
  subst hr2
  have ha2 := firstLayerLoopP_some _ _ _ rfl ha
  obtain ⟨c2, hc2, _, _, hpos⟩ := secondLayerWalk_spec p useX hb hr
    (lt_of_lt_of_le hlo ha2.2.1) ha2.2.2.1
  rw [hc] at hc2
  simp only [Option.some.injEq] at hc2
  subst hc2
  rw [heq, ha]
  simp only [hc, hpos]
  by_cases hd : |chosenCoordinate useX (f.layerPosition c) -
      chosenCoordinate useX (f.layerPosition a)| < epsilon
  · rw [if_pos hd]
    refine ⟨⟨fun _ => hd, fun _ => rfl⟩, ?_⟩
    intro s hs
    cases hs
  · rw [if_neg hd]
    refine ⟨⟨fun hf => (by cases hf), fun hf => absurd hf hd⟩, ?_⟩
    intro s hs
    simp only [Except.ok.injEq] at hs
    subst hs
    exact ⟨rfl, rfl, rfl, rfl⟩

/-- Witness of C17 on the example map: between the keys 2 and 0, whose Z coordinates are 2 and
0, the query at p = 3/2 returns the weights (3/4, 1/4). -/
theorem C17_coordinate_weights_witness :
    (1 / 4 : ℚ) = (3 / 2 - chosenCoordinate false (exampleFit.layerPosition (2, ⟨2, 3, 1, 2⟩))) /
        (chosenCoordinate false (exampleFit.layerPosition (0, ⟨0, 1, 0, 1⟩)) -
          chosenCoordinate false (exampleFit.layerPosition (2, ⟨2, 3, 1, 2⟩))) ∧
      (3 / 4 : ℚ) = 1 - 1 / 4 :=
  ((C17_coordinate_weights 1 exampleFit (3 / 2) false (0, ⟨0, 1, 0, 1⟩) (5, ⟨5, 0, -1, 3⟩)
    (2, ⟨2, 3, 1, 2⟩) (0, ⟨0, 1, 0, 1⟩) exampleFit_ordered exampleFit_axis_z
    exampleFit_interior_one exampleFit_begin exampleFit_rbegin
    (by rw [exampleFit_start_one]; exact exampleFit_first_from_one)
    (by rw [exampleFit_walk])).2
    ⟨(2, ⟨2, 3, 1, 2⟩), (0, ⟨0, 1, 0, 1⟩), 3 / 4, 1 / 4⟩ exampleFit_locateP).2.2

/-- Claim C18, amended: on a non-empty ordered map every failure of the coordinate locate
carries a status code, one of `STATUS_CODE_INVALID_PARAMETER`, `STATUS_CODE_NOT_FOUND` and
`STATUS_CODE_FAILURE`, which are pairwise different; a chosen axis component below epsilon
and a start layer outside the populated span are both reported with
`STATUS_CODE_INVALID_PARAMETER`. -/
theorem C18_error_codes (zPitch : K) (f : TwoDSlidingFitResult K) (p : K) (useX : Bool)
    (hne : f.m_layerFitResultMap ≠ []) (hord : Ordered f.m_layerFitResultMap) :
    (|chosenCoordinate useX f.m_axisDirection| < epsilon →
        f.GetSurroundingLayerIteratorsP zPitch p useX = .error STATUS_CODE_INVALID_PARAMETER) ∧
      (((∀ x ∈ f.m_layerFitResultMap, GetLayer zPitch (f.firstL p useX) < x.1) ∨
          (∀ x ∈ f.m_layerFitResultMap, x.1 < GetLayer zPitch (f.firstL p useX))) →
        f.GetSurroundingLayerIteratorsP zPitch p useX = .error STATUS_CODE_INVALID_PARAMETER) ∧
      (∀ code, f.GetSurroundingLayerIteratorsP zPitch p useX = .error code →
        code = STATUS_CODE_INVALID_PARAMETER ∨ code = STATUS_CODE_NOT_FOUND ∨
          code = STATUS_CODE_FAILURE) ∧
      STATUS_CODE_INVALID_PARAMETER ≠ STATUS_CODE_NOT_FOUND ∧
      STATUS_CODE_INVALID_PARAMETER ≠ STATUS_CODE_FAILURE ∧
      STATUS_CODE_NOT_FOUND ≠ STATUS_CODE_FAILURE := by
  have h := GetSurroundingLayerIteratorsP_invalid_iff zPitch f p useX hne hord
  refine ⟨fun h1 => h.2 (Or.inl h1), fun h2 => h.2 (Or.inr h2),
    GetSurroundingLayerIteratorsP_error_codes zPitch f p useX hne, ?_, ?_, ?_⟩ <;> decide

/-- Witness of the amended C18 on the example map: the Z-mode query at 10, whose start layer
is above every key, is reported with `STATUS_CODE_INVALID_PARAMETER`. -/
theorem C18_error_codes_witness :
    exampleFit.GetSurroundingLayerIteratorsP 1 10 false = .error STATUS_CODE_INVALID_PARAMETER :=
  (C18_error_codes 1 exampleFit 10 false (by simp [exampleFit, exampleMap])
    exampleFit_ordered).2.1
    (Or.inr (by rw [exampleFit_start_ten]; simp [exampleFit, exampleMap]))

/-- Counterexample to C18 as stated: the Z-mode query on a fit whose axis has no Z component
(invalid axis) and the Z-mode query at 10 on the example fit with the valid axis (0, 0, 1),
whose start layer 10 is above every key (out of range), fail with the same error value. -/
theorem C18_error_codes_counterexample :
    |sidewaysFit.m_axisDirection.z| < (epsilon : ℚ) ∧
      ¬ |exampleFit.m_axisDirection.z| < (epsilon : ℚ) ∧
      (∀ x ∈ exampleFit.m_layerFitResultMap,
        x.1 < GetLayer (1 : ℚ) (exampleFit.firstL 10 false)) ∧
      sidewaysFit.GetSurroundingLayerIteratorsP 1 (3 / 2) false =
        exampleFit.GetSurroundingLayerIteratorsP 1 10 false := by
  have h1 := (GetSurroundingLayerIteratorsP_invalid_iff (1 : ℚ) sidewaysFit (3 / 2) false
    sidewaysFit_ne_nil sidewaysFit_ordered).2 (Or.inl sidewaysFit_axis_z)
  have hout : ∀ x ∈ exampleFit.m_layerFitResultMap,
      x.1 < GetLayer (1 : ℚ) (exampleFit.firstL 10 false) := by
    rw [exampleFit_start_ten]
    simp [exampleFit, exampleMap]
  have h2 := (GetSurroundingLayerIteratorsP_invalid_iff (1 : ℚ) exampleFit 10 false
    (by simp [exampleFit, exampleMap]) exampleFit_ordered).2 (Or.inr (Or.inr hout))
  refine ⟨sidewaysFit_axis_z, ?_, hout, ?_⟩
  · norm_num [exampleFit, epsilon]
  · rw [h1, h2]

end CoordinateLocateClaims

/-! ## The construction of the layer map -/

namespace LArClusterHelper

open TwoDSlidingFitResult LayerFitResultMap StatusCode

section ConstructionLemmas

variable {K : Type} [LinearOrderedField K]

/-- Adding the points of a list to an accumulator adds the plain sums over the list to its
members and the length of the list to its point count. -/
theorem foldl_AddPoint (points : List (K × K)) :
    ∀ c : LayerFitContribution K,
      points.foldl (fun c lt => c.AddPoint lt.1 lt.2) c =
        ⟨c.m_sumT + (points.map (fun lt => lt.2)).sum,
          c.m_sumL + (points.map (fun lt => lt.1)).sum,
          c.m_sumTT + (points.map (fun lt => lt.2 * lt.2)).sum,
          c.m_sumLT + (points.map (fun lt => lt.1 * lt.2)).sum,
          c.m_sumLL + (points.map (fun lt => lt.1 * lt.1)).sum,
          c.m_nPoints + points.length⟩ := by
  induction points with
  | nil =>
    intro c
    simp
  | cons a t ih =>
    intro c
    rw [List.foldl_cons, ih]
    simp only [LayerFitContribution.AddPoint, List.map_cons, List.sum_cons, List.length_cons,
      LayerFitContribution.mk.injEq]
    refine ⟨by ring, by ring, by ring, by ring, by ring, by omega⟩

theorem accumulate_eq (points : List (K × K)) :
    accumulate points =
      ⟨(points.map (fun lt => lt.2)).sum, (points.map (fun lt => lt.1)).sum,
        (points.map (fun lt => lt.2 * lt.2)).sum, (points.map (fun lt => lt.1 * lt.2)).sum,
        (points.map (fun lt => lt.1 * lt.1)).sum, points.length⟩ := by
  unfold accumulate
  rw [foldl_AddPoint]
  simp [LayerFitContribution.new]

/-- A record returned by `fitWindow` comes from a non-degenerate denominator and carries the
least-squares slope of the window. -/
theorem fitWindow_gradient {sqrt : K → K} {points : List (K × K)} {record : LayerFitResult K}
    (h : fitWindow sqrt points = some record) :
    ((accumulate points).m_nPoints : K) * (accumulate points).m_sumLL -
        (accumulate points).m_sumL * (accumulate points).m_sumL ≠ 0 ∧
      record.m_gradient =
        (((accumulate points).m_nPoints : K) * (accumulate points).m_sumLT -
            (accumulate points).m_sumL * (accumulate points).m_sumT) /
          (((accumulate points).m_nPoints : K) * (accumulate points).m_sumLL -
            (accumulate points).m_sumL * (accumulate points).m_sumL) := by
  unfold fitWindow at h
  simp only at h
  split_ifs at h with hd
  simp only [Option.some.injEq] at h
  subst h
  exact ⟨hd, rfl⟩

variable [FloorRing K]

theorem mem_windowPoints {zPitch : K} {points : List (K × K)} {layer : Int} {halfWindow : Nat}
    {lt : K × K} :
    lt ∈ windowPoints zPitch points layer halfWindow ↔
      lt ∈ points ∧ layer - (halfWindow : Int) ≤ GetLayer zPitch lt.1 ∧
        GetLayer zPitch lt.1 ≤ layer + (halfWindow : Int) := by
  unfold windowPoints
  simp

theorem mem_StoreSlidingFitResults {sqrt : K → K} {zPitch : K} {points : List (K × K)}
    {halfWindow : Nat} {minLayer maxLayer : Int} {e : LayerIter K}
    (he : e ∈ StoreSlidingFitResults sqrt zPitch points halfWindow minLayer maxLayer) :
    (∃ lt ∈ points, GetLayer zPitch lt.1 = e.1) ∧
      fitWindow sqrt (windowPoints zPitch points e.1 halfWindow) = some e.2 := by
  unfold StoreSlidingFitResults at he
  rw [List.mem_filterMap] at he
  obtain ⟨layer, _, hf⟩ := he
  split_ifs at hf with hpop
  rw [Option.map_eq_some'] at hf
  obtain ⟨record, hrec, hpair⟩ := hf
  subst hpair
  refine ⟨?_, hrec⟩
  simpa using hpop

theorem StoreSlidingFitResults_ordered (sqrt : K → K) (zPitch : K) (points : List (K × K))
    (halfWindow : Nat) (minLayer maxLayer : Int) :
    Ordered (StoreSlidingFitResults sqrt zPitch points halfWindow minLayer maxLayer) := by
  have hkeys : List.Pairwise (fun a b : Int => a < b)
      ((List.range (maxLayer - minLayer + 1).toNat).map
        (fun (i : Nat) => minLayer + (i : Int))) := by
    refine List.Pairwise.map _ ?_ (List.pairwise_lt_range _)
    intro a b hab
    show minLayer + (a : Int) < minLayer + (b : Int)
    omega
  have key : ∀ (layer : Int) (x : LayerIter K),
      x ∈ (if points.any (fun lt => decide (GetLayer zPitch lt.1 = layer)) then
        (fitWindow sqrt (windowPoints zPitch points layer halfWindow)).map
          (fun record => (layer, record)) else none) → x.1 = layer := by
    intro layer x hx
    split_ifs at hx
    · rw [Option.mem_def, Option.map_eq_some'] at hx
      obtain ⟨record, _, hpair⟩ := hx
      rw [← hpair]
    · cases hx
  unfold Ordered StoreSlidingFitResults
  refine List.Pairwise.filterMap _ ?_ hkeys
  intro a a2 haa b hb b2 hb2
  rw [key _ b hb, key _ b2 hb2]
  exact haa

/-- What a successful construction has gone through. -/
theorem LArTwoDSlidingFit_ok_inv {sqrt : K → K} {zPitch : K} {minLayerSpan : Nat}
    {cluster : List (CartesianVector K)} {halfWindow : Nat}
    {axisIntercept axisDirection : CartesianVector K} {f : TwoDSlidingFitResult K}
    (h : LArTwoDSlidingFit sqrt zPitch minLayerSpan cluster halfWindow axisIntercept
      axisDirection = .ok f) :
    ∃ minLayer maxLayer, f.m_layerFitResultMap ≠ [] ∧
      f.m_layerFitResultMap = StoreSlidingFitResults sqrt zPitch
        (cluster.map (GetLocalPosition sqrt ⟨axisIntercept, axisDirection, []⟩)) halfWindow
        minLayer maxLayer := by
  unfold LArTwoDSlidingFit at h
  simp only at h
  split at h
  · rename_i minLayer maxLayer _ _
    split_ifs at h with h1 h2
    simp only [Except.ok.injEq] at h
    subst h
    refine ⟨minLayer, maxLayer, ?_, rfl⟩
    intro hnil
    apply h2
    simp only at hnil
    rw [hnil]
    rfl
  · cases h

end ConstructionLemmas

end LArClusterHelper

/-! ## Claims on the construction -/

section ConstructionClaims

open TwoDSlidingFitResult LayerFitResultMap StatusCode LArClusterHelper

/-- On a non-empty map no locate and no end-point query reports an uninitialised result. -/
theorem not_initialized_of_ne_nil {K : Type} [LinearOrderedField K] [FloorRing K] (zPitch : K)
    (f : TwoDSlidingFitResult K) (hne : f.m_layerFitResultMap ≠ []) :
    (∀ rL, f.GetSurroundingLayerIterators zPitch rL ≠ .error STATUS_CODE_NOT_INITIALIZED) ∧
      (∀ p useX,
        f.GetSurroundingLayerIteratorsP zPitch p useX ≠ .error STATUS_CODE_NOT_INITIALIZED) ∧
      f.GetGlobalMinLayerPosition ≠ .error STATUS_CODE_NOT_INITIALIZED ∧
      f.GetGlobalMaxLayerPosition ≠ .error STATUS_CODE_NOT_INITIALIZED := by
  obtain ⟨b, r, hb, hr⟩ := begin_rbegin_of_ne_nil hne
  refine ⟨?_, ?_, ?_, ?_⟩
  · intro rL h
    rw [GetSurroundingLayerIterators_eq hb hr] at h
    split_ifs at h
    · cases h
    · split at h
      · cases h
      · split at h
        · cases h
        · split_ifs at h
          cases h
  · intro p useX h
    have h2 := GetSurroundingLayerIteratorsP_error_codes zPitch f p useX hne _ h
    rcases h2 with h2 | h2 | h2 <;> cases h2
  · unfold GetGlobalMinLayerPosition
    rw [hb]
    intro h
    cases h
  · unfold GetGlobalMaxLayerPosition
    rw [hr]
    intro h
    cases h

/-- Claim C19 (construction modelled from the spec): a construction either fails with
`InsufficientData` or yields a layer map with at least one key and strictly increasing keys;
it fails whenever the map of fitted layers would be empty; and after a successful construction
no locate and no end-point query finds the map empty. -/
theorem C19_construction {K : Type} [LinearOrderedField K] [FloorRing K] (sqrt : K → K)
    (zPitch : K) (minLayerSpan : Nat) (cluster : List (CartesianVector K)) (halfWindow : Nat)
    (axisIntercept axisDirection : CartesianVector K) :
    (LArTwoDSlidingFit sqrt zPitch minLayerSpan cluster halfWindow axisIntercept axisDirection =
          .error .InsufficientData ∨
        ∃ f, LArTwoDSlidingFit sqrt zPitch minLayerSpan cluster halfWindow axisIntercept
            axisDirection = .ok f ∧
          f.m_layerFitResultMap ≠ [] ∧ Ordered f.m_layerFitResultMap) ∧
      (∀ minLayer maxLayer,
        (cluster.map (fun position => GetLayer zPitch
          (GetLocalPosition sqrt ⟨axisIntercept, axisDirection, []⟩ position).1)).min? =
            some minLayer →
        (cluster.map (fun position => GetLayer zPitch
          (GetLocalPosition sqrt ⟨axisIntercept, axisDirection, []⟩ position).1)).max? =
            some maxLayer →
        StoreSlidingFitResults sqrt zPitch
          (cluster.map (GetLocalPosition sqrt ⟨axisIntercept, axisDirection, []⟩)) halfWindow
          minLayer maxLayer = [] →
        LArTwoDSlidingFit sqrt zPitch minLayerSpan cluster halfWindow axisIntercept
          axisDirection = .error .InsufficientData) ∧
      (∀ f, LArTwoDSlidingFit sqrt zPitch minLayerSpan cluster halfWindow axisIntercept
          axisDirection = .ok f →
        (∀ rL, f.GetSurroundingLayerIterators zPitch rL ≠ .error STATUS_CODE_NOT_INITIALIZED) ∧
          (∀ p useX, f.GetSurroundingLayerIteratorsP zPitch p useX ≠
            .error STATUS_CODE_NOT_INITIALIZED) ∧
          f.GetGlobalMinLayerPosition ≠ .error STATUS_CODE_NOT_INITIALIZED ∧
          f.GetGlobalMaxLayerPosition ≠ .error STATUS_CODE_NOT_INITIALIZED) := by
  refine ⟨?_, ?_, ?_⟩
  · cases h : LArTwoDSlidingFit sqrt zPitch minLayerSpan cluster halfWindow axisIntercept
        axisDirection with
    | error e =>
      cases e
      exact Or.inl rfl
    | ok f =>
      obtain ⟨minLayer, maxLayer, hne, hmap⟩ := LArTwoDSlidingFit_ok_inv h
      refine Or.inr ⟨f, rfl, hne, ?_⟩
      rw [hmap]
      exact StoreSlidingFitResults_ordered _ _ _ _ _ _
  · intro minLayer maxLayer hmin hmax hempty
    unfold LArTwoDSlidingFit
    simp only [List.map_map]
    have hfun : ((fun lt : K × K => GetLayer zPitch lt.1) ∘
        GetLocalPosition sqrt ⟨axisIntercept, axisDirection, []⟩) =
        (fun position => GetLayer zPitch
          (GetLocalPosition sqrt ⟨axisIntercept, axisDirection, []⟩ position).1) := rfl
    rw [hfun, hmin, hmax]
    simp only [hempty, List.isEmpty_nil, if_true]
    split_ifs <;> rfl
  · intro f h
    obtain ⟨_, _, hne, _⟩ := LArTwoDSlidingFit_ok_inv h
    exact not_initialized_of_ne_nil zPitch f hne

/-! Evaluation of the construction on the three-point cluster. -/

theorem lineCluster_points :
    (lineCluster : List (CartesianVector ℝ)).map
      (TwoDSlidingFitResult.GetLocalPosition Real.sqrt ⟨⟨0, 0, 0⟩, ⟨0, 0, 1⟩, []⟩) =
      [(1 / 2, 0), (3 / 2, 0), (5 / 2, 0)] := by
  simp [lineCluster, GetLocalPosition, CartesianVector.GetDotProduct,
    CartesianVector.GetCrossProduct, CartesianVector.GetMagnitude,
    CartesianVector.GetMagnitudeSquared, CartesianVector.sub]

theorem lineCluster_layer_zero : GetLayer (1 : ℝ) (1 / 2) = 0 := by
  simp only [GetLayer, Int.floor_eq_iff]
  norm_num

theorem lineCluster_layer_one : GetLayer (1 : ℝ) (3 / 2) = 1 := by
  simp only [GetLayer, Int.floor_eq_iff]
  norm_num

theorem lineCluster_layer_two : GetLayer (1 : ℝ) (5 / 2) = 2 := by
  simp only [GetLayer, Int.floor_eq_iff]
  norm_num

theorem lineCluster_window_zero :
    windowPoints (1 : ℝ) [(1 / 2, 0), (3 / 2, 0), (5 / 2, 0)] 0 1 = [(1 / 2, 0), (3 / 2, 0)] := by
  simp only [windowPoints, List.filter, lineCluster_layer_zero, lineCluster_layer_one,
    lineCluster_layer_two]
  rfl

theorem lineCluster_window_one :
    windowPoints (1 : ℝ) [(1 / 2, 0), (3 / 2, 0), (5 / 2, 0)] 1 1 =
      [(1 / 2, 0), (3 / 2, 0), (5 / 2, 0)] := by
  simp only [windowPoints, List.filter, lineCluster_layer_zero, lineCluster_layer_one,
    lineCluster_layer_two]
  rfl

theorem lineCluster_window_two :
    windowPoints (1 : ℝ) [(1 / 2, 0), (3 / 2, 0), (5 / 2, 0)] 2 1 = [(3 / 2, 0), (5 / 2, 0)] := by
  simp only [windowPoints, List.filter, lineCluster_layer_zero, lineCluster_layer_one,
    lineCluster_layer_two]
  rfl

theorem lineCluster_fit_zero :
    fitWindow Real.sqrt [((1 / 2 : ℝ), (0 : ℝ)), (3 / 2, 0)] = some ⟨1, 0, 0, 0⟩ := by
  norm_num [fitWindow, accumulate, LayerFitContribution.AddPoint, LayerFitContribution.new]

theorem lineCluster_fit_one :
    fitWindow Real.sqrt [((1 / 2 : ℝ), (0 : ℝ)), (3 / 2, 0), (5 / 2, 0)] =
      some ⟨3 / 2, 0, 0, 0⟩ := by
  norm_num [fitWindow, accumulate, LayerFitContribution.AddPoint, LayerFitContribution.new]

theorem lineCluster_fit_two :
    fitWindow Real.sqrt [((3 / 2 : ℝ), (0 : ℝ)), (5 / 2, 0)] = some ⟨2, 0, 0, 0⟩ := by
  norm_num [fitWindow, accumulate, LayerFitContribution.AddPoint, LayerFitContribution.new]

theorem lineCluster_store :
    StoreSlidingFitResults Real.sqrt (1 : ℝ) [(1 / 2, 0), (3 / 2, 0), (5 / 2, 0)] 1 0 2 =
      [(0, ⟨1, 0, 0, 0⟩), (1, ⟨3 / 2, 0, 0, 0⟩), (2, ⟨2, 0, 0, 0⟩)] := by
  have hr : (List.range ((2 : Int) - 0 + 1).toNat).map (fun (i : Nat) => (0 : Int) + (i : Int)) =
      [0, 1, 2] := by decide
  unfold StoreSlidingFitResults
  rw [hr]
  simp only [List.filterMap_cons, List.filterMap_nil, List.any_cons, List.any_nil,
    lineCluster_layer_zero, lineCluster_layer_one, lineCluster_layer_two,
    lineCluster_window_zero, lineCluster_window_one, lineCluster_window_two,
    lineCluster_fit_zero, lineCluster_fit_one, lineCluster_fit_two]
  simp

theorem lineCluster_fit :
    LArTwoDSlidingFit Real.sqrt (1 : ℝ) 2 lineCluster 1 ⟨0, 0, 0⟩ ⟨0, 0, 1⟩ =
      .ok ⟨⟨0, 0, 0⟩, ⟨0, 0, 1⟩,
        [(0, ⟨1, 0, 0, 0⟩), (1, ⟨3 / 2, 0, 0, 0⟩), (2, ⟨2, 0, 0, 0⟩)]⟩ := by
  have hmin : ([0, 1, 2] : List Int).min? = some 0 := by decide
  have hmax : ([0, 1, 2] : List Int).max? = some 2 := by decide
  unfold LArTwoDSlidingFit
  simp only [lineCluster_points]
  simp only [List.map_cons, List.map_nil, lineCluster_layer_zero, lineCluster_layer_one,
    lineCluster_layer_two, hmin, hmax, lineCluster_store]
  norm_num

/-- Witness of C19: the construction on the three-point cluster succeeds, with a non-empty
map of strictly increasing keys. -/
theorem C19_construction_witness :
    ∃ f, LArTwoDSlidingFit Real.sqrt (1 : ℝ) 2 lineCluster 1 ⟨0, 0, 0⟩ ⟨0, 0, 1⟩ = .ok f ∧
      f.m_layerFitResultMap ≠ [] ∧ Ordered f.m_layerFitResultMap := by
  rcases (C19_construction Real.sqrt (1 : ℝ) 2 lineCluster 1 ⟨0, 0, 0⟩ ⟨0, 0, 1⟩).1 with h | h
  · rw [lineCluster_fit] at h
    cases h
  · exact h

/-- Claim C20 (construction modelled from the spec): every record of a constructed map sits
on a populated layer, and its gradient is the least-squares slope of T on L over the points of
all layers within the half-window on either side of that layer, inclusive:
`(n * SumLT - SumL * SumT) / (n * SumLL - SumL * SumL)` with the sums held by the Layer Fit
Contribution accumulated from those points, which are the plain sums over them; the
denominator is not zero. -/
theorem C20_gradient_is_ols_slope {K : Type} [LinearOrderedField K] [FloorRing K]
    (sqrt : K → K) (zPitch : K) (minLayerSpan : Nat) (cluster : List (CartesianVector K))
    (halfWindow : Nat) (axisIntercept axisDirection : CartesianVector K)
    (f : TwoDSlidingFitResult K) (e : LayerIter K)
    (hok : LArTwoDSlidingFit sqrt zPitch minLayerSpan cluster halfWindow axisIntercept
      axisDirection = .ok f)
    (he : e ∈ f.m_layerFitResultMap) :
    (∃ lt ∈ cluster.map (GetLocalPosition sqrt ⟨axisIntercept, axisDirection, []⟩),
        GetLayer zPitch lt.1 = e.1) ∧
      (∀ lt, lt ∈ windowPoints zPitch
          (cluster.map (GetLocalPosition sqrt ⟨axisIntercept, axisDirection, []⟩)) e.1
          halfWindow ↔
        lt ∈ cluster.map (GetLocalPosition sqrt ⟨axisIntercept, axisDirection, []⟩) ∧
          e.1 - (halfWindow : Int) ≤ GetLayer zPitch lt.1 ∧
          GetLayer zPitch lt.1 ≤ e.1 + (halfWindow : Int)) ∧
      ((accumulate (windowPoints zPitch
          (cluster.map (GetLocalPosition sqrt ⟨axisIntercept, axisDirection, []⟩)) e.1
          halfWindow)).m_nPoints : K) *
          (accumulate (windowPoints zPitch
            (cluster.map (GetLocalPosition sqrt ⟨axisIntercept, axisDirection, []⟩)) e.1
            halfWindow)).m_sumLL -
        (accumulate (windowPoints zPitch
          (cluster.map (GetLocalPosition sqrt ⟨axisIntercept, axisDirection, []⟩)) e.1
          halfWindow)).m_sumL *
          (accumulate (windowPoints zPitch
            (cluster.map (GetLocalPosition sqrt ⟨axisIntercept, axisDirection, []⟩)) e.1
            halfWindow)).m_sumL ≠ 0 ∧
      e.2.GetGradient =
        (((accumulate (windowPoints zPitch
            (cluster.map (GetLocalPosition sqrt ⟨axisIntercept, axisDirection, []⟩)) e.1
            halfWindow)).m_nPoints : K) *
            (accumulate (windowPoints zPitch
              (cluster.map (GetLocalPosition sqrt ⟨axisIntercept, axisDirection, []⟩)) e.1
              halfWindow)).m_sumLT -
          (accumulate (windowPoints zPitch
            (cluster.map (GetLocalPosition sqrt ⟨axisIntercept, axisDirection, []⟩)) e.1
            halfWindow)).m_sumL *
            (accumulate (windowPoints zPitch
              (cluster.map (GetLocalPosition sqrt ⟨axisIntercept, axisDirection, []⟩)) e.1
              halfWindow)).m_sumT) /
          (((accumulate (windowPoints zPitch
            (cluster.map (GetLocalPosition sqrt ⟨axisIntercept, axisDirection, []⟩)) e.1
            halfWindow)).m_nPoints : K) *
            (accumulate (windowPoints zPitch
              (cluster.map (GetLocalPosition sqrt ⟨axisIntercept, axisDirection, []⟩)) e.1
              halfWindow)).m_sumLL -
          (accumulate (windowPoints zPitch
            (cluster.map (GetLocalPosition sqrt ⟨axisIntercept, axisDirection, []⟩)) e.1
            halfWindow)).m_sumL *
            (accumulate (windowPoints zPitch
              (cluster.map (GetLocalPosition sqrt ⟨axisIntercept, axisDirection, []⟩)) e.1
              halfWindow)).m_sumL) ∧
      e.2.GetGradient = olsSlope (windowPoints zPitch
        (cluster.map (GetLocalPosition sqrt ⟨axisIntercept, axisDirection, []⟩)) e.1
        halfWindow) := by
  obtain ⟨minLayer, maxLayer, _, hmap⟩ := LArTwoDSlidingFit_ok_inv hok
  rw [hmap] at he
  obtain ⟨hpop, hfit⟩ := mem_StoreSlidingFitResults he
  obtain ⟨hden, hgrad⟩ := fitWindow_gradient hfit
  refine ⟨hpop, fun lt => mem_windowPoints, hden, hgrad, ?_⟩
  rw [show e.2.GetGradient = e.2.m_gradient from rfl, hgrad, accumulate_eq]
  rfl

/-- Witness of C20 on the three-point cluster: the record of layer 1, fitted to all three
points, has the gradient 0, the least-squares slope of its window. -/
theorem C20_gradient_is_ols_slope_witness :
    LayerFitResult.GetGradient (⟨3 / 2, 0, 0, 0⟩ : LayerFitResult ℝ) =
      olsSlope (windowPoints (1 : ℝ)
        ((lineCluster : List (CartesianVector ℝ)).map
          (GetLocalPosition Real.sqrt ⟨⟨0, 0, 0⟩, ⟨0, 0, 1⟩, []⟩)) 1 1) :=
  (C20_gradient_is_ols_slope Real.sqrt (1 : ℝ) 2 lineCluster 1 ⟨0, 0, 0⟩ ⟨0, 0, 1⟩
    ⟨⟨0, 0, 0⟩, ⟨0, 0, 1⟩, [(0, ⟨1, 0, 0, 0⟩), (1, ⟨3 / 2, 0, 0, 0⟩), (2, ⟨2, 0, 0, 0⟩)]⟩
    (1, ⟨3 / 2, 0, 0, 0⟩) lineCluster_fit (by simp)).2.2.2.2

end ConstructionClaims

/-! ## Weights and boundary layers of the coordinate locate -/

namespace TwoDSlidingFitResult

open LayerFitResultMap StatusCode

section CoordinateLocateResults

variable {K : Type} [LinearOrderedField K] [FloorRing K]

/-- What a successful coordinate locate has gone through. -/
theorem GetSurroundingLayerIteratorsP_ok_inv {zPitch : K} {f : TwoDSlidingFitResult K} {p : K}
    {useX : Bool} {s : SurroundingLayers K}
    (hok : f.GetSurroundingLayerIteratorsP zPitch p useX = .ok s) :
    ∃ b r, f.m_layerFitResultMap.begin = some b ∧ f.m_layerFitResultMap.rbegin = some r ∧
      ¬ |chosenCoordinate useX f.m_axisDirection| < epsilon ∧
      b.1 ≤ GetLayer zPitch (f.firstL p useX) ∧ GetLayer zPitch (f.firstL p useX) ≤ r.1 ∧
      ((GetLayer zPitch (f.firstL p useX) = b.1 ∧ s = ⟨b, b, 1 / 2, 1 / 2⟩) ∨
        (GetLayer zPitch (f.firstL p useX) = r.1 ∧ s = ⟨r, r, 1 / 2, 1 / 2⟩) ∨
        (GetLayer zPitch (f.firstL p useX) ≠ b.1 ∧ GetLayer zPitch (f.firstL p useX) ≠ r.1 ∧
          ∃ a c, firstLayerLoopP f.m_layerFitResultMap r.1 (GetLayer zPitch (f.firstL p useX)) =
              some a ∧
            (f.secondLayerWalk p useX b.1 r.1 a).1 = some c ∧
            b.1 < a.1 ∧ a.1 < r.1 ∧ c ∈ f.m_layerFitResultMap ∧
            0 < f.incrementAt p useX a * (c.1 - a.1) ∧
            ¬ |chosenCoordinate useX (f.layerPosition c) -
              chosenCoordinate useX (f.layerPosition a)| < epsilon ∧
            s = ⟨a, c,
              1 - (p - chosenCoordinate useX (f.layerPosition a)) /
                (chosenCoordinate useX (f.layerPosition c) -
                  chosenCoordinate useX (f.layerPosition a)),
              (p - chosenCoordinate useX (f.layerPosition a)) /
                (chosenCoordinate useX (f.layerPosition c) -
                  chosenCoordinate useX (f.layerPosition a))⟩)) := by
  cases hbeg : f.m_layerFitResultMap.begin with
  | none =>
    unfold GetSurroundingLayerIteratorsP at hok
    rw [hbeg] at hok
    cases hok
  | some b =>
    cases hrb : f.m_layerFitResultMap.rbegin with
    | none =>
      unfold GetSurroundingLayerIteratorsP at hok
      rw [hbeg, hrb] at hok
      cases hok
    | some r =>
      rw [GetSurroundingLayerIteratorsP_eq hbeg hrb] at hok
      by_cases h0 : |chosenCoordinate useX f.m_axisDirection| < epsilon
      · rw [if_pos h0] at hok
        cases hok
      rw [if_neg h0] at hok
      by_cases h1 : GetLayer zPitch (f.firstL p useX) < b.1 ∨
          GetLayer zPitch (f.firstL p useX) > r.1
      · rw [if_pos h1] at hok
        cases hok
      rw [if_neg h1] at hok
      refine ⟨b, r, rfl, rfl, h0, by omega, by omega, ?_⟩
      by_cases h2 : GetLayer zPitch (f.firstL p useX) = b.1
      · rw [if_pos h2] at hok
        simp only [Except.ok.injEq] at hok
        exact Or.inl ⟨h2, hok.symm⟩
      rw [if_neg h2] at hok
      by_cases h3 : GetLayer zPitch (f.firstL p useX) = r.1
      · rw [if_pos h3] at hok
        simp only [Except.ok.injEq] at hok
        exact Or.inr (Or.inl ⟨h3, hok.symm⟩)
      rw [if_neg h3] at hok
      refine Or.inr (Or.inr ⟨h2, h3, ?_⟩)
      cases ha : firstLayerLoopP f.m_layerFitResultMap r.1
          (GetLayer zPitch (f.firstL p useX)) with
      | none =>
        rw [ha] at hok
        cases hok
      | some a =>
        have ha2 := firstLayerLoopP_some _ _ _ rfl ha
        have hba : b.1 < a.1 := by omega
        obtain ⟨c, hc, hcm, hcdir, hpos⟩ := secondLayerWalk_spec p useX hbeg hrb hba ha2.2.2.1
        rw [ha] at hok
        simp only [hc, hpos] at hok
        by_cases h4 : |chosenCoordinate useX (f.layerPosition c) -
            chosenCoordinate useX (f.layerPosition a)| < epsilon
        · rw [if_pos h4] at hok
          cases hok
        · rw [if_neg h4] at hok
          simp only [Except.ok.injEq] at hok
          exact ⟨a, c, rfl, hc, hba, ha2.2.2.1, hcm, hcdir, h4, hok.symm⟩

/-- The weights of a successful coordinate locate add up to one. -/
theorem GetSurroundingLayerIteratorsP_weights {zPitch : K} {f : TwoDSlidingFitResult K} {p : K}
    {useX : Bool} {s : SurroundingLayers K}
    (hok : f.GetSurroundingLayerIteratorsP zPitch p useX = .ok s) :
    s.firstWeight + s.secondWeight = 1 := by
  obtain ⟨b, r, _, _, _, _, _, h⟩ := GetSurroundingLayerIteratorsP_ok_inv hok
  rcases h with ⟨_, rfl⟩ | ⟨_, rfl⟩ | ⟨_, _, a, c, _, _, _, _, _, _, _, rfl⟩
  · norm_num
  · norm_num
  · simp

/-- The coordinate locate at a boundary layer of an ordered map, for a valid axis. -/
theorem GetSurroundingLayerIteratorsP_boundary {zPitch : K} {f : TwoDSlidingFitResult K} {p : K}
    {useX : Bool} {e : LayerIter K} (hord : Ordered f.m_layerFitResultMap)
    (haxis : ¬ |chosenCoordinate useX f.m_axisDirection| < epsilon)
    (he : e ∈ f.m_layerFitResultMap) (hlayer : GetLayer zPitch (f.firstL p useX) = e.1)
    (hb : AtBoundary f.m_layerFitResultMap (GetLayer zPitch (f.firstL p useX))) :
    f.GetSurroundingLayerIteratorsP zPitch p useX = .ok ⟨e, e, 1 / 2, 1 / 2⟩ := by
  obtain ⟨b, r, hbeg, hrb⟩ := begin_rbegin_of_ne_nil (List.ne_nil_of_mem he)
  have hbe := begin_le hord hbeg e he
  have her := le_rbegin hord hrb e he
  rw [GetSurroundingLayerIteratorsP_eq hbeg hrb, if_neg haxis]
  have h1 : ¬ (GetLayer zPitch (f.firstL p useX) < b.1 ∨
      GetLayer zPitch (f.firstL p useX) > r.1) := by
    intro h
    rcases h with h | h <;> omega
  rw [if_neg h1]
  rcases hb with hb | hb
  · have h2 : GetLayer zPitch (f.firstL p useX) = b.1 :=
      le_antisymm (hb b (begin_mem hbeg)) (by omega)
    rw [if_pos h2, key_inj hord (begin_mem hbeg) he (by omega)]
  · have h3 : GetLayer zPitch (f.firstL p useX) = r.1 :=
      le_antisymm (by omega) (hb r (rbegin_mem hrb))
    by_cases h2 : GetLayer zPitch (f.firstL p useX) = b.1
    · rw [if_pos h2, key_inj hord (begin_mem hbeg) he (by omega)]
    · rw [if_neg h2, if_pos h3, key_inj hord (rbegin_mem hrb) he (by omega)]

end CoordinateLocateResults

end TwoDSlidingFitResult

/-! ## The accumulator -/

section Accumulator

open LArClusterHelper

variable {K : Type} [LinearOrderedField K]

/-- Claim C21, amended: in exact arithmetic, adding the points (l_i, t_i) of a finite sequence
with `AddPoint` to a freshly constructed `LayerFitContribution` leaves in it exactly the sums
of t, l, t^2, l*t and l^2 over the sequence and its length as the point count, and the final
state is the same for every reordering of the sequence; in the `double` arithmetic of the code
the point count is the length of the sequence, and the sums depend on the order: adding
0.1f, 0.2f, 7.7f and adding them in reverse leave different sums of squares. -/
theorem C21_accumulated_sums (points : List (K × K)) :
    (points.foldl (fun c lt => c.AddPoint lt.1 lt.2) LayerFitContribution.new =
        ⟨(points.map (fun lt => lt.2)).sum, (points.map (fun lt => lt.1)).sum,
          (points.map (fun lt => lt.2 * lt.2)).sum, (points.map (fun lt => lt.1 * lt.2)).sum,
          (points.map (fun lt => lt.1 * lt.1)).sum, points.length⟩ ∧
      ∀ reordered : List (K × K), points.Perm reordered →
        reordered.foldl (fun c lt => c.AddPoint lt.1 lt.2) LayerFitContribution.new =
          points.foldl (fun c lt => c.AddPoint lt.1 lt.2) LayerFitContribution.new) ∧
      (∀ rounded : List (ℚ × ℚ),
        (rounded.foldl (fun c lt => c.AddPointD lt.1 lt.2) LayerFitContribution.new).m_nPoints =
          rounded.length) ∧
      decimalPoints.reverse.foldl (fun c lt => c.AddPointD lt.1 lt.2) LayerFitContribution.new ≠
        decimalPoints.foldl (fun c lt => c.AddPointD lt.1 lt.2) LayerFitContribution.new := by
  have hsum : ∀ pts : List (K × K),
      pts.foldl (fun c lt => c.AddPoint lt.1 lt.2) LayerFitContribution.new =
        ⟨(pts.map (fun lt => lt.2)).sum, (pts.map (fun lt => lt.1)).sum,
          (pts.map (fun lt => lt.2 * lt.2)).sum, (pts.map (fun lt => lt.1 * lt.2)).sum,
          (pts.map (fun lt => lt.1 * lt.1)).sum, pts.length⟩ := by
    intro pts
    rw [foldl_AddPoint]
    simp [LayerFitContribution.new]
  refine ⟨⟨hsum points, ?_⟩, ?_, ?_⟩
  · intro reordered hperm
    rw [hsum, hsum]
    simp only [LayerFitContribution.mk.injEq]
    exact ⟨((hperm.map _).sum_eq).symm, ((hperm.map _).sum_eq).symm,
      ((hperm.map _).sum_eq).symm, ((hperm.map _).sum_eq).symm, ((hperm.map _).sum_eq).symm,
      hperm.length_eq.symm⟩
  · intro rounded
    rw [foldl_AddPointD_nPoints]
    simp [LayerFitContribution.new]
  · intro h
    have h2 := congrArg LayerFitContribution.m_sumTT h
    rw [AddPointD_sumTT_forward, AddPointD_sumTT_backward] at h2
    norm_num at h2

/-- Witness of the amended C21 in exact arithmetic: the two points (1, 2) and (3, 5), added in
either order. -/
theorem C21_accumulated_sums_witness :
    [((3 : ℚ), (5 : ℚ)), (1, 2)].foldl (fun c lt => c.AddPoint lt.1 lt.2)
        LayerFitContribution.new =
      [((1 : ℚ), (2 : ℚ)), (3, 5)].foldl (fun c lt => c.AddPoint lt.1 lt.2)
        LayerFitContribution.new :=
  (C21_accumulated_sums [((1 : ℚ), (2 : ℚ)), (3, 5)]).1.2 [(3, 5), (1, 2)]
    (List.Perm.swap _ _ _)

/-- Counterexample to C21 as stated, in the `double` arithmetic of the code: the points with
the transverse coordinates 0.1f, 0.2f, 7.7f and the same points in reverse are reorderings of
each other, their sums of squares differ after the three `AddPoint` calls, and neither is the
exact sum of the squares. -/
theorem C21_accumulated_sums_counterexample :
    decimalPoints.Perm decimalPoints.reverse ∧
      (decimalPoints.foldl (fun c lt => c.AddPointD lt.1 lt.2)
          LayerFitContribution.new).m_sumTT = 4175681072912141 / 70368744177664 ∧
      (decimalPoints.reverse.foldl (fun c lt => c.AddPointD lt.1 lt.2)
          LayerFitContribution.new).m_sumTT = 8351362145824281 / 140737488355328 ∧
      (decimalPoints.map (fun lt => lt.2 * lt.2)).sum ≠ 4175681072912141 / 70368744177664 ∧
      (decimalPoints.map (fun lt => lt.2 * lt.2)).sum ≠ 8351362145824281 / 140737488355328 ∧
      decimalPoints.foldl (fun c lt => c.AddPointD lt.1 lt.2) LayerFitContribution.new ≠
        decimalPoints.reverse.foldl (fun c lt => c.AddPointD lt.1 lt.2)
          LayerFitContribution.new := by
  have hexact : (decimalPoints.map (fun lt => lt.2 * lt.2)).sum =
      13421773 / 134217728 * (13421773 / 134217728) +
        (13421773 / 67108864 * (13421773 / 67108864) +
          (8074035 / 1048576 * (8074035 / 1048576) + 0)) := by
    simp only [decimalPoints, List.map_cons, List.map_nil, List.sum_cons, List.sum_nil,
      toFloat_tenth, toFloat_fifth, toFloat_seven_point_seven]
  refine ⟨(List.reverse_perm _).symm, AddPointD_sumTT_forward, AddPointD_sumTT_backward, ?_, ?_,
    ?_⟩
  · rw [hexact]
    norm_num
  · rw [hexact]
    norm_num
  · intro h
    have h2 := congrArg LayerFitContribution.m_sumTT h
    rw [AddPointD_sumTT_forward, AddPointD_sumTT_backward] at h2
    norm_num at h2

end Accumulator

/-! ## Consequences of the weights adding up to one -/

section WeightSum

open TwoDSlidingFitResult LayerFitResultMap StatusCode

variable {K : Type} [LinearOrderedField K]

/-- With weights that add up to one, `GetGlobalFitInterpolatedPosition` returns the first
position for equal keys and the plain blend of the two positions otherwise. -/
theorem GetGlobalFitInterpolatedPosition_of_sum_one (f : TwoDSlidingFitResult K)
    (first second : LayerIter K) (w1 w2 : K) (hsum : w1 + w2 = 1) :
    f.GetGlobalFitInterpolatedPosition first second w1 w2 =
      .ok (if first.1 = second.1 then f.layerPosition first
        else ((f.layerPosition first).smul w1).add ((f.layerPosition second).smul w2)) := by
  have hnot : ¬ w1 + w2 < epsilon := by
    rw [hsum]
    exact not_lt.2 epsilon_le_one
  unfold GetGlobalFitInterpolatedPosition
  by_cases h1 : first.1 = second.1
  · simp only [h1, if_true]
    rfl
  · simp only [h1, if_false]
    rw [if_neg hnot, hsum]
    simp [CartesianVector.smul, layerPosition]

/-- With weights that add up to one, `GetGlobalFitInterpolatedDirection` does not throw
`STATUS_CODE_FAILURE`. -/
theorem GetGlobalFitInterpolatedDirection_of_sum_one (sqrt : K → K) (f : TwoDSlidingFitResult K)
    (first second : LayerIter K) (w1 w2 : K) (hsum : w1 + w2 = 1) :
    f.GetGlobalFitInterpolatedDirection sqrt first second w1 w2 ≠ .error STATUS_CODE_FAILURE := by
  have hnot : ¬ w1 + w2 < epsilon := by
    rw [hsum]
    exact not_lt.2 epsilon_le_one
  have hunit : ∀ v : CartesianVector K,
      v.GetUnitVector sqrt ≠ .error STATUS_CODE_FAILURE := by
    intro v h
    unfold CartesianVector.GetUnitVector at h
    simp only at h
    split_ifs at h
    cases h
  unfold GetGlobalFitInterpolatedDirection
  intro h
  cases h1 : layerDirection sqrt f first.2.GetGradient with
  | error c =>
    rw [h1] at h
    simp only [Except.error.injEq] at h
    subst h
    exact hunit _ h1
  | ok d1 =>
    rw [h1] at h
    simp only at h
    by_cases hs : first.1 = second.1
    · rw [if_pos hs] at h
      cases h
    · rw [if_neg hs] at h
      cases h2 : layerDirection sqrt f second.2.GetGradient with
      | error c =>
        rw [h2] at h
        simp only [Except.error.injEq] at h
        subst h
        exact hunit _ h2
      | ok d2 =>
        rw [h2] at h
        simp only [hnot, if_false] at h
        exact hunit _ h

variable [FloorRing K]

/-- The position query by longitudinal coordinate after a successful locate. -/
theorem GetGlobalFitPosition_of_ok {zPitch : K} {f : TwoDSlidingFitResult K} {rL : K}
    {s : SurroundingLayers K} (hok : f.GetSurroundingLayerIterators zPitch rL = .ok s) :
    f.GetGlobalFitPosition zPitch rL =
      .ok (if s.firstLayerIter.1 = s.secondLayerIter.1 then f.layerPosition s.firstLayerIter
        else ((f.layerPosition s.firstLayerIter).smul s.firstWeight).add
          ((f.layerPosition s.secondLayerIter).smul s.secondWeight)) := by
  unfold GetGlobalFitPosition
  rw [hok]
  exact GetGlobalFitInterpolatedPosition_of_sum_one f _ _ _ _
    (GetSurroundingLayerIterators_weights hok)

/-- The position query by X/Z coordinate after a successful locate. -/
theorem GetGlobalFitPositionP_of_ok {zPitch : K} {f : TwoDSlidingFitResult K} {p : K}
    {useX : Bool} {s : SurroundingLayers K}
    (hok : f.GetSurroundingLayerIteratorsP zPitch p useX = .ok s) :
    f.GetGlobalFitPositionP zPitch p useX =
      .ok (if s.firstLayerIter.1 = s.secondLayerIter.1 then f.layerPosition s.firstLayerIter
        else ((f.layerPosition s.firstLayerIter).smul s.firstWeight).add
          ((f.layerPosition s.secondLayerIter).smul s.secondWeight)) := by
  unfold GetGlobalFitPositionP
  rw [hok]
  exact GetGlobalFitInterpolatedPosition_of_sum_one f _ _ _ _
    (GetSurroundingLayerIteratorsP_weights hok)

/-- Claim C23: every successful locate, by longitudinal coordinate or by X/Z coordinate,
returns weights with `w1 + w2 = 1`; hence after it the position queries return the first
position for coinciding iterators and otherwise `first * w1 + second * w2` with no
renormalisation, `GetRms` returns the like blend of the two RMS values, and the direction
queries do not throw the `STATUS_CODE_FAILURE` of the `w1 + w2 < epsilon` branch. -/
theorem C23_weights_sum_to_one (sqrt : K → K) (zPitch : K) (f : TwoDSlidingFitResult K) :
    (∀ rL s, f.GetSurroundingLayerIterators zPitch rL = .ok s →
        s.firstWeight + s.secondWeight = 1 ∧
        f.GetGlobalFitPosition zPitch rL =
          .ok (if s.firstLayerIter.1 = s.secondLayerIter.1 then f.layerPosition s.firstLayerIter
            else ((f.layerPosition s.firstLayerIter).smul s.firstWeight).add
              ((f.layerPosition s.secondLayerIter).smul s.secondWeight)) ∧
        f.GetRms zPitch rL =
          .ok (if s.firstLayerIter.1 = s.secondLayerIter.1 then s.firstLayerIter.2.GetRms
            else s.firstLayerIter.2.GetRms * s.firstWeight +
              s.secondLayerIter.2.GetRms * s.secondWeight) ∧
        f.GetGlobalFitDirection sqrt zPitch rL ≠ .error STATUS_CODE_FAILURE) ∧
      (∀ p useX s, f.GetSurroundingLayerIteratorsP zPitch p useX = .ok s →
        s.firstWeight + s.secondWeight = 1 ∧
        f.GetGlobalFitPositionP zPitch p useX =
          .ok (if s.firstLayerIter.1 = s.secondLayerIter.1 then f.layerPosition s.firstLayerIter
            else ((f.layerPosition s.firstLayerIter).smul s.firstWeight).add
              ((f.layerPosition s.secondLayerIter).smul s.secondWeight)) ∧
        f.GetGlobalFitDirectionP sqrt zPitch p useX ≠ .error STATUS_CODE_FAILURE) := by
  constructor
  · intro rL s hok
    have hsum := GetSurroundingLayerIterators_weights hok
    have hnot : ¬ s.firstWeight + s.secondWeight < epsilon := by
      rw [hsum]
      exact not_lt.2 epsilon_le_one
    refine ⟨hsum, GetGlobalFitPosition_of_ok hok, ?_, ?_⟩
    · unfold GetRms
      rw [hok]
      by_cases h1 : s.firstLayerIter.1 = s.secondLayerIter.1
      · simp only [h1, if_true]
      · simp only [h1, if_false]
        rw [if_neg hnot, hsum, div_one]
    · unfold GetGlobalFitDirection
      rw [hok]
      exact GetGlobalFitInterpolatedDirection_of_sum_one sqrt f _ _ _ _ hsum
  · intro p useX s hok
    have hsum := GetSurroundingLayerIteratorsP_weights hok
    refine ⟨hsum, GetGlobalFitPositionP_of_ok hok, ?_⟩
    · unfold GetGlobalFitDirectionP
      rw [hok]
      exact GetGlobalFitInterpolatedDirection_of_sum_one sqrt f _ _ _ _ hsum

/-- Witness of C23: on the fit with the two layers 0 and 2 the weights at rL = 1 are
(1/2, 1/2) and add up to one. -/
theorem C23_weights_sum_to_one_witness :
    (⟨(0, ⟨0, 0, -3 / 4, 0⟩), (2, ⟨2, 0, 3 / 4, 0⟩), 1 / 2, 1 / 2⟩ :
        SurroundingLayers ℝ).firstWeight +
      (⟨(0, ⟨0, 0, -3 / 4, 0⟩), (2, ⟨2, 0, 3 / 4, 0⟩), 1 / 2, 1 / 2⟩ :
        SurroundingLayers ℝ).secondWeight = 1 :=
  ((C23_weights_sum_to_one Real.sqrt (1 : ℝ) bentFit).1 1 _ bentFit_locate).1

end WeightSum

/-! ## Positions returned by the queries -/

section QueryPositions

open TwoDSlidingFitResult LayerFitResultMap StatusCode

variable {K : Type} [LinearOrderedField K]

theorem chosenCoordinate_blend (useX : Bool) (u v : CartesianVector K) (w1 w2 : K) :
    chosenCoordinate useX ((u.smul w1).add (v.smul w2)) =
      chosenCoordinate useX u * w1 + chosenCoordinate useX v * w2 := by
  cases useX <;> simp [chosenCoordinate, CartesianVector.add, CartesianVector.smul]

theorem ne_zero_of_not_abs_lt_epsilon {d : K} (h : ¬ |d| < epsilon) : d ≠ 0 := by
  intro h0
  apply h
  rw [h0, abs_zero]
  exact epsilon_pos

variable [FloorRing K]

/-- Claim C24: when a coordinate-mode position query succeeds with two distinct bracketing
layers, the chosen coordinate (X when `useX`, Z otherwise) of the returned position is exactly
`p`; at a boundary start layer of an ordered map with a valid axis the query returns the
position of the boundary layer itself, whose chosen coordinate need not be `p` (on the example
map the Z-mode query at 1/2 returns a point with Z = 0). -/
theorem C24_coordinate_hits_target (zPitch : K) (f : TwoDSlidingFitResult K) (p : K)
    (useX : Bool) :
    (∀ s position, f.GetSurroundingLayerIteratorsP zPitch p useX = .ok s →
        s.firstLayerIter.1 ≠ s.secondLayerIter.1 →
        f.GetGlobalFitPositionP zPitch p useX = .ok position →
        chosenCoordinate useX position = p) ∧
      (∀ e, Ordered f.m_layerFitResultMap →
        ¬ |chosenCoordinate useX f.m_axisDirection| < epsilon →
        e ∈ f.m_layerFitResultMap → GetLayer zPitch (f.firstL p useX) = e.1 →
        AtBoundary f.m_layerFitResultMap (GetLayer zPitch (f.firstL p useX)) →
        f.GetGlobalFitPositionP zPitch p useX = .ok (f.layerPosition e)) ∧
      (exampleFit.GetGlobalFitPositionP 1 (1 / 2) false = .ok ⟨-1, 0, 0⟩ ∧
        chosenCoordinate false (⟨-1, 0, 0⟩ : CartesianVector ℚ) ≠ 1 / 2) := by
  refine ⟨?_, ?_, ?_⟩
  · intro s position hok hdistinct hpos
    rw [GetGlobalFitPositionP_of_ok hok, if_neg hdistinct] at hpos
    simp only [Except.ok.injEq] at hpos
    subst hpos
    obtain ⟨b, r, _, _, _, _, _, h⟩ := GetSurroundingLayerIteratorsP_ok_inv hok
    rcases h with ⟨_, rfl⟩ | ⟨_, rfl⟩ | ⟨_, _, a, c, _, _, _, _, _, _, hd, rfl⟩
    · exact absurd rfl hdistinct
    · exact absurd rfl hdistinct
    · rw [chosenCoordinate_blend]
      have hne := ne_zero_of_not_abs_lt_epsilon hd
      simp only
      field_simp
      ring
  · intro e hord haxis he hlayer hb
    unfold GetGlobalFitPositionP
    rw [GetSurroundingLayerIteratorsP_boundary hord haxis he hlayer hb]
    unfold GetGlobalFitInterpolatedPosition
    simp [layerPosition]
  · constructor
    · have hstart : GetLayer (1 : ℚ) (exampleFit.firstL (1 / 2) false) = 0 := by
        simp only [firstL, chosenCoordinate, exampleFit, GetLayer, Int.floor_eq_iff]
        norm_num
      unfold GetGlobalFitPositionP
      rw [GetSurroundingLayerIteratorsP_boundary exampleFit_ordered exampleFit_axis_z
        (show ((0 : Int), (⟨0, 1, 0, 1⟩ : LayerFitResult ℚ)) ∈ exampleFit.m_layerFitResultMap by
          simp [exampleFit, exampleMap])
        hstart (by rw [hstart]; simp [AtBoundary, exampleFit, exampleMap])]
      norm_num [GetGlobalFitInterpolatedPosition, GetGlobalPosition, exampleFit,
        CartesianVector.add, CartesianVector.smul, CartesianVector.GetCrossProduct,
        LayerFitResult.GetL, LayerFitResult.GetFitT]
    · norm_num [chosenCoordinate]

/-- Witness of C24 on the example map: the Z-mode position query at 3/2, bracketed by the
keys 2 and 0, returns a point with Z = 3/2. -/
theorem C24_coordinate_hits_target_witness :
    chosenCoordinate false (⟨-5 / 2, 0, 3 / 2⟩ : CartesianVector ℚ) = 3 / 2 :=
  (C24_coordinate_hits_target 1 exampleFit (3 / 2) false).1
    ⟨(2, ⟨2, 3, 1, 2⟩), (0, ⟨0, 1, 0, 1⟩), 3 / 4, 1 / 4⟩ ⟨-5 / 2, 0, 3 / 2⟩
    exampleFit_locateP (by decide)
    (by
      unfold GetGlobalFitPositionP
      rw [exampleFit_locateP]
      norm_num [GetGlobalFitInterpolatedPosition, GetGlobalPosition, exampleFit, epsilon,
        CartesianVector.add, CartesianVector.smul, CartesianVector.GetCrossProduct,
        LayerFitResult.GetL, LayerFitResult.GetFitT])

end QueryPositions

/-! ## Interior longitudinal queries -/

section InteriorQueries

open TwoDSlidingFitResult LayerFitResultMap StatusCode CartesianVector

theorem bentFit_position :
    (bentFit : TwoDSlidingFitResult ℝ).GetGlobalFitPosition 1 1 = .ok ⟨0, 0, 1⟩ := by
  rw [GetGlobalFitPosition_of_ok bentFit_locate]
  norm_num [layerPosition, GetGlobalPosition, bentFit, CartesianVector.add,
    CartesianVector.smul, GetCrossProduct, LayerFitResult.GetL, LayerFitResult.GetFitT]

theorem bentFit_ordered : Ordered (bentFit : TwoDSlidingFitResult ℝ).m_layerFitResultMap := by
  simp [Ordered, bentFit]

/-- In the plane of the fit the local coordinates of `GetGlobalPosition(L, T)` are (L, T). -/
theorem GetLocalPosition_GetGlobalPosition_in_plane (f : TwoDSlidingFitResult ℝ) (rL rT : ℝ)
    (hunit : f.m_axisDirection.GetMagnitude Real.sqrt = 1) (hdir : f.m_axisDirection.y = 0) :
    f.GetLocalPosition Real.sqrt (f.GetGlobalPosition rL rT) = (rL, rT) := by
  obtain ⟨i, u, m⟩ := f
  obtain ⟨ix, iy, iz⟩ := i
  obtain ⟨ux, uy, uz⟩ := u
  simp only at hdir
  subst hdir
  have hsq : ux * ux + uz * uz = 1 := by
    unfold GetMagnitude GetMagnitudeSquared at hunit
    simp only at hunit
    have h := Real.mul_self_sqrt (show (0 : ℝ) ≤ ux * ux + 0 * 0 + uz * uz from
      add_nonneg (add_nonneg (mul_self_nonneg _) (mul_self_nonneg _)) (mul_self_nonneg _))
    rw [hunit] at h
    linarith
  have hcross : (CartesianVector.sub
      (TwoDSlidingFitResult.GetGlobalPosition ⟨⟨ix, iy, iz⟩, ⟨ux, 0, uz⟩, m⟩ rL rT)
      ⟨ix, iy, iz⟩).GetCrossProduct (⟨ux, 0, uz⟩ : CartesianVector ℝ) = ⟨0, rT, 0⟩ := by
    simp only [GetGlobalPosition, GetCrossProduct, CartesianVector.sub, CartesianVector.add,
      CartesianVector.smul, CartesianVector.mk.injEq]
    refine ⟨by ring, ?_, by ring⟩
    linear_combination rT * hsq
  have hT : (if rT < 0 then -1 * |rT| else |rT|) = rT := by
    split_ifs with hneg
    · rw [abs_of_neg hneg]
      ring
    · exact abs_of_nonneg (not_lt.1 hneg)
  unfold GetLocalPosition
  simp only [hcross, GetMagnitude_of_y, hT, Prod.mk.injEq, and_true]
  simp only [GetGlobalPosition, GetDotProduct, GetCrossProduct, CartesianVector.sub,
    CartesianVector.add, CartesianVector.smul]
  linear_combination rL * hsq

theorem slantFit_unit :
    (slantFit : TwoDSlidingFitResult ℝ).m_axisDirection.GetMagnitude Real.sqrt = 1 := by
  unfold GetMagnitude GetMagnitudeSquared
  rw [show ((slantFit : TwoDSlidingFitResult ℝ).m_axisDirection.x *
      (slantFit : TwoDSlidingFitResult ℝ).m_axisDirection.x +
      (slantFit : TwoDSlidingFitResult ℝ).m_axisDirection.y *
      (slantFit : TwoDSlidingFitResult ℝ).m_axisDirection.y +
      (slantFit : TwoDSlidingFitResult ℝ).m_axisDirection.z *
      (slantFit : TwoDSlidingFitResult ℝ).m_axisDirection.z) = 1 by norm_num [slantFit]]
  exact Real.sqrt_one

theorem slantFit_ordered : Ordered (slantFit : TwoDSlidingFitResult ℝ).m_layerFitResultMap := by
  simp [Ordered, slantFit]

theorem slantFit_interior :
    Interior (slantFit : TwoDSlidingFitResult ℝ).m_layerFitResultMap (GetLayer (1 : ℝ) 1) := by
  rw [bentFit_layer]
  simp [Interior, slantFit]

theorem slantFit_locate :
    (slantFit : TwoDSlidingFitResult ℝ).GetSurroundingLayerIterators 1 1 =
      .ok ⟨(0, ⟨0, 1, 0, 0⟩), (2, ⟨2, 1, 0, 0⟩), 1 / 2, 1 / 2⟩ := by
  obtain ⟨a, c, ha, hc, h⟩ := GetSurroundingLayerIterators_interior (1 : ℝ) slantFit 1
    slantFit_ordered slantFit_interior
  have ha2 : IsLowerBracket (slantFit : TwoDSlidingFitResult ℝ).m_layerFitResultMap
      (GetLayer (1 : ℝ) 1) (0, ⟨0, 1, 0, 0⟩) := by
    rw [bentFit_layer]
    simp [IsLowerBracket, slantFit]
  have hc2 : IsUpperBracket (slantFit : TwoDSlidingFitResult ℝ).m_layerFitResultMap
      (GetLayer (1 : ℝ) 1) (2, ⟨2, 1, 0, 0⟩) := by
    rw [bentFit_layer]
    simp [IsUpperBracket, slantFit]
  rw [lowerBracket_unique slantFit_ordered ha ha2,
    upperBracket_unique slantFit_ordered hc hc2] at h
  rw [h]
  norm_num [LayerFitResult.GetL, epsilon, abs_lt]

theorem slantFit_position :
    (slantFit : TwoDSlidingFitResult ℝ).GetGlobalFitPosition 1 1 =
      .ok ⟨3 / 5, 4 / 5, 3 / 5⟩ := by
  rw [GetGlobalFitPosition_of_ok slantFit_locate]
  norm_num [layerPosition, GetGlobalPosition, slantFit, CartesianVector.add,
    CartesianVector.smul, GetCrossProduct, LayerFitResult.GetL, LayerFitResult.GetFitT]

theorem slantFit_local :
    TwoDSlidingFitResult.GetLocalPosition Real.sqrt (slantFit : TwoDSlidingFitResult ℝ)
      ⟨3 / 5, 4 / 5, 3 / 5⟩ = (1, 3 / 5) := by
  have hcross : ((⟨3 / 5, 4 / 5, 3 / 5⟩ : CartesianVector ℝ).sub
      (slantFit : TwoDSlidingFitResult ℝ).m_axisIntercept).GetCrossProduct
      (slantFit : TwoDSlidingFitResult ℝ).m_axisDirection = ⟨-12 / 25, 9 / 25, 0⟩ := by
    norm_num [slantFit, GetCrossProduct, CartesianVector.sub]
  have hmag : CartesianVector.GetMagnitude Real.sqrt
      (⟨-12 / 25, 9 / 25, 0⟩ : CartesianVector ℝ) = 3 / 5 := by
    unfold GetMagnitude GetMagnitudeSquared
    rw [show ((-12 / 25 : ℝ) * (-12 / 25) + 9 / 25 * (9 / 25) + 0 * 0) = 3 / 5 * (3 / 5) by
      norm_num]
    exact Real.sqrt_mul_self (by norm_num)
  unfold GetLocalPosition
  simp only [hcross, hmag]
  norm_num [slantFit, GetDotProduct, CartesianVector.sub]

theorem rampFit_unit :
    (rampFit : TwoDSlidingFitResult ℝ).m_axisDirection.GetMagnitude Real.sqrt = 1 := by
  unfold GetMagnitude GetMagnitudeSquared
  rw [show ((rampFit : TwoDSlidingFitResult ℝ).m_axisDirection.x *
      (rampFit : TwoDSlidingFitResult ℝ).m_axisDirection.x +
      (rampFit : TwoDSlidingFitResult ℝ).m_axisDirection.y *
      (rampFit : TwoDSlidingFitResult ℝ).m_axisDirection.y +
      (rampFit : TwoDSlidingFitResult ℝ).m_axisDirection.z *
      (rampFit : TwoDSlidingFitResult ℝ).m_axisDirection.z) = 1 by norm_num [rampFit]]
  exact Real.sqrt_one

theorem rampFit_ordered : Ordered (rampFit : TwoDSlidingFitResult ℝ).m_layerFitResultMap := by
  simp [Ordered, rampFit]

theorem rampFit_interior :
    Interior (rampFit : TwoDSlidingFitResult ℝ).m_layerFitResultMap (GetLayer (1 : ℝ) 1) := by
  rw [bentFit_layer]
  simp [Interior, rampFit]

theorem rampFit_locate :
    (rampFit : TwoDSlidingFitResult ℝ).GetSurroundingLayerIterators 1 1 =
      .ok ⟨(0, ⟨0, 1, 0, 0⟩), (2, ⟨2, 3, 0, 0⟩), 1 / 2, 1 / 2⟩ := by
  obtain ⟨a, c, ha, hc, h⟩ := GetSurroundingLayerIterators_interior (1 : ℝ) rampFit 1
    rampFit_ordered rampFit_interior
  have ha2 : IsLowerBracket (rampFit : TwoDSlidingFitResult ℝ).m_layerFitResultMap
      (GetLayer (1 : ℝ) 1) (0, ⟨0, 1, 0, 0⟩) := by
    rw [bentFit_layer]
    simp [IsLowerBracket, rampFit]
  have hc2 : IsUpperBracket (rampFit : TwoDSlidingFitResult ℝ).m_layerFitResultMap
      (GetLayer (1 : ℝ) 1) (2, ⟨2, 3, 0, 0⟩) := by
    rw [bentFit_layer]
    simp [IsUpperBracket, rampFit]
  rw [lowerBracket_unique rampFit_ordered ha ha2,
    upperBracket_unique rampFit_ordered hc hc2] at h
  rw [h]
  norm_num [LayerFitResult.GetL, epsilon, abs_lt]

theorem rampFit_position :
    (rampFit : TwoDSlidingFitResult ℝ).GetGlobalFitPosition 1 1 = .ok ⟨-2, 0, 1⟩ := by
  rw [GetGlobalFitPosition_of_ok rampFit_locate]
  norm_num [layerPosition, GetGlobalPosition, rampFit, CartesianVector.add,
    CartesianVector.smul, GetCrossProduct, LayerFitResult.GetL, LayerFitResult.GetFitT]

/-- Claim C25, amended: for an axis frame with a unit direction and an ordered map, when
`GetGlobalFitPosition(rL)` succeeds at an interior target layer, the longitudinal coordinate
`GetLocalPosition` gives for the returned position is `rL` and the position is
`intercept + direction * rL + (direction x Y-hat) * blend` with
`blend = fitT_first * w1 + fitT_second * w2`; the dot product of its displacement from the
intercept with `direction x Y-hat` is `blend * (dx * dx + dz * dz)`; and when the direction
lies in the X-Z plane (its Y component is zero) the transverse coordinate `GetLocalPosition`
gives for the position, and that dot product, are `blend`. -/
theorem C25_interior_position_local (zPitch : ℝ) (f : TwoDSlidingFitResult ℝ) (rL : ℝ)
    (s : SurroundingLayers ℝ) (position : CartesianVector ℝ)
    (hunit : f.m_axisDirection.GetMagnitude Real.sqrt = 1)
    (hord : Ordered f.m_layerFitResultMap)
    (hint : Interior f.m_layerFitResultMap (GetLayer zPitch rL))
    (hloc : f.GetSurroundingLayerIterators zPitch rL = .ok s)
    (hpos : f.GetGlobalFitPosition zPitch rL = .ok position) :
    (f.GetLocalPosition Real.sqrt position).1 = rL ∧
      position = f.GetGlobalPosition rL
        (s.firstLayerIter.2.GetFitT * s.firstWeight +
          s.secondLayerIter.2.GetFitT * s.secondWeight) ∧
      (position.sub f.m_axisIntercept).GetDotProduct
          (f.m_axisDirection.GetCrossProduct ⟨0, 1, 0⟩) =
        (s.firstLayerIter.2.GetFitT * s.firstWeight +
            s.secondLayerIter.2.GetFitT * s.secondWeight) *
          (f.m_axisDirection.x * f.m_axisDirection.x +
            f.m_axisDirection.z * f.m_axisDirection.z) ∧
      (f.m_axisDirection.y = 0 →
        (f.GetLocalPosition Real.sqrt position).2 =
            s.firstLayerIter.2.GetFitT * s.firstWeight +
              s.secondLayerIter.2.GetFitT * s.secondWeight ∧
          (position.sub f.m_axisIntercept).GetDotProduct
              (f.m_axisDirection.GetCrossProduct ⟨0, 1, 0⟩) =
            s.firstLayerIter.2.GetFitT * s.firstWeight +
              s.secondLayerIter.2.GetFitT * s.secondWeight) := by
  have hsq : f.m_axisDirection.x * f.m_axisDirection.x +
      f.m_axisDirection.y * f.m_axisDirection.y +
      f.m_axisDirection.z * f.m_axisDirection.z = 1 := by
    unfold GetMagnitude GetMagnitudeSquared at hunit
    have h := Real.mul_self_sqrt (show (0 : ℝ) ≤ f.m_axisDirection.x * f.m_axisDirection.x +
      f.m_axisDirection.y * f.m_axisDirection.y + f.m_axisDirection.z * f.m_axisDirection.z from
      add_nonneg (add_nonneg (mul_self_nonneg _) (mul_self_nonneg _)) (mul_self_nonneg _))
    rw [hunit] at h
    linarith
  obtain ⟨a, c, ha, hc, heq⟩ := GetSurroundingLayerIterators_interior zPitch f rL hord hint
  rw [heq] at hloc
  split_ifs at hloc with hd
  simp only [Except.ok.injEq] at hloc
  have hne : c.2.GetL - a.2.GetL ≠ 0 := by
    intro h0
    apply hd
    rw [h0, abs_zero]
    exact epsilon_pos
  have hkeys : ¬ a.1 = c.1 := by
    have h1 := ha.2.1
    have h2 := hc.2.1
    omega
  have hloc2 : f.GetSurroundingLayerIterators zPitch rL = .ok s := by
    rw [heq, if_neg hd, hloc]
  rw [GetGlobalFitPosition_of_ok hloc2] at hpos
  subst hloc
  simp only [if_neg hkeys, Except.ok.injEq] at hpos
  have hglobal : position = f.GetGlobalPosition rL
      (a.2.GetFitT * (1 - (rL - a.2.GetL) / (c.2.GetL - a.2.GetL)) +
        c.2.GetFitT * ((rL - a.2.GetL) / (c.2.GetL - a.2.GetL))) := by
    rw [← hpos]
    simp only [layerPosition, GetGlobalPosition, CartesianVector.add, CartesianVector.smul,
      CartesianVector.mk.injEq]
    refine ⟨?_, ?_, ?_⟩ <;> field_simp <;> ring
  have hdot : (position.sub f.m_axisIntercept).GetDotProduct
      (f.m_axisDirection.GetCrossProduct ⟨0, 1, 0⟩) =
      (a.2.GetFitT * (1 - (rL - a.2.GetL) / (c.2.GetL - a.2.GetL)) +
        c.2.GetFitT * ((rL - a.2.GetL) / (c.2.GetL - a.2.GetL))) *
        (f.m_axisDirection.x * f.m_axisDirection.x +
          f.m_axisDirection.z * f.m_axisDirection.z) := by
    rw [hglobal]
    simp only [GetGlobalPosition, GetDotProduct, GetCrossProduct,
      CartesianVector.add, CartesianVector.smul, CartesianVector.sub]
    ring
  refine ⟨?_, hglobal, hdot, fun hdir => ⟨?_, ?_⟩⟩
  · rw [hglobal]
    simp only [GetLocalPosition, GetGlobalPosition, GetDotProduct, GetCrossProduct,
      CartesianVector.add, CartesianVector.smul, CartesianVector.sub]
    linear_combination rL * hsq
  · rw [hglobal, GetLocalPosition_GetGlobalPosition_in_plane f _ _ hunit hdir]
  · rw [hdot]
    rw [hdir] at hsq
    have h1 : f.m_axisDirection.x * f.m_axisDirection.x +
        f.m_axisDirection.z * f.m_axisDirection.z = 1 := by linarith
    rw [h1, mul_one]

/-- Witness of the amended C25: on the fit along the z axis whose layers 0 and 2 have the
fitted transverse coordinates 1 and 3, the position at rL = 1 is (-2, 0, 1), whose local
coordinates are (1, 2). -/
theorem C25_interior_position_local_witness :
    TwoDSlidingFitResult.GetLocalPosition Real.sqrt (rampFit : TwoDSlidingFitResult ℝ)
      ⟨-2, 0, 1⟩ = (1, 2) := by
  have h := C25_interior_position_local 1 rampFit 1
    ⟨(0, ⟨0, 1, 0, 0⟩), (2, ⟨2, 3, 0, 0⟩), 1 / 2, 1 / 2⟩ ⟨-2, 0, 1⟩ rampFit_unit
    rampFit_ordered rampFit_interior rampFit_locate rampFit_position
  refine Prod.ext h.1 ?_
  rw [(h.2.2.2 rfl).1]
  norm_num [LayerFitResult.GetFitT]

/-- Counterexample to C25 as stated: along the unit direction (3/5, 4/5, 0), with the fitted
transverse coordinate 1 in both layers 0 and 2, the position query at rL = 1 succeeds at an
interior layer with the weights 1/2 and 1/2 and returns (3/5, 4/5, 3/5); the blend is 1, but
the transverse coordinate `GetLocalPosition` gives for that position is 3/5 and the dot product
of the position with `direction x Y-hat` is 9/25. -/
theorem C25_interior_position_local_counterexample :
    (slantFit : TwoDSlidingFitResult ℝ).m_axisDirection.GetMagnitude Real.sqrt = 1 ∧
      Ordered (slantFit : TwoDSlidingFitResult ℝ).m_layerFitResultMap ∧
      Interior (slantFit : TwoDSlidingFitResult ℝ).m_layerFitResultMap (GetLayer (1 : ℝ) 1) ∧
      (slantFit : TwoDSlidingFitResult ℝ).GetSurroundingLayerIterators 1 1 =
        .ok ⟨(0, ⟨0, 1, 0, 0⟩), (2, ⟨2, 1, 0, 0⟩), 1 / 2, 1 / 2⟩ ∧
      (slantFit : TwoDSlidingFitResult ℝ).GetGlobalFitPosition 1 1 =
        .ok ⟨3 / 5, 4 / 5, 3 / 5⟩ ∧
      TwoDSlidingFitResult.GetLocalPosition Real.sqrt (slantFit : TwoDSlidingFitResult ℝ)
        ⟨3 / 5, 4 / 5, 3 / 5⟩ = (1, 3 / 5) ∧
      ((⟨3 / 5, 4 / 5, 3 / 5⟩ : CartesianVector ℝ).sub
          (slantFit : TwoDSlidingFitResult ℝ).m_axisIntercept).GetDotProduct
        ((slantFit : TwoDSlidingFitResult ℝ).m_axisDirection.GetCrossProduct ⟨0, 1, 0⟩) =
          9 / 25 ∧
      (1 : ℝ) * (1 / 2) + 1 * (1 / 2) ≠ 3 / 5 ∧ (1 : ℝ) * (1 / 2) + 1 * (1 / 2) ≠ 9 / 25 :=
  ⟨slantFit_unit, slantFit_ordered, slantFit_interior, slantFit_locate, slantFit_position,
    slantFit_local,
    by norm_num [slantFit, GetDotProduct, GetCrossProduct, CartesianVector.sub],
    by norm_num, by norm_num⟩

end InteriorQueries

section EndPositions

open TwoDSlidingFitResult LayerFitResultMap StatusCode

variable {K : Type} [LinearOrderedField K] [FloorRing K]

/-- Claim C26: on an ordered map with `emin` the entry of the smallest key and `emax` that of
the largest, `GetGlobalMinLayerPosition` and `GetGlobalMaxLayerPosition` return the global
positions of their records; for every `rL` in the layer of the smallest (largest) key
`GetGlobalFitPosition(rL)` returns the min (max) layer position, and so does
`GetGlobalFitProjection` of every point whose longitudinal coordinate is in that layer; and
on any map each of the two end-point queries throws `STATUS_CODE_NOT_INITIALIZED` exactly when
the map is empty. -/
theorem C26_end_positions (sqrt : K → K) (zPitch : K) (f : TwoDSlidingFitResult K)
    (emin emax : LayerIter K) (hord : Ordered f.m_layerFitResultMap)
    (hmin : emin ∈ f.m_layerFitResultMap) (hmax : emax ∈ f.m_layerFitResultMap)
    (hlo : ∀ x ∈ f.m_layerFitResultMap, emin.1 ≤ x.1)
    (hhi : ∀ x ∈ f.m_layerFitResultMap, x.1 ≤ emax.1) :
    f.GetGlobalMinLayerPosition = .ok (f.GetGlobalPosition emin.2.GetL emin.2.GetFitT) ∧
      f.GetGlobalMaxLayerPosition = .ok (f.GetGlobalPosition emax.2.GetL emax.2.GetFitT) ∧
      (∀ rL, GetLayer zPitch rL = emin.1 →
        f.GetGlobalFitPosition zPitch rL = f.GetGlobalMinLayerPosition) ∧
      (∀ rL, GetLayer zPitch rL = emax.1 →
        f.GetGlobalFitPosition zPitch rL = f.GetGlobalMaxLayerPosition) ∧
      (∀ point, GetLayer zPitch (f.GetLocalPosition sqrt point).1 = emin.1 →
        f.GetGlobalFitProjection sqrt zPitch point = f.GetGlobalMinLayerPosition) ∧
      (∀ point, GetLayer zPitch (f.GetLocalPosition sqrt point).1 = emax.1 →
        f.GetGlobalFitProjection sqrt zPitch point = f.GetGlobalMaxLayerPosition) ∧
      (∀ g : TwoDSlidingFitResult K,
        (g.GetGlobalMinLayerPosition = .error STATUS_CODE_NOT_INITIALIZED ↔
          g.m_layerFitResultMap = []) ∧
        (g.GetGlobalMaxLayerPosition = .error STATUS_CODE_NOT_INITIALIZED ↔
          g.m_layerFitResultMap = [])) := by
  obtain ⟨b, r, hb, hr⟩ := begin_rbegin_of_ne_nil (List.ne_nil_of_mem hmin)
  have hbmin : b = emin :=
    key_inj hord (begin_mem hb) hmin
      (le_antisymm (begin_le hord hb emin hmin) (hlo b (begin_mem hb)))
  have hrmax : r = emax :=
    key_inj hord (rbegin_mem hr) hmax
      (le_antisymm (hhi r (rbegin_mem hr)) (le_rbegin hord hr emax hmax))
  subst hbmin
  subst hrmax
  have hminpos : f.GetGlobalMinLayerPosition = .ok (f.GetGlobalPosition b.2.GetL b.2.GetFitT) := by
    unfold GetGlobalMinLayerPosition
    rw [hb]
  have hmaxpos : f.GetGlobalMaxLayerPosition = .ok (f.GetGlobalPosition r.2.GetL r.2.GetFitT) := by
    unfold GetGlobalMaxLayerPosition
    rw [hr]
  have hfit : ∀ (e : LayerIter K) (rL : K), e ∈ f.m_layerFitResultMap →
      GetLayer zPitch rL = e.1 → AtBoundary f.m_layerFitResultMap (GetLayer zPitch rL) →
      f.GetGlobalFitPosition zPitch rL = .ok (f.GetGlobalPosition e.2.GetL e.2.GetFitT) := by
    intro e rL he hl hbd
    rw [GetGlobalFitPosition_of_ok (GetSurroundingLayerIterators_boundary hord he hl hbd)]
    simp [layerPosition]
  have hatmin : ∀ rL, GetLayer zPitch rL = b.1 →
      f.GetGlobalFitPosition zPitch rL = f.GetGlobalMinLayerPosition := by
    intro rL hl
    rw [hminpos]
    exact hfit b rL hmin hl (Or.inl (by rw [hl]; exact hlo))
  have hatmax : ∀ rL, GetLayer zPitch rL = r.1 →
      f.GetGlobalFitPosition zPitch rL = f.GetGlobalMaxLayerPosition := by
    intro rL hl
    rw [hmaxpos]
    exact hfit r rL hmax hl (Or.inr (by rw [hl]; exact hhi))
  refine ⟨hminpos, hmaxpos, hatmin, hatmax, fun point hl => hatmin _ hl,
    fun point hl => hatmax _ hl, ?_⟩
  intro g
  constructor
  · unfold GetGlobalMinLayerPosition LayerFitResultMap.begin
    cases g.m_layerFitResultMap with
    | nil => simp
    | cons a t => simp
  · unfold GetGlobalMaxLayerPosition LayerFitResultMap.rbegin
    cases hg : g.m_layerFitResultMap with
    | nil => simp
    | cons a t =>
      rw [List.getLast?_eq_getLast _ (List.cons_ne_nil a t)]
      simp

/-- Witness of C26 on the fit with the layers 0 and 2: the position query at rL = 1/2, in the
layer of the smallest key, returns the min layer position. -/
theorem C26_end_positions_witness :
    (bentFit : TwoDSlidingFitResult ℝ).GetGlobalFitPosition 1 (1 / 2) =
      (bentFit : TwoDSlidingFitResult ℝ).GetGlobalMinLayerPosition :=
  (C26_end_positions Real.sqrt (1 : ℝ) bentFit (0, ⟨0, 0, -3 / 4, 0⟩) (2, ⟨2, 0, 3 / 4, 0⟩)
    bentFit_ordered (by simp [bentFit]) (by simp [bentFit]) (by simp [bentFit])
    (by simp [bentFit])).2.2.1 (1 / 2)
    (by
      simp only [GetLayer, Int.floor_eq_iff]
      norm_num)

end EndPositions

/-! ## Ranges of the weights -/

section WeightRanges

open TwoDSlidingFitResult LayerFitResultMap StatusCode

variable {K : Type} [LinearOrderedField K] [FloorRing K]

/-- For a positive pitch, `rL` lies in the half-open interval of its layer. -/
theorem GetLayer_bounds {zPitch : K} (hz : 0 < zPitch) (rL : K) :
    GetL zPitch (GetLayer zPitch rL) ≤ rL ∧ rL < GetL zPitch (GetLayer zPitch rL + 1) := by
  unfold GetL GetLayer
  constructor
  · exact (le_div_iff₀ hz).1 (Int.floor_le _)
  · have h := Int.lt_floor_add_one (rL / zPitch)
    push_cast
    exact (div_lt_iff₀ hz).1 h

theorem skewFit_ordered : Ordered skewFit.m_layerFitResultMap := by
  simp [Ordered, skewFit]

theorem skewFit_interior : Interior skewFit.m_layerFitResultMap (GetLayer (1 : ℚ) (3 / 2)) := by
  rw [degenerateFit_layer]
  simp [Interior, skewFit]

theorem skewFit_lower :
    IsLowerBracket skewFit.m_layerFitResultMap (GetLayer (1 : ℚ) (3 / 2))
      (1, ⟨19 / 10, 0, 0, 0⟩) := by
  rw [degenerateFit_layer]
  simp [IsLowerBracket, skewFit]

theorem skewFit_upper :
    IsUpperBracket skewFit.m_layerFitResultMap (GetLayer (1 : ℚ) (3 / 2)) (3, ⟨3, 0, 0, 0⟩) := by
  rw [degenerateFit_layer]
  simp [IsUpperBracket, skewFit]

theorem skewFit_locate :
    skewFit.GetSurroundingLayerIterators 1 (3 / 2) =
      .ok ⟨(1, ⟨19 / 10, 0, 0, 0⟩), (3, ⟨3, 0, 0, 0⟩), 15 / 11, -4 / 11⟩ := by
  obtain ⟨a, c, ha, hc, h⟩ := GetSurroundingLayerIterators_interior (1 : ℚ) skewFit (3 / 2)
    skewFit_ordered skewFit_interior
  rw [lowerBracket_unique skewFit_ordered ha skewFit_lower,
    upperBracket_unique skewFit_ordered hc skewFit_upper] at h
  rw [h]
  norm_num [LayerFitResult.GetL, epsilon, abs_lt]

/-- Claim C27, amended: in exact arithmetic, for a positive pitch and an ordered map whose
every record stores the longitudinal coordinate `GetL(key) = key * pitch`, a successful
longitudinal locate at an interior target layer returns `0 <= w2 < 1` and `0 < w1 <= 1`; on a
map with a record that stores a coordinate greater than the queried one inside the same layer
(keys 0, 1, 3, the key 1 storing 19/10, pitch 1, rL = 3/2) the locate returns the weights
15/11 and -4/11; and in the `float` arithmetic of the code, on the map with the keys 44, 45,
47 whose records store `GetL(key)` for the pitch 0.3f, the locate at rL = 13.5 returns a first
weight above 1 and a negative second weight. -/
theorem C27_no_extrapolation (zPitch : K) (f : TwoDSlidingFitResult K) (rL : K)
    (s : SurroundingLayers K) (hz : 0 < zPitch)
    (hstored : ∀ e ∈ f.m_layerFitResultMap, e.2.GetL = GetL zPitch e.1)
    (hord : Ordered f.m_layerFitResultMap)
    (hint : Interior f.m_layerFitResultMap (GetLayer zPitch rL))
    (hok : f.GetSurroundingLayerIterators zPitch rL = .ok s) :
    (0 ≤ s.secondWeight ∧ s.secondWeight < 1 ∧ 0 < s.firstWeight ∧ s.firstWeight ≤ 1) ∧
      skewFit.GetSurroundingLayerIterators 1 (3 / 2) =
        .ok ⟨(1, ⟨19 / 10, 0, 0, 0⟩), (3, ⟨3, 0, 0, 0⟩), 15 / 11, -4 / 11⟩ ∧
      edgeFit.GetSurroundingLayerIteratorsF (toFloat (3 / 10)) (27 / 2) =
        .ok ⟨(45, ⟨GetLF (toFloat (3 / 10)) 45, 0, 0, 0⟩),
          (47, ⟨GetLF (toFloat (3 / 10)) 47, 0, 0, 0⟩),
          8388621 / 8388608, -13981027 / 8796093022208⟩ := by
  refine ⟨?_, skewFit_locate, edgeFit_locate⟩
  obtain ⟨a, c, ha, hc, heq⟩ := GetSurroundingLayerIterators_interior zPitch f rL hord hint
  rw [heq] at hok
  split_ifs at hok with hd
  simp only [Except.ok.injEq] at hok
  subst hok
  simp only
  obtain ⟨hlo, hhi⟩ := GetLayer_bounds hz rL
  have haL : a.2.GetL ≤ rL := by
    rw [hstored a ha.1]
    refine le_trans ?_ hlo
    unfold GetL
    exact mul_le_mul_of_nonneg_right (Int.cast_le.2 ha.2.1) (le_of_lt hz)
  have hcL : rL < c.2.GetL := by
    rw [hstored c hc.1]
    refine lt_of_lt_of_le hhi ?_
    unfold GetL
    exact mul_le_mul_of_nonneg_right (Int.cast_le.2 hc.2.1) (le_of_lt hz)
  have hden : 0 < c.2.GetL - a.2.GetL := by linarith
  have h0 : 0 ≤ (rL - a.2.GetL) / (c.2.GetL - a.2.GetL) :=
    div_nonneg (by linarith) (le_of_lt hden)
  have h1 : (rL - a.2.GetL) / (c.2.GetL - a.2.GetL) < 1 :=
    (div_lt_one hden).2 (by linarith)
  exact ⟨h0, h1, by linarith, by linarith⟩

/-- Witness of the amended C27 in exact arithmetic, on the example map (keys 0, 2, 5 storing
0, 2, 5, pitch 1) at rL = 7/2: both weights are 1/2. -/
theorem C27_no_extrapolation_witness :
    (0 : ℚ) ≤ 1 / 2 ∧ (1 / 2 : ℚ) < 1 ∧ (0 : ℚ) < 1 / 2 ∧ (1 / 2 : ℚ) ≤ 1 :=
  (C27_no_extrapolation (1 : ℚ) exampleFit (7 / 2)
    ⟨(2, ⟨2, 3, 1, 2⟩), (5, ⟨5, 0, -1, 3⟩), 1 / 2, 1 / 2⟩ (by norm_num)
    (by
      intro e he
      simp only [exampleFit, exampleMap, List.mem_cons, List.mem_singleton, List.mem_nil_iff,
        or_false] at he
      rcases he with rfl | rfl | rfl <;> norm_num [LayerFitResult.GetL, GetL])
    exampleFit_ordered exampleFit_interior exampleFit_locate).1

/-- Counterexample to C27 as stated, in the `float` arithmetic of the code: the pitch 0.3f is
above zero, every record of the ordered map with the keys 44, 45, 47 stores `GetL(key)`, the
layer 45 of rL = 13.5 is interior, and the locate succeeds with the first weight
8388621/8388608, above 1, and the second weight -13981027/8796093022208, below 0: the stored
coordinate `GetL(45)` is greater than 13.5. -/
theorem C27_no_extrapolation_counterexample :
    0 < toFloat (3 / 10) ∧
      (∀ e ∈ edgeFit.m_layerFitResultMap, e.2.GetL = GetLF (toFloat (3 / 10)) e.1) ∧
      Ordered edgeFit.m_layerFitResultMap ∧
      Interior edgeFit.m_layerFitResultMap (GetLayerF (toFloat (3 / 10)) (27 / 2)) ∧
      edgeFit.GetSurroundingLayerIteratorsF (toFloat (3 / 10)) (27 / 2) =
        .ok ⟨(45, ⟨GetLF (toFloat (3 / 10)) 45, 0, 0, 0⟩),
          (47, ⟨GetLF (toFloat (3 / 10)) 47, 0, 0, 0⟩),
          8388621 / 8388608, -13981027 / 8796093022208⟩ ∧
      (-13981027 / 8796093022208 : ℚ) < 0 ∧ (1 : ℚ) < 8388621 / 8388608 := by
  have hlayer : GetLayerF (toFloat (3 / 10)) (27 / 2) = 45 := by
    rw [toFloat_pitch]
    exact GetLayerF_edge
  refine ⟨?_, ?_, ?_, ?_, edgeFit_locate, by norm_num, by norm_num⟩
  · rw [toFloat_pitch]
    norm_num
  · intro e he
    simp only [edgeFit, List.mem_cons, List.mem_singleton, List.mem_nil_iff, or_false] at he
    rcases he with rfl | rfl | rfl <;> rfl
  · simp [Ordered, edgeFit]
  · rw [hlayer]
    simp [Interior, edgeFit]

/-- Claim C28: whenever a coordinate-mode locate succeeds and exactly one of the global
coordinates of its two brackets is greater than `p`, both returned weights lie in the closed
interval [0, 1]. -/
theorem C28_opposite_sides_weights (zPitch : K) (f : TwoDSlidingFitResult K) (p : K)
    (useX : Bool) (s : SurroundingLayers K)
    (hok : f.GetSurroundingLayerIteratorsP zPitch p useX = .ok s)
    (hside : (chosenCoordinate useX (f.layerPosition s.firstLayerIter) > p ∧
        ¬ chosenCoordinate useX (f.layerPosition s.secondLayerIter) > p) ∨
      (¬ chosenCoordinate useX (f.layerPosition s.firstLayerIter) > p ∧
        chosenCoordinate useX (f.layerPosition s.secondLayerIter) > p)) :
    0 ≤ s.firstWeight ∧ s.firstWeight ≤ 1 ∧ 0 ≤ s.secondWeight ∧ s.secondWeight ≤ 1 := by
  obtain ⟨b, r, _, _, _, _, _, h⟩ := GetSurroundingLayerIteratorsP_ok_inv hok
  rcases h with ⟨_, rfl⟩ | ⟨_, rfl⟩ | ⟨_, _, a, c, _, _, _, _, _, _, hd, rfl⟩
  · norm_num
  · norm_num
  · simp only at hside ⊢
    have hne := ne_zero_of_not_abs_lt_epsilon hd
    have key : 0 ≤ (p - chosenCoordinate useX (f.layerPosition a)) /
          (chosenCoordinate useX (f.layerPosition c) -
            chosenCoordinate useX (f.layerPosition a)) ∧
        (p - chosenCoordinate useX (f.layerPosition a)) /
          (chosenCoordinate useX (f.layerPosition c) -
            chosenCoordinate useX (f.layerPosition a)) ≤ 1 := by
      rcases hside with ⟨h1, h2⟩ | ⟨h1, h2⟩
      · have h3 : chosenCoordinate useX (f.layerPosition c) -
            chosenCoordinate useX (f.layerPosition a) < 0 := by
          have := not_lt.1 h2
          have h4 : p < chosenCoordinate useX (f.layerPosition a) := h1
          linarith
        constructor
        · exact div_nonneg_of_nonpos (by linarith [h1]) (le_of_lt h3)
        · rw [div_le_one_of_neg h3]
          have := not_lt.1 h2
          linarith
      · have h4 : p < chosenCoordinate useX (f.layerPosition c) := h2
        have h5 := not_lt.1 h1
        have h3 : 0 < chosenCoordinate useX (f.layerPosition c) -
            chosenCoordinate useX (f.layerPosition a) := by linarith
        constructor
        · exact div_nonneg (by linarith) (le_of_lt h3)
        · rw [div_le_one h3]
          linarith
    exact ⟨by linarith [key.2], by linarith [key.1], key.1, key.2⟩

/-- Witness of C28 on the example map at p = 3/2 on the Z coordinate: the brackets are the
layers 2 and 0, on either side of p, and the weights are 3/4 and 1/4. -/
theorem C28_opposite_sides_weights_witness :
    (0 : ℚ) ≤ 3 / 4 ∧ (3 / 4 : ℚ) ≤ 1 ∧ (0 : ℚ) ≤ 1 / 4 ∧ (1 / 4 : ℚ) ≤ 1 :=
  C28_opposite_sides_weights (1 : ℚ) exampleFit (3 / 2) false
    ⟨(2, ⟨2, 3, 1, 2⟩), (0, ⟨0, 1, 0, 1⟩), 3 / 4, 1 / 4⟩ exampleFit_locateP
    (Or.inl (by
      norm_num [chosenCoordinate, layerPosition, GetGlobalPosition, exampleFit,
        CartesianVector.add, CartesianVector.smul, CartesianVector.GetCrossProduct,
        LayerFitResult.GetL, LayerFitResult.GetFitT]))

end WeightRanges

/-! ## The walk of the coordinate locate -/

namespace TwoDSlidingFitResult

open LayerFitResultMap StatusCode

section WalkToTheEnd

variable {K : Type} [LinearOrderedField K]

/-- When no populated layer the second loop can still visit lies on the other side of `p`, the
loop runs to the end of its range and ends on the entry `last` of the boundary key in the
direction of the walk. -/
theorem secondLayerLoopP_no_crossing (f : TwoDSlidingFitResult K) (p : K) (useX : Bool)
    (firstIsAhead : Bool) (minLayer maxLayer : Int) (increment : Int)
    (hinc : increment = -1 ∨ increment = 1) (hord : Ordered f.m_layerFitResultMap)
    (last : LayerIter K) (hlast : last ∈ f.m_layerFitResultMap)
    (hdown : increment = -1 → last.1 = minLayer) (hup : increment = 1 → last.1 = maxLayer) :
    ∀ (n : Nat) (iLayer : Int) (acc : Option (LayerIter K)) (pos : CartesianVector K),
      (increment * (last.1 - iLayer)).toNat = n → 0 ≤ increment * (last.1 - iLayer) →
      minLayer ≤ iLayer → iLayer ≤ maxLayer →
      (∀ x ∈ f.m_layerFitResultMap, 0 ≤ increment * (x.1 - iLayer) →
        firstIsAhead = isAhead p useX (f.layerPosition x)) →
      secondLayerLoopP f p useX firstIsAhead minLayer maxLayer increment hinc acc pos iLayer =
        (some last, f.layerPosition last) := by
  intro n
  induction n with
  | zero =>
    intro iLayer acc pos hn hdir hlo hhi hsame
    have hi : last.1 = iLayer := by
      rcases hinc with h | h <;> simp only [h] at hn hdir <;> omega
    have hnot : ¬ firstIsAhead ≠
        isAhead p useX (f.GetGlobalPosition last.2.GetL last.2.GetFitT) :=
      not_not.2 (hsame last hlast (by rw [hi, sub_self, mul_zero]))
    have hout : ¬ (minLayer ≤ last.1 + increment ∧ last.1 + increment ≤ maxLayer) := by
      rcases hinc with h | h
      · have := hdown h
        simp only [h]
        omega
      · have := hup h
        simp only [h]
        omega
    rw [secondLayerLoopP, if_pos ⟨hlo, hhi⟩, ← hi, find_of_mem hord hlast]
    simp only
    rw [if_neg hnot, secondLayerLoopP, if_neg hout]
    rfl
  | succ n ih =>
    intro iLayer acc pos hn hdir hlo hhi hsame
    rw [secondLayerLoopP, if_pos ⟨hlo, hhi⟩]
    have hstep : (increment * (last.1 - (iLayer + increment))).toNat = n ∧
        0 ≤ increment * (last.1 - (iLayer + increment)) ∧
        minLayer ≤ iLayer + increment ∧ iLayer + increment ≤ maxLayer := by
      rcases hinc with h | h
      · have := hdown h
        simp only [h] at hn hdir ⊢
        omega
      · have := hup h
        simp only [h] at hn hdir ⊢
        omega
    have hsame2 : ∀ x ∈ f.m_layerFitResultMap, 0 ≤ increment * (x.1 - (iLayer + increment)) →
        firstIsAhead = isAhead p useX (f.layerPosition x) := by
      intro x hx h1
      apply hsame x hx
      rcases hinc with h | h <;> simp only [h] at h1 ⊢ <;> omega
    cases hf : f.m_layerFitResultMap.find iLayer with
    | none =>
      simp only
      exact ih _ _ _ hstep.1 hstep.2.1 hstep.2.2.1 hstep.2.2.2 hsame2
    | some t =>
      have ht := find_some hf
      have hnot : ¬ firstIsAhead ≠ isAhead p useX (f.GetGlobalPosition t.2.GetL t.2.GetFitT) :=
        not_not.2 (hsame t ht.1 (by rw [ht.2, sub_self, mul_zero]))
      simp only
      rw [if_neg hnot]
      exact ih _ _ _ hstep.1 hstep.2.1 hstep.2.2.1 hstep.2.2.2 hsame2

end WalkToTheEnd

end TwoDSlidingFitResult

section WalkClaims

open TwoDSlidingFitResult LayerFitResultMap StatusCode

variable {K : Type} [LinearOrderedField K] [FloorRing K]

/-- Claim C29: in a coordinate-mode locate on a non-empty map whose start layer lies strictly
between the keys of `begin()` and `rbegin()`, once the first scan has found the first bracket
`a`, the key of `a` is strictly greater than the minimum key and strictly less than the maximum
key, the second loop entered from `a` ends on an entry for either increment (and for either
value of `firstIsAhead`), and the locate does not throw `STATUS_CODE_NOT_FOUND`. -/
theorem C29_walk_finds_layer (zPitch : K) (f : TwoDSlidingFitResult K) (p : K) (useX : Bool)
    (b r a : LayerIter K) (hb : f.m_layerFitResultMap.begin = some b)
    (hr : f.m_layerFitResultMap.rbegin = some r)
    (hlo : b.1 < GetLayer zPitch (f.firstL p useX))
    (hhi : GetLayer zPitch (f.firstL p useX) < r.1)
    (ha : firstLayerLoopP f.m_layerFitResultMap r.1 (GetLayer zPitch (f.firstL p useX)) =
      some a) :
    b.1 < a.1 ∧ a.1 < r.1 ∧
      (∀ (increment : Int) (hinc : increment = -1 ∨ increment = 1) (firstIsAhead : Bool),
        (secondLayerLoopP f p useX firstIsAhead b.1 r.1 increment hinc none ⟨0, 0, 0⟩
          (a.1 + increment)).1 ≠ none) ∧
      (f.secondLayerWalk p useX b.1 r.1 a).1 ≠ none ∧
      f.GetSurroundingLayerIteratorsP zPitch p useX ≠ .error STATUS_CODE_NOT_FOUND := by
  have ha2 := firstLayerLoopP_some _ _ _ rfl ha
  have hba : b.1 < a.1 := by omega
  have har : a.1 < r.1 := ha2.2.2.1
  obtain ⟨c, hc, _, _, _⟩ := secondLayerWalk_spec p useX hb hr hba har
  refine ⟨hba, har, ?_, ?_, ?_⟩
  · intro increment hinc firstIsAhead
    rcases hinc with h | h
    · exact secondLayerLoopP_isSome f p useX _ b.1 r.1 _ _ b (begin_mem hb) (le_refl _)
        (by omega) _ _ _ _ rfl (by simp only [h]; omega) (by simp only [h]; omega)
        (by simp only [h]; omega)
    · exact secondLayerLoopP_isSome f p useX _ b.1 r.1 _ _ r (rbegin_mem hr) (by omega)
        (le_refl _) _ _ _ _ rfl (by simp only [h]; omega) (by simp only [h]; omega)
        (by simp only [h]; omega)
  · rw [hc]
    simp
  · rw [GetSurroundingLayerIteratorsP_eq hb hr, ha]
    simp only [hc]
    intro hbad
    split_ifs at hbad <;> cases hbad

/-- Witness of C29 on the example map (keys 0, 2, 5) at p = 3/2 on the Z coordinate: the
first bracket is the layer 2, strictly between 0 and 5. -/
theorem C29_walk_finds_layer_witness : (0 : Int) < 2 ∧ (2 : Int) < 5 :=
  ⟨(C29_walk_finds_layer (1 : ℚ) exampleFit (3 / 2) false (0, ⟨0, 1, 0, 1⟩) (5, ⟨5, 0, -1, 3⟩)
      (2, ⟨2, 3, 1, 2⟩) exampleFit_begin exampleFit_rbegin
      (by rw [exampleFit_start_one]; decide) (by rw [exampleFit_start_one]; decide)
      (by rw [exampleFit_start_one]; exact exampleFit_first_from_one)).1,
    by decide⟩

/-- Claim C30: in a coordinate-mode locate on an ordered map with a valid axis and an interior
start layer, with the first bracket `a` found by the first scan, when every populated layer
in the walk direction has its global coordinate on the same side of `p` as that of `a`, the
walk ends on the entry of the boundary key in the walk direction (`begin()` when the increment
is -1, `rbegin()` when it is +1), and the locate throws `STATUS_CODE_FAILURE` when the
coordinates of that entry and of `a` differ by less than epsilon and otherwise returns `a`,
that entry and the weights of the linear formula. -/
theorem C30_no_crossing_uses_last (zPitch : K) (f : TwoDSlidingFitResult K) (p : K)
    (useX : Bool) (b r a : LayerIter K) (hord : Ordered f.m_layerFitResultMap)
    (haxis : ¬ |chosenCoordinate useX f.m_axisDirection| < epsilon)
    (hb : f.m_layerFitResultMap.begin = some b) (hr : f.m_layerFitResultMap.rbegin = some r)
    (hint : Interior f.m_layerFitResultMap (GetLayer zPitch (f.firstL p useX)))
    (ha : firstLayerLoopP f.m_layerFitResultMap r.1 (GetLayer zPitch (f.firstL p useX)) =
      some a)
    (hno : ∀ x ∈ f.m_layerFitResultMap, 0 < f.incrementAt p useX a * (x.1 - a.1) →
      (chosenCoordinate useX (f.layerPosition x) > p ↔
        chosenCoordinate useX (f.layerPosition a) > p)) :
    f.secondLayerWalk p useX b.1 r.1 a =
        (some (if f.incrementAt p useX a = -1 then b else r),
          f.layerPosition (if f.incrementAt p useX a = -1 then b else r)) ∧
      f.GetSurroundingLayerIteratorsP zPitch p useX =
        if |chosenCoordinate useX (f.layerPosition (if f.incrementAt p useX a = -1 then b else r)) -
            chosenCoordinate useX (f.layerPosition a)| < epsilon then
          .error STATUS_CODE_FAILURE
        else .ok ⟨a, if f.incrementAt p useX a = -1 then b else r,
          1 - (p - chosenCoordinate useX (f.layerPosition a)) /
            (chosenCoordinate useX
                (f.layerPosition (if f.incrementAt p useX a = -1 then b else r)) -
              chosenCoordinate useX (f.layerPosition a)),
          (p - chosenCoordinate useX (f.layerPosition a)) /
            (chosenCoordinate useX
                (f.layerPosition (if f.incrementAt p useX a = -1 then b else r)) -
              chosenCoordinate useX (f.layerPosition a))⟩ := by
  obtain ⟨⟨x, hx, hxlt⟩, ⟨y, hy, hylt⟩⟩ := hint
  have hbx := begin_le hord hb x hx
  have hyr := le_rbegin hord hr y hy
  have ha2 := firstLayerLoopP_some _ _ _ rfl ha
  have hba : b.1 < a.1 := by omega
  have har : a.1 < r.1 := ha2.2.2.1
  have hinc := incrementAt_cases f p useX a
  have hwalk : f.secondLayerWalk p useX b.1 r.1 a =
      (some (if f.incrementAt p useX a = -1 then b else r),
        f.layerPosition (if f.incrementAt p useX a = -1 then b else r)) := by
    unfold secondLayerWalk
    refine secondLayerLoopP_no_crossing f p useX _ b.1 r.1 _ _ hord _ ?_ ?_ ?_ _ _ _ _ rfl
      ?_ ?_ ?_ ?_
    · rcases hinc with h | h
      · rw [if_pos h]
        exact begin_mem hb
      · rw [if_neg (by rw [h]; decide)]
        exact rbegin_mem hr
    · intro h
      rw [if_pos h]
    · intro h
      rw [if_neg (by rw [h]; decide)]
    · rcases hinc with h | h
      · rw [if_pos h]
        simp only [h]
        omega
      · rw [if_neg (by rw [h]; decide)]
        simp only [h]
        omega
    · rcases hinc with h | h <;> simp only [h] <;> omega
    · rcases hinc with h | h <;> simp only [h] <;> omega
    · intro z hz hdir
      rw [isAhead_eq, isAhead_eq, decide_eq_decide]
      refine (hno z hz ?_).symm
      rcases hinc with h | h <;> simp only [h] at hdir ⊢ <;> omega
  refine ⟨hwalk, ?_⟩
  rw [GetSurroundingLayerIteratorsP_eq hb hr, if_neg haxis]
  have h1 : ¬ (GetLayer zPitch (f.firstL p useX) < b.1 ∨
      GetLayer zPitch (f.firstL p useX) > r.1) := by
    intro h
    rcases h with h | h <;> omega
  have h2 : ¬ GetLayer zPitch (f.firstL p useX) = b.1 := by omega
  have h3 : ¬ GetLayer zPitch (f.firstL p useX) = r.1 := by omega
  rw [if_neg h1, if_neg h2, if_neg h3, ha]
  simp only [hwalk]

theorem offsetFit_begin : offsetFit.m_layerFitResultMap.begin = some (0, ⟨2, 0, 0, 0⟩) := rfl

theorem offsetFit_rbegin : offsetFit.m_layerFitResultMap.rbegin = some (5, ⟨5, 0, 0, 0⟩) := rfl

theorem offsetFit_ordered : Ordered offsetFit.m_layerFitResultMap := by
  simp [Ordered, offsetFit]

theorem offsetFit_axis_z : ¬ |chosenCoordinate false offsetFit.m_axisDirection| < epsilon := by
  norm_num [chosenCoordinate, offsetFit, epsilon]

theorem offsetFit_start : GetLayer (1 : ℚ) (offsetFit.firstL (3 / 2) false) = 1 := by
  simp only [firstL, chosenCoordinate, offsetFit, GetLayer, Int.floor_eq_iff]
  norm_num

theorem offsetFit_first :
    firstLayerLoopP offsetFit.m_layerFitResultMap 5 1 = some (2, ⟨3, 0, 0, 0⟩) := by
  simp [firstLayerLoopP, offsetFit, LayerFitResultMap.find]

theorem offsetFit_increment : offsetFit.incrementAt (3 / 2) false (2, ⟨3, 0, 0, 0⟩) = -1 := by
  norm_num [incrementAt, chosenCoordinate, layerPosition, GetGlobalPosition, offsetFit,
    CartesianVector.add, CartesianVector.smul, CartesianVector.GetCrossProduct,
    LayerFitResult.GetL, LayerFitResult.GetFitT]

/-- Witness of C30 on the map with the keys 0, 2, 5 storing the coordinates 2, 3, 5, at
p = 3/2 on the Z coordinate: the first bracket is the layer 2, the walk goes down, the layer 0
is on the same side of p, and the locate returns the layers 2 and 0 with the weights -1/2 and
3/2. -/
theorem C30_no_crossing_uses_last_witness :
    offsetFit.GetSurroundingLayerIteratorsP 1 (3 / 2) false =
      .ok ⟨(2, ⟨3, 0, 0, 0⟩), (0, ⟨2, 0, 0, 0⟩), -1 / 2, 3 / 2⟩ := by
  have h := (C30_no_crossing_uses_last (1 : ℚ) offsetFit (3 / 2) false (0, ⟨2, 0, 0, 0⟩)
    (5, ⟨5, 0, 0, 0⟩) (2, ⟨3, 0, 0, 0⟩) offsetFit_ordered offsetFit_axis_z offsetFit_begin
    offsetFit_rbegin (by rw [offsetFit_start]; simp [Interior, offsetFit])
    (by rw [offsetFit_start]; exact offsetFit_first)
    (by
      intro x hx hdir
      rw [offsetFit_increment] at hdir
      simp only [offsetFit, List.mem_cons, List.mem_singleton, List.mem_nil_iff,
        or_false] at hx
      rcases hx with rfl | rfl | rfl
      · norm_num [chosenCoordinate, layerPosition, GetGlobalPosition, offsetFit,
          CartesianVector.add, CartesianVector.smul, CartesianVector.GetCrossProduct,
          LayerFitResult.GetL, LayerFitResult.GetFitT]
      · simp at hdir
      · simp at hdir)).2
  rw [offsetFit_increment] at h
  rw [h]
  norm_num [chosenCoordinate, layerPosition, GetGlobalPosition, offsetFit, epsilon,
    CartesianVector.add, CartesianVector.smul, CartesianVector.GetCrossProduct,
    LayerFitResult.GetL, LayerFitResult.GetFitT, abs_lt]

end WalkClaims

/-! ## Layer lookups of the locates -/

namespace TwoDSlidingFitResult

open LayerFitResultMap StatusCode

section LookupLemmas

variable {K : Type}

/-- The traced first loop of the rL locate returns what the loop returns; its lookups lie
between `minLayer` and the entry index, are distinct, and are no more than the indices left. -/
theorem firstLayerLoopTraced_spec (m : LayerFitResultMap K) (minLayer : Int) :
    ∀ (n : Nat) (iLayer : Int), (iLayer + 1 - minLayer).toNat = n →
      (firstLayerLoopTraced m minLayer iLayer).1 = firstLayerLoop m minLayer iLayer ∧
      (∀ v ∈ (firstLayerLoopTraced m minLayer iLayer).2, minLayer ≤ v ∧ v ≤ iLayer) ∧
      (firstLayerLoopTraced m minLayer iLayer).2.Nodup ∧
      (firstLayerLoopTraced m minLayer iLayer).2.length ≤ n := by
  intro n
  induction n with
  | zero =>
    intro iLayer hn
    have hout : ¬ minLayer ≤ iLayer := by omega
    rw [firstLayerLoopTraced, firstLayerLoop, if_neg hout, if_neg hout]
    simp
  | succ n ih =>
    intro iLayer hn
    rw [firstLayerLoopTraced, firstLayerLoop]
    by_cases hin : minLayer ≤ iLayer
    · rw [if_pos hin, if_pos hin]
      cases hf : m.find iLayer with
      | some e => simp [hin]
      | none =>
        obtain ⟨h1, h2, h3, h4⟩ := ih (iLayer - 1) (by omega)
        simp only
        refine ⟨h1, ?_, ?_, ?_⟩
        · intro v hv
          rw [List.mem_cons] at hv
          rcases hv with rfl | hv
          · omega
          · have := h2 v hv
            omega
        · rw [List.nodup_cons]
          refine ⟨fun hmem => ?_, h3⟩
          have := h2 _ hmem
          omega
        · rw [List.length_cons]
          omega
    · rw [if_neg hin, if_neg hin]
      simp

/-- The traced second loop of the rL locate returns what the loop returns; its lookups lie
between the entry index and `maxLayer`, are distinct, and are no more than the indices left. -/
theorem secondLayerLoopTraced_spec (m : LayerFitResultMap K) (maxLayer : Int) :
    ∀ (n : Nat) (iLayer : Int), (maxLayer + 1 - iLayer).toNat = n →
      (secondLayerLoopTraced m maxLayer iLayer).1 = secondLayerLoop m maxLayer iLayer ∧
      (∀ v ∈ (secondLayerLoopTraced m maxLayer iLayer).2, iLayer ≤ v ∧ v ≤ maxLayer) ∧
      (secondLayerLoopTraced m maxLayer iLayer).2.Nodup ∧
      (secondLayerLoopTraced m maxLayer iLayer).2.length ≤ n := by
  intro n
  induction n with
  | zero =>
    intro iLayer hn
    have hout : ¬ iLayer ≤ maxLayer := by omega
    rw [secondLayerLoopTraced, secondLayerLoop, if_neg hout, if_neg hout]
    simp
  | succ n ih =>
    intro iLayer hn
    rw [secondLayerLoopTraced, secondLayerLoop]
    by_cases hin : iLayer ≤ maxLayer
    · rw [if_pos hin, if_pos hin]
      cases hf : m.find iLayer with
      | some e => simp [hin]
      | none =>
        obtain ⟨h1, h2, h3, h4⟩ := ih (iLayer + 1) (by omega)
        simp only
        refine ⟨h1, ?_, ?_, ?_⟩
        · intro v hv
          rw [List.mem_cons] at hv
          rcases hv with rfl | hv
          · omega
          · have := h2 v hv
            omega
        · rw [List.nodup_cons]
          refine ⟨fun hmem => ?_, h3⟩
          have := h2 _ hmem
          omega
        · rw [List.length_cons]
          omega
    · rw [if_neg hin, if_neg hin]
      simp

/-- The traced first loop of the coordinate locate returns what the loop returns; its lookups
lie from the entry index to below `maxLayer`, are distinct, and are no more than the indices
left. -/
theorem firstLayerLoopPTraced_spec (m : LayerFitResultMap K) (maxLayer : Int) :
    ∀ (n : Nat) (iLayer : Int), (maxLayer - iLayer).toNat = n →
      (firstLayerLoopPTraced m maxLayer iLayer).1 = firstLayerLoopP m maxLayer iLayer ∧
      (∀ v ∈ (firstLayerLoopPTraced m maxLayer iLayer).2, iLayer ≤ v ∧ v < maxLayer) ∧
      (firstLayerLoopPTraced m maxLayer iLayer).2.Nodup ∧
      (firstLayerLoopPTraced m maxLayer iLayer).2.length ≤ n := by
  intro n
  induction n with
  | zero =>
    intro iLayer hn
    have hout : ¬ iLayer < maxLayer := by omega
    rw [firstLayerLoopPTraced, firstLayerLoopP, if_neg hout, if_neg hout]
    simp
  | succ n ih =>
    intro iLayer hn
    rw [firstLayerLoopPTraced, firstLayerLoopP]
    by_cases hin : iLayer < maxLayer
    · rw [if_pos hin, if_pos hin]
      cases hf : m.find iLayer with
      | some e => simp [hin]
      | none =>
        obtain ⟨h1, h2, h3, h4⟩ := ih (iLayer + 1) (by omega)
        simp only
        refine ⟨h1, ?_, ?_, ?_⟩
        · intro v hv
          rw [List.mem_cons] at hv
          rcases hv with rfl | hv
          · omega
          · have := h2 v hv
            omega
        · rw [List.nodup_cons]
          refine ⟨fun hmem => ?_, h3⟩
          have := h2 _ hmem
          omega
        · rw [List.length_cons]
          omega
    · rw [if_neg hin, if_neg hin]
      simp

end LookupLemmas

section WalkLookups

variable {K : Type} [LinearOrderedField K]

/-- The traced second loop of the coordinate locate returns what the loop returns; its lookups
lie in the span, at or beyond the entry index in the direction of the walk, are distinct, and
are no more than the indices left in that direction. -/
theorem secondLayerLoopPTraced_spec (f : TwoDSlidingFitResult K) (p : K) (useX : Bool)
    (firstIsAhead : Bool) (minLayer maxLayer : Int) (increment : Int)
    (hinc : increment = -1 ∨ increment = 1) :
    ∀ (n : Nat) (iLayer : Int) (acc : Option (LayerIter K)) (pos : CartesianVector K),
      (if increment = -1 then iLayer + 1 - minLayer else maxLayer + 1 - iLayer).toNat = n →
      (secondLayerLoopPTraced f p useX firstIsAhead minLayer maxLayer increment hinc acc pos
          iLayer).1 =
        secondLayerLoopP f p useX firstIsAhead minLayer maxLayer increment hinc acc pos iLayer ∧
      (∀ v ∈ (secondLayerLoopPTraced f p useX firstIsAhead minLayer maxLayer increment hinc acc
          pos iLayer).2, minLayer ≤ v ∧ v ≤ maxLayer ∧ 0 ≤ increment * (v - iLayer)) ∧
      (secondLayerLoopPTraced f p useX firstIsAhead minLayer maxLayer increment hinc acc pos
          iLayer).2.Nodup ∧
      (secondLayerLoopPTraced f p useX firstIsAhead minLayer maxLayer increment hinc acc pos
          iLayer).2.length ≤ n := by
  intro n
  induction n with
  | zero =>
    intro iLayer acc pos hn
    have hout : ¬ (minLayer ≤ iLayer ∧ iLayer ≤ maxLayer) := by
      rcases hinc with h | h <;> simp [h] at hn <;> omega
    rw [secondLayerLoopPTraced, secondLayerLoopP, if_neg hout, if_neg hout]
    simp
  | succ n ih =>
    intro iLayer acc pos hn
    rw [secondLayerLoopPTraced, secondLayerLoopP]
    by_cases hin : minLayer ≤ iLayer ∧ iLayer ≤ maxLayer
    · rw [if_pos hin, if_pos hin]
      have hn2 : (if increment = -1 then iLayer + increment + 1 - minLayer
          else maxLayer + 1 - (iLayer + increment)).toNat = n := by
        rcases hinc with h | h <;> simp [h] at hn ⊢ <;> omega
      have hstep : ∀ (acc2 : Option (LayerIter K)) (pos2 : CartesianVector K),
          (∀ v ∈ iLayer :: (secondLayerLoopPTraced f p useX firstIsAhead minLayer maxLayer
              increment hinc acc2 pos2 (iLayer + increment)).2,
            minLayer ≤ v ∧ v ≤ maxLayer ∧ 0 ≤ increment * (v - iLayer)) ∧
          (iLayer :: (secondLayerLoopPTraced f p useX firstIsAhead minLayer maxLayer
              increment hinc acc2 pos2 (iLayer + increment)).2).Nodup ∧
          (iLayer :: (secondLayerLoopPTraced f p useX firstIsAhead minLayer maxLayer
              increment hinc acc2 pos2 (iLayer + increment)).2).length ≤ n + 1 := by
        intro acc2 pos2
        obtain ⟨_, h2, h3, h4⟩ := ih (iLayer + increment) acc2 pos2 hn2
        refine ⟨?_, ?_, ?_⟩
        · intro v hv
          rw [List.mem_cons] at hv
          rcases hv with rfl | hv
          · refine ⟨hin.1, hin.2, ?_⟩
            rw [sub_self, mul_zero]
          · have h5 := h2 v hv
            refine ⟨h5.1, h5.2.1, ?_⟩
            have h6 := h5.2.2
            rcases hinc with h | h <;> simp only [h] at h6 ⊢ <;> omega
        · rw [List.nodup_cons]
          refine ⟨fun hmem => ?_, h3⟩
          have h6 := (h2 _ hmem).2.2
          rcases hinc with h | h <;> simp only [h] at h6 <;> omega
        · rw [List.length_cons]
          omega
      cases hf : f.m_layerFitResultMap.find iLayer with
      | none =>
        simp only
        exact ⟨(ih _ _ _ hn2).1, hstep acc pos⟩
      | some t =>
        simp only
        split_ifs
        · simp [hin.1, hin.2]
        · exact ⟨(ih _ _ _ hn2).1, hstep _ _⟩
    · rw [if_neg hin, if_neg hin]
      simp

theorem walkIncrement_cases (firstIsAhead increasesWithLayers : Bool) :
    walkIncrement firstIsAhead increasesWithLayers = -1 ∨
      walkIncrement firstIsAhead increasesWithLayers = 1 := by
  unfold walkIncrement
  split <;> simp

/-- The walk entered next to an index of the span looks up fewer indices than the distance
from one end of the span to the other, plus one. -/
theorem secondLayerLoopPTraced_length (f : TwoDSlidingFitResult K) (p : K) (useX : Bool)
    (firstIsAhead : Bool) (minLayer maxLayer : Int) (increment : Int)
    (hinc : increment = -1 ∨ increment = 1) (acc : Option (LayerIter K))
    (pos : CartesianVector K) (a : Int) (hlo : minLayer ≤ a) (hhi : a ≤ maxLayer) :
    (secondLayerLoopPTraced f p useX firstIsAhead minLayer maxLayer increment hinc acc pos
      (a + increment)).2.length ≤ (maxLayer - minLayer).toNat := by
  refine le_trans (secondLayerLoopPTraced_spec f p useX firstIsAhead minLayer maxLayer increment
    hinc _ (a + increment) acc pos rfl).2.2.2 ?_
  rcases hinc with h | h <;> simp only [h] <;> simp <;> omega

variable [FloorRing K]

/-- The traced rL locate returns what the locate returns; its lookups are distinct, lie in the
span, and are no more than the indices of the span. -/
theorem GetSurroundingLayerIteratorsTraced_spec (zPitch : K) (f : TwoDSlidingFitResult K)
    (rL : K) :
    (f.GetSurroundingLayerIteratorsTraced zPitch rL).1 =
        f.GetSurroundingLayerIterators zPitch rL ∧
      (f.GetSurroundingLayerIteratorsTraced zPitch rL).2.Nodup ∧
      (f.GetSurroundingLayerIteratorsTraced zPitch rL).2.length ≤
        layerSpan f.m_layerFitResultMap ∧
      ∀ v ∈ (f.GetSurroundingLayerIteratorsTraced zPitch rL).2,
        ∃ b r, f.m_layerFitResultMap.begin = some b ∧ f.m_layerFitResultMap.rbegin = some r ∧
          b.1 ≤ v ∧ v ≤ r.1 := by
  unfold GetSurroundingLayerIteratorsTraced GetSurroundingLayerIterators layerSpan
  cases hb : f.m_layerFitResultMap.begin with
  | none => simp
  | some b =>
    cases hr : f.m_layerFitResultMap.rbegin with
    | none => simp
    | some r =>
      simp only
      by_cases h1 : GetLayer zPitch rL < b.1 ∨ GetLayer zPitch rL > r.1
      · rw [if_pos h1, if_pos h1]
        simp
      rw [if_neg h1, if_neg h1]
      by_cases h2 : GetLayer zPitch rL = b.1
      · rw [if_pos h2, if_pos h2]
        simp
      rw [if_neg h2, if_neg h2]
      by_cases h3 : GetLayer zPitch rL = r.1
      · rw [if_pos h3, if_pos h3]
        simp
      rw [if_neg h3, if_neg h3]
      obtain ⟨f1, f2, f3, f4⟩ := firstLayerLoopTraced_spec f.m_layerFitResultMap b.1 _
        (GetLayer zPitch rL) rfl
      obtain ⟨s1, s2, s3, s4⟩ := secondLayerLoopTraced_spec f.m_layerFitResultMap r.1 _
        (GetLayer zPitch rL + 1) rfl
      have hboth : ((firstLayerLoopTraced f.m_layerFitResultMap b.1 (GetLayer zPitch rL)).2 ++
            (secondLayerLoopTraced f.m_layerFitResultMap r.1 (GetLayer zPitch rL + 1)).2).Nodup
          ∧ ((firstLayerLoopTraced f.m_layerFitResultMap b.1 (GetLayer zPitch rL)).2 ++
            (secondLayerLoopTraced f.m_layerFitResultMap r.1
              (GetLayer zPitch rL + 1)).2).length ≤ (r.1 - b.1 + 1).toNat
          ∧ ∀ v ∈ (firstLayerLoopTraced f.m_layerFitResultMap b.1 (GetLayer zPitch rL)).2 ++
            (secondLayerLoopTraced f.m_layerFitResultMap r.1 (GetLayer zPitch rL + 1)).2,
            ∃ b2 r2, some b = some b2 ∧ some r = some r2 ∧ b2.1 ≤ v ∧ v ≤ r2.1 := by
        refine ⟨?_, ?_, ?_⟩
        · refine List.Nodup.append f3 s3 ?_
          intro v hv1 hv2
          have := f2 v hv1
          have := s2 v hv2
          omega
        · rw [List.length_append]
          omega
        · intro v hv
          rw [List.mem_append] at hv
          refine ⟨b, r, rfl, rfl, ?_⟩
          rcases hv with hv | hv
          · have := f2 v hv
            omega
          · have := s2 v hv
            omega
      have hfirst : (firstLayerLoopTraced f.m_layerFitResultMap b.1 (GetLayer zPitch rL)).2.length
            ≤ (r.1 - b.1 + 1).toNat
          ∧ ∀ v ∈ (firstLayerLoopTraced f.m_layerFitResultMap b.1 (GetLayer zPitch rL)).2,
            ∃ b2 r2, some b = some b2 ∧ some r = some r2 ∧ b2.1 ≤ v ∧ v ≤ r2.1 := by
        refine ⟨by omega, ?_⟩
        intro v hv
        have := f2 v hv
        exact ⟨b, r, rfl, rfl, by omega, by omega⟩
      rw [f1, s1]
      cases firstLayerLoop f.m_layerFitResultMap b.1 (GetLayer zPitch rL) with
      | none => exact ⟨rfl, f3, hfirst.1, hfirst.2⟩
      | some a =>
        cases secondLayerLoop f.m_layerFitResultMap r.1 (GetLayer zPitch rL + 1) with
        | none => exact ⟨rfl, hboth.1, hboth.2.1, hboth.2.2⟩
        | some c => exact ⟨rfl, hboth.1, hboth.2.1, hboth.2.2⟩

/-- The traced coordinate locate returns what the locate returns; its lookups lie in the span
and are no more than twice the indices of the span. -/
theorem GetSurroundingLayerIteratorsPTraced_spec (zPitch : K) (f : TwoDSlidingFitResult K)
    (p : K) (useX : Bool) :
    (f.GetSurroundingLayerIteratorsPTraced zPitch p useX).1 =
        f.GetSurroundingLayerIteratorsP zPitch p useX ∧
      (f.GetSurroundingLayerIteratorsPTraced zPitch p useX).2.length ≤
        2 * layerSpan f.m_layerFitResultMap ∧
      ∀ v ∈ (f.GetSurroundingLayerIteratorsPTraced zPitch p useX).2,
        ∃ b r, f.m_layerFitResultMap.begin = some b ∧ f.m_layerFitResultMap.rbegin = some r ∧
          b.1 ≤ v ∧ v ≤ r.1 := by
  unfold GetSurroundingLayerIteratorsPTraced GetSurroundingLayerIteratorsP layerSpan
  cases hb : f.m_layerFitResultMap.begin with
  | none => simp
  | some b =>
    cases hr : f.m_layerFitResultMap.rbegin with
    | none => simp
    | some r =>
      simp only
      by_cases h0 : useX = true ∧ |f.m_axisDirection.x| < epsilon
      · rw [if_pos h0, if_pos h0]
        simp
      rw [if_neg h0, if_neg h0]
      by_cases h0z : useX = false ∧ |f.m_axisDirection.z| < epsilon
      · rw [if_pos h0z, if_pos h0z]
        simp
      rw [if_neg h0z, if_neg h0z]
      generalize (if useX = true then (p - f.m_axisIntercept.x) / f.m_axisDirection.x
        else (p - f.m_axisIntercept.z) / f.m_axisDirection.z) = firstL
      by_cases h1 : GetLayer zPitch firstL < b.1 ∨ GetLayer zPitch firstL > r.1
      · rw [if_pos h1, if_pos h1]
        simp
      rw [if_neg h1, if_neg h1]
      by_cases h2 : GetLayer zPitch firstL = b.1
      · rw [if_pos h2, if_pos h2]
        simp
      rw [if_neg h2, if_neg h2]
      by_cases h3 : GetLayer zPitch firstL = r.1
      · rw [if_pos h3, if_pos h3]
        simp
      rw [if_neg h3, if_neg h3]
      obtain ⟨f1, f2, f3, f4⟩ := firstLayerLoopPTraced_spec f.m_layerFitResultMap r.1 _
        (GetLayer zPitch firstL) rfl
      rw [f1]
      cases ha : firstLayerLoopP f.m_layerFitResultMap r.1 (GetLayer zPitch firstL) with
      | none =>
        refine ⟨rfl, by simp only; omega, ?_⟩
        intro v hv
        have := f2 v hv
        exact ⟨b, r, rfl, rfl, by omega, by omega⟩
      | some a =>
        have ha2 := firstLayerLoopP_some _ _ _ rfl ha
        simp only
        have hinc : walkIncrement (isAhead p useX (f.GetGlobalPosition a.2.GetL a.2.GetFitT))
              (if useX = true then decide (f.m_axisDirection.x > 0)
                else decide (f.m_axisDirection.z > 0)) = -1 ∨
            walkIncrement (isAhead p useX (f.GetGlobalPosition a.2.GetL a.2.GetFitT))
              (if useX = true then decide (f.m_axisDirection.x > 0)
                else decide (f.m_axisDirection.z > 0)) = 1 := walkIncrement_cases _ _
        obtain ⟨w1, w2, _, _⟩ := secondLayerLoopPTraced_spec f p useX
          (isAhead p useX (f.GetGlobalPosition a.2.GetL a.2.GetFitT)) b.1 r.1 _ hinc _
          (a.1 + walkIncrement (isAhead p useX (f.GetGlobalPosition a.2.GetL a.2.GetFitT))
            (if useX = true then decide (f.m_axisDirection.x > 0)
              else decide (f.m_axisDirection.z > 0))) none ⟨0, 0, 0⟩ rfl
        have wlen := secondLayerLoopPTraced_length f p useX
          (isAhead p useX (f.GetGlobalPosition a.2.GetL a.2.GetFitT)) b.1 r.1 _ hinc none
          ⟨0, 0, 0⟩ a.1 (by omega) (by omega)
        have hboth : ((firstLayerLoopPTraced f.m_layerFitResultMap r.1
              (GetLayer zPitch firstL)).2 ++
            (secondLayerLoopPTraced f p useX
              (isAhead p useX (f.GetGlobalPosition a.2.GetL a.2.GetFitT)) b.1 r.1 _ hinc none
              ⟨0, 0, 0⟩ (a.1 + walkIncrement
                (isAhead p useX (f.GetGlobalPosition a.2.GetL a.2.GetFitT))
                (if useX = true then decide (f.m_axisDirection.x > 0)
                  else decide (f.m_axisDirection.z > 0)))).2).length ≤
              2 * (r.1 - b.1 + 1).toNat ∧
            ∀ v ∈ (firstLayerLoopPTraced f.m_layerFitResultMap r.1 (GetLayer zPitch firstL)).2 ++
              (secondLayerLoopPTraced f p useX
                (isAhead p useX (f.GetGlobalPosition a.2.GetL a.2.GetFitT)) b.1 r.1 _ hinc none
                ⟨0, 0, 0⟩ (a.1 + walkIncrement
                  (isAhead p useX (f.GetGlobalPosition a.2.GetL a.2.GetFitT))
                  (if useX = true then decide (f.m_axisDirection.x > 0)
                    else decide (f.m_axisDirection.z > 0)))).2,
              ∃ b2 r2, some b = some b2 ∧ some r = some r2 ∧ b2.1 ≤ v ∧ v ≤ r2.1 := by
          refine ⟨?_, ?_⟩
          · rw [List.length_append]
            omega
          · intro v hv
            rw [List.mem_append] at hv
            refine ⟨b, r, rfl, rfl, ?_⟩
            rcases hv with hv | hv
            · have := f2 v hv
              omega
            · have := w2 v hv
              omega
        rw [w1]
        cases (secondLayerLoopP f p useX
          (isAhead p useX (f.GetGlobalPosition a.2.GetL a.2.GetFitT)) b.1 r.1 _ hinc none
          ⟨0, 0, 0⟩ (a.1 + walkIncrement
            (isAhead p useX (f.GetGlobalPosition a.2.GetL a.2.GetFitT))
            (if useX = true then decide (f.m_axisDirection.x > 0)
              else decide (f.m_axisDirection.z > 0)))).1 with
        | none => exact ⟨rfl, hboth.1, hboth.2⟩
        | some c => exact ⟨rfl, hboth.1, hboth.2⟩

end WalkLookups

end TwoDSlidingFitResult

/-! ## Evaluation of the lookups on the example map -/

section LookupExamples

open TwoDSlidingFitResult LayerFitResultMap StatusCode

theorem exampleFit_first_lookups :
    firstLayerLoopTraced exampleFit.m_layerFitResultMap 0 3 = (some (2, ⟨2, 3, 1, 2⟩), [3, 2]) := by
  simp [firstLayerLoopTraced, exampleFit, exampleMap, LayerFitResultMap.find]

theorem exampleFit_second_lookups :
    secondLayerLoopTraced exampleFit.m_layerFitResultMap 5 4 = (some (5, ⟨5, 0, -1, 3⟩), [4, 5]) := by
  simp [secondLayerLoopTraced, exampleFit, exampleMap, LayerFitResultMap.find]

theorem exampleFit_lookups :
    (exampleFit.GetSurroundingLayerIteratorsTraced 1 (7 / 2)).2 = [3, 2, 4, 5] := by
  unfold GetSurroundingLayerIteratorsTraced
  rw [exampleFit_begin, exampleFit_rbegin]
  simp only [exampleFit_layer_interior]
  norm_num [exampleFit_first_lookups, exampleFit_second_lookups]

theorem exampleFit_firstP_lookups :
    firstLayerLoopPTraced exampleFit.m_layerFitResultMap 5 1 = (some (2, ⟨2, 3, 1, 2⟩), [1, 2]) := by
  simp [firstLayerLoopPTraced, exampleFit, exampleMap, LayerFitResultMap.find]

theorem exampleFit_walk_lookups (hinc : (-1 : Int) = -1 ∨ (-1 : Int) = 1) :
    secondLayerLoopPTraced exampleFit (3 / 2) false true 0 5 (-1) hinc none ⟨0, 0, 0⟩ 1 =
      ((some (0, ⟨0, 1, 0, 1⟩), ⟨-1, 0, 0⟩), [1, 0]) := by
  rw [secondLayerLoopPTraced]
  norm_num [exampleMap_find_one, exampleFit]
  rw [secondLayerLoopPTraced]
  norm_num [exampleMap_find_zero, isAhead, layerPosition, GetGlobalPosition,
    CartesianVector.add, CartesianVector.smul, CartesianVector.GetCrossProduct,
    LayerFitResult.GetL, LayerFitResult.GetFitT]

theorem exampleFit_lookupsP :
    (exampleFit.GetSurroundingLayerIteratorsPTraced 1 (3 / 2) false).2 = [1, 2, 1, 0] := by
  have hstart : GetLayer (1 : ℚ) ((3 / 2 - exampleFit.m_axisIntercept.z) /
      exampleFit.m_axisDirection.z) = 1 := by
    simp only [exampleFit, GetLayer, Int.floor_eq_iff]
    norm_num
  have hahead : isAhead (3 / 2 : ℚ) false (exampleFit.GetGlobalPosition
      (LayerFitResult.GetL ⟨2, 3, 1, 2⟩) (LayerFitResult.GetFitT ⟨2, 3, 1, 2⟩)) = true := by
    norm_num [isAhead, GetGlobalPosition, exampleFit,
      CartesianVector.add, CartesianVector.smul, CartesianVector.GetCrossProduct,
      LayerFitResult.GetL, LayerFitResult.GetFitT]
  have hup : decide (exampleFit.m_axisDirection.z > 0) = true := by
    norm_num [exampleFit]
  unfold GetSurroundingLayerIteratorsPTraced
  rw [exampleFit_begin, exampleFit_rbegin]
  simp only [Bool.false_eq_true, false_and, if_false, hstart, exampleFit_firstP_lookups,
    hahead, hup, walkIncrement]
  norm_num [exampleFit_walk_lookups]
  have hz : ¬ |exampleFit.m_axisDirection.z| < epsilon := exampleFit_axis_z
  rw [if_neg hz]

end LookupExamples

section LookupClaims

open TwoDSlidingFitResult LayerFitResultMap StatusCode

variable {K : Type} [LinearOrderedField K] [FloorRing K]

/-- Claim C22: both locates are total functions of the layer map and the input, layer
indices taken as unbounded integers. The locate by `rL` with its lookups traced returns what
the locate returns, looks up no layer index twice and makes at most
`maxLayer - minLayer + 1` lookups; the locate by coordinate with its lookups traced returns
what the locate returns and makes at most twice that many lookups; and each of the four loops,
entered at any index, returns with its lookups traced what the loop returns and looks up no
layer index twice. On the example map the locate at rL = 7/2 looks up the layers 3, 2, 4, 5 and
the locate at the coordinate p = 3/2 looks up the layers 1, 2, 1, 0: the walk looks up again a
layer index of the first scan. -/
theorem C22_lookups_bounded (zPitch : K) (f : TwoDSlidingFitResult K) (rL p : K)
    (useX : Bool) :
    ((f.GetSurroundingLayerIteratorsTraced zPitch rL).1 =
          f.GetSurroundingLayerIterators zPitch rL ∧
        (f.GetSurroundingLayerIteratorsTraced zPitch rL).2.Nodup ∧
        (f.GetSurroundingLayerIteratorsTraced zPitch rL).2.length ≤
          layerSpan f.m_layerFitResultMap) ∧
      ((f.GetSurroundingLayerIteratorsPTraced zPitch p useX).1 =
          f.GetSurroundingLayerIteratorsP zPitch p useX ∧
        (f.GetSurroundingLayerIteratorsPTraced zPitch p useX).2.length ≤
          2 * layerSpan f.m_layerFitResultMap) ∧
      (∀ (minLayer maxLayer iLayer : Int),
        ((firstLayerLoopTraced f.m_layerFitResultMap minLayer iLayer).1 =
            firstLayerLoop f.m_layerFitResultMap minLayer iLayer ∧
          (firstLayerLoopTraced f.m_layerFitResultMap minLayer iLayer).2.Nodup) ∧
        ((secondLayerLoopTraced f.m_layerFitResultMap maxLayer iLayer).1 =
            secondLayerLoop f.m_layerFitResultMap maxLayer iLayer ∧
          (secondLayerLoopTraced f.m_layerFitResultMap maxLayer iLayer).2.Nodup) ∧
        ((firstLayerLoopPTraced f.m_layerFitResultMap maxLayer iLayer).1 =
            firstLayerLoopP f.m_layerFitResultMap maxLayer iLayer ∧
          (firstLayerLoopPTraced f.m_layerFitResultMap maxLayer iLayer).2.Nodup) ∧
        ∀ (firstIsAhead : Bool) (increment : Int) (hinc : increment = -1 ∨ increment = 1)
          (secondLayerIter : Option (LayerIter K)) (secondLayerPosition : CartesianVector K),
          (secondLayerLoopPTraced f p useX firstIsAhead minLayer maxLayer increment hinc
              secondLayerIter secondLayerPosition iLayer).1 =
            secondLayerLoopP f p useX firstIsAhead minLayer maxLayer increment hinc
              secondLayerIter secondLayerPosition iLayer ∧
          (secondLayerLoopPTraced f p useX firstIsAhead minLayer maxLayer increment hinc
            secondLayerIter secondLayerPosition iLayer).2.Nodup) ∧
      (exampleFit.GetSurroundingLayerIteratorsTraced 1 (7 / 2)).2 = [3, 2, 4, 5] ∧
      (exampleFit.GetSurroundingLayerIteratorsPTraced 1 (3 / 2) false).2 = [1, 2, 1, 0] := by
  have hL := GetSurroundingLayerIteratorsTraced_spec zPitch f rL
  have hP := GetSurroundingLayerIteratorsPTraced_spec zPitch f p useX
  refine ⟨⟨hL.1, hL.2.1, hL.2.2.1⟩, ⟨hP.1, hP.2.1⟩, ?_, exampleFit_lookups,
    exampleFit_lookupsP⟩
  intro minLayer maxLayer iLayer
  have h1 := firstLayerLoopTraced_spec f.m_layerFitResultMap minLayer _ iLayer rfl
  have h2 := secondLayerLoopTraced_spec f.m_layerFitResultMap maxLayer _ iLayer rfl
  have h3 := firstLayerLoopPTraced_spec f.m_layerFitResultMap maxLayer _ iLayer rfl
  refine ⟨⟨h1.1, h1.2.2.1⟩, ⟨h2.1, h2.2.2.1⟩, ⟨h3.1, h3.2.2.1⟩, ?_⟩
  intro firstIsAhead increment hinc secondLayerIter secondLayerPosition
  have h4 := secondLayerLoopPTraced_spec f p useX firstIsAhead minLayer maxLayer increment hinc
    _ iLayer secondLayerIter secondLayerPosition rfl
  exact ⟨h4.1, h4.2.2.1⟩

end LookupClaims

end lar
